import Mathlib

/-!
# WebASTParser: a shallow embedding with verified properties

This file embeds the core of the WebASTParser library (a language-agnostic
source-code structural analyzer for Python and a TypeScript-like language)
into Lean 4 and proves properties of the embedded code.

The embedding follows the TypeScript sources:
* `src/utils.ts` — position utilities (`Index`, `Range`, `compare`, …);
* `src/matchers/*` — `BracesMatcher`, `ExpressionMatcher`,
  `StringExpressionMatcher` (in `src/impl/typescript/index.ts` parts);
* `src/parsing/AbstractTokenizer.ts` — the character-fed lexer framework;
* `src/impl/python/PythonTokenizer.ts`, `TypeScriptTokenizer` — concrete lexers;
* `src/parsing/AbstractParser.ts` — the grammar-driven parse engine;
* `src/impl/python/PythonParser.ts`, `src/impl/typescript/TypeScriptParser.ts`
  — the language detectors;
* `src/parsing/ASTGenericTokenizer.ts`, `ASTFaithfulTokenizer.ts` — the
  faithful tree tokenizer.

Strings are modelled as `List Char` (`Str`); JavaScript exceptions are
modelled with `Except`.
-/

set_option maxHeartbeats 1600000
set_option maxRecDepth 4096

namespace WebAST

/-- Strings of the embedded program: JavaScript strings as lists of characters. -/
abbrev Str := List Char

/-- `utils.ts` `Index`: a (line, character) position. -/
structure Index where
  line : Nat
  character : Nat
deriving DecidableEq, Repr

/-- `utils.ts` `Range`: a half-open range of positions. -/
structure Range where
  start_line : Nat
  start_character : Nat
  end_line : Nat
  end_character : Nat
deriving DecidableEq, Repr

/-- `utils.ts` `CharacterRange`: flat half-open character offsets.
The source field `end` is a Lean keyword, rendered here as `stop`. -/
structure CharacterRange where
  start : Nat
  stop : Nat
deriving DecidableEq, Repr

/-- `utils.ts` `rangeToStartIndex`. -/
def rangeToStartIndex (range : Range) : Index :=
  { line := range.start_line, character := range.start_character }

/-- `utils.ts` `rangeToEndIndex`. -/
def rangeToEndIndex (range : Range) : Index :=
  { line := range.end_line, character := range.end_character }

/-- `utils.ts` `indexesToRange`. -/
def indexesToRange (start : Index) (stop : Index) : Range :=
  { start_line := start.line, start_character := start.character,
    end_line := stop.line, end_character := stop.character }

/-- `utils.ts` `compare`: -1, 0, 1 ordering of two indices (as `Int`). -/
def compare (index1 : Index) (index2 : Index) : Int :=
  if index1.line < index2.line then -1
  else if index2.line < index1.line then 1
  else
    if index1.character < index2.character then -1
    else if index2.character < index1.character then 1
    else 0

/-- `utils.ts` `mergeRanges` on a nonempty head/tail presentation
(the source throws on an empty list; callers always pass nonempty lists). -/
def mergeRanges (first : Range) (rest : List Range) : Range :=
  let fold := rest.foldl
    (fun (acc : Index × Index) (r : Range) =>
      let s2 := rangeToStartIndex r
      let e2 := rangeToEndIndex r
      let s := if compare s2 acc.1 = -1 then s2 else acc.1
      let e := if compare acc.2 e2 = -1 then e2 else acc.2
      (s, e))
    (rangeToStartIndex first, rangeToEndIndex first)
  indexesToRange fold.1 fold.2

/-- `utils.ts` `contains`: non-strict range containment. -/
def rangeContains (biggerRange : Range) (insideRange : Range) : Bool :=
  (compare (rangeToStartIndex biggerRange) (rangeToStartIndex insideRange) ≤ 0) &&
  (compare (rangeToEndIndex insideRange) (rangeToEndIndex biggerRange) ≤ 0)

/-- `utils.ts` `getMaxRange`. -/
def getMaxRange (codeLines : List Str) : Range :=
  if codeLines.length = 0 then
    { start_line := 0, start_character := 0, end_line := 0, end_character := 0 }
  else
    { start_line := 0, start_character := 0,
      end_line := codeLines.length, end_character := 0 }

/-- `utils.ts` `getCharacter` (with the end-of-line virtual `'\n'`);
out-of-bounds accesses, which throw in the source, return `none`. -/
def getCharacter (codeLines : List Str) (index : Index) : Option Char :=
  match codeLines[index.line]? with
  | none => none
  | some lineContent =>
    if index.character < lineContent.length then
      lineContent[index.character]?
    else if index.character = lineContent.length then
      some '\n'
    else none

/-! ## JavaScript string helpers -/

/-- JS whitespace test used by `String.prototype.trim` (restricted to the
characters that occur in this code base). -/
def isJsWhitespace (c : Char) : Bool :=
  c = ' ' || c = '\t' || c = '\n' || c = '\r'

/-- JS `String.prototype.trim`. -/
def jsTrim (s : Str) : Str :=
  ((s.dropWhile isJsWhitespace).reverse.dropWhile isJsWhitespace).reverse

/-- JS `String.prototype.substring(a, b)` for `a ≤ b` call sites. -/
def jsSubstring (s : Str) (a b : Nat) : Str :=
  (s.drop a).take (b - a)

/-- JS `String.prototype.indexOf` for a single character; `-1` becomes `none`. -/
def jsIndexOfChar (s : Str) (c : Char) : Option Nat :=
  s.indexOf? c

/-- JS `String.prototype.repeat`. -/
def jsRepeat (s : Str) : Nat → Str
  | 0 => []
  | n + 1 => s ++ jsRepeat s n

/-! ## BracesMatcher (`src/matchers/BracesMatcher.ts`) -/

/-- `Braces`: an (opening, closing) pair, each a JS string. -/
structure Braces where
  opening : Str
  closing : Str
deriving DecidableEq, Repr

/-- The mutable state of a `BracesMatcher`: the two lookup maps built by the
constructor and the current stack. -/
structure BracesMatcherState where
  openingToClosing : List (Char × Char)
  closingToOpening : List (Char × Char)
  stack : List Char
deriving DecidableEq, Repr

/-- The constructor's validation-and-population loop: walks the brace pairs,
accumulating `tempIntersectionCheck` exactly as the source does (note that
the source pushes only the *opening* characters onto the check list). -/
def bracesConstructorLoop : List Braces → List Char → List (Char × Char) →
    List (Char × Char) → Except String (List (Char × Char) × List (Char × Char))
  | [], _, o2c, c2o => .ok (o2c, c2o)
  | brace :: rest, tempIntersectionCheck, o2c, c2o =>
    if brace.opening.length ≠ 1 then
      .error "Opening brace must be exactly one character."
    else if brace.closing.length ≠ 1 then
      .error "Closing brace must be exactly one character."
    else
      let op := brace.opening.headD ' '
      let cl := brace.closing.headD ' '
      if tempIntersectionCheck.contains op then
        .error "Opening brace repeated!"
      else
        let check := tempIntersectionCheck ++ [op]
        if check.contains cl then
          .error "Closing brace repeated!"
        else
          bracesConstructorLoop rest check (o2c ++ [(op, cl)]) (c2o ++ [(cl, op)])

/-- `BracesMatcher` constructor: validates the pairs and returns the initial
state, or the thrown error. -/
def bracesMatcherInit (braces : List Braces) : Except String BracesMatcherState :=
  match bracesConstructorLoop braces [] [] [] with
  | .error e => .error e
  | .ok (o2c, c2o) => .ok { openingToClosing := o2c, closingToOpening := c2o, stack := [] }

/-- `BracesMatcher.next`: processes a character (as a JS string), returning the
new depth and state, or the thrown error. -/
def bracesNext (m : BracesMatcherState) (ch : Str) : Except String (Nat × BracesMatcherState) :=
  if ch.length ≠ 1 then .error "Input character must be exactly one character long."
  else
    let c := ch.headD ' '
    if (m.openingToClosing.lookup c).isSome then
      let m' := { m with stack := m.stack ++ [c] }
      .ok (m'.stack.length, m')
    else if (m.closingToOpening.lookup c).isSome then
      match m.stack.getLast? with
      | none => .error "Unmatched closing brace encountered with no corresponding opening brace."
      | some lastOpening =>
        match m.openingToClosing.lookup lastOpening with
        | some expectedClosing =>
          if c = expectedClosing then
            let m' := { m with stack := m.stack.dropLast }
            .ok (m'.stack.length, m')
          else .error "Mismatched closing brace."
        | none => .error "Mismatched closing brace."
    else .error "Invalid brace"

/-- `BracesMatcher.reset`. -/
def bracesReset (m : BracesMatcherState) : BracesMatcherState :=
  { m with stack := [] }

/-- `BracesMatcher.currentDepth`. -/
def bracesCurrentDepth (m : BracesMatcherState) : Nat :=
  m.stack.length

/-! ## ExpressionMatcher / StringExpressionMatcher
(`src/matchers/ExpressionMatcher.ts`, `StringExpressionMatcher.ts`)

The two classes are character-for-character parallel except for the element
type (numbers vs characters) and the validation details, so the streaming
`next` is embedded once, generically in the symbol type `α`. -/

/-- `ExpressionMatcher.isSuffix(seqA, seqB)`: checks whether `seqB` is a suffix
of `seqA`, exactly as the index loop in the source. -/
def exprIsSuffix {α : Type} [DecidableEq α] (seqA seqB : List α) : Bool :=
  if seqB.length > seqA.length then false
  else (List.range seqB.length).all fun i =>
    seqA[seqA.length - (i + 1)]? = seqB[seqB.length - (i + 1)]?

/-- The suffix-ambiguity double loop shared by both validations: is there a
pair `i ≠ j` with `values[j]` a suffix of `values[i]`? -/
def hasSuffixAmbiguity {α : Type} [DecidableEq α] (values : List (List α)) : Bool :=
  (List.range values.length).any fun i =>
    (List.range values.length).any fun j =>
      i ≠ j && exprIsSuffix (values.getD i []) (values.getD j [])

/-- `ExpressionMatcher.validateExpressions` (numeric patterns): empty-set,
empty-sequence, suffix-ambiguity and duplicate checks, in source order. -/
def validateExpressions (expressions : List (String × List Nat)) : Except String Unit :=
  let values := expressions.map (·.2)
  if values.length = 0 then .error "Must have some expression to match."
  else if values.any (fun v => v.length = 0) then .error "Matching sequences must be non-empty."
  else if hasSuffixAmbiguity values then .error "Ambiguous expressions."
  else if (values.dedup.length ≠ values.length : Bool) then .error "Duplicate matching sequences are not allowed."
  else .ok ()

/-- `StringExpressionMatcher.validateExpressions`: empty-set, empty-string and
suffix-ambiguity (`strA.endsWith(strB)`) checks, in source order. -/
def strValidateExpressions (expressions : List (String × Str)) : Except String Unit :=
  let values := expressions.map (·.2)
  if values.length = 0 then .error "Must have some expression to match."
  else if values.any (fun v => v.length = 0) then .error "Matching strings must be non-empty."
  else if hasSuffixAmbiguity values then .error "Ambiguous expressions."
  else .ok ()

/-- The per-pattern inner loop of `next`: pushes a fresh progress `0`, then
advances or discards every progress (the source's reverse loop visits each
element independently, so the surviving progresses keep their order).
Returns the surviving progresses and the number of completed matches. -/
def stepProgresses {α : Type} [DecidableEq α] (expr : List α) (progresses : List Nat)
    (num : α) : List Nat × Nat :=
  let advanced := (progresses ++ [0]).filterMap fun p =>
    if expr[p]? = some num then some (p + 1) else none
  (advanced.filter (fun p => p ≠ expr.length),
   (advanced.filter (fun p => p = expr.length)).length)

/-- A streaming matcher state: the fixed key→pattern list and the per-key
progress lists (aligned positionally). -/
structure MatcherState (α : Type) where
  expressions : List (String × List α)
  potentialMatches : List (List Nat)
deriving Repr

/-- `ExpressionMatcher.next` / `StringExpressionMatcher.next`: processes one
symbol; throws when more than one key completes on the same symbol. -/
def matcherNext {α : Type} [DecidableEq α] (m : MatcherState α) (num : α) :
    Except String (Option String × MatcherState α) :=
  let results := (m.expressions.zip m.potentialMatches).map
    fun kp => (kp.1.1, stepProgresses kp.1.2 kp.2 num)
  let completed : Nat := (results.map (fun r => r.2.2)).sum
  if 2 ≤ completed then
    .error "Multiple matches detected, which violates non-overlapping suffix constraint."
  else
    let matched := (results.find? (fun r => r.2.2 = 1)).map (·.1)
    .ok (matched, { m with potentialMatches := results.map (fun r => r.2.1) })

/-- `reset`: clears every progress list. -/
def matcherReset {α : Type} (m : MatcherState α) : MatcherState α :=
  { m with potentialMatches := m.expressions.map (fun _ => []) }

/-- The state constructed by the matcher constructors (empty progress lists). -/
def matcherInit {α : Type} (expressions : List (String × List α)) : MatcherState α :=
  { expressions := expressions, potentialMatches := expressions.map (fun _ => []) }

/-- One externally visible operation on a matcher. -/
inductive MatcherOp (α : Type) where
  | next (sym : α)
  | reset
deriving Repr

/-- Runs a sequence of operations against a matcher, collecting the outputs of
the `next` calls; stops at the first thrown error. -/
def matcherRun {α : Type} [DecidableEq α] (m : MatcherState α) :
    List (MatcherOp α) → Except String (List (Option String) × MatcherState α)
  | [] => .ok ([], m)
  | .reset :: rest => matcherRun (matcherReset m) rest
  | .next sym :: rest =>
    match matcherNext m sym with
    | .error e => .error e
    | .ok (out, m') =>
      match matcherRun m' rest with
      | .error e => .error e
      | .ok (outs, mf) => .ok (out :: outs, mf)

/-! ## Lexical token model (`src/parsing/ParsingTypes.ts`) -/

/-- `ParsingTypes.ts` `TokenType`. -/
inductive TokenType where
  | MULTILINE_COMMENTS_OR_STRINGS
  | SINGLELINE_COMMENTS
  | STRINGS
  | SPACINGS
  | BRACES
  | COMMAS
  | OTHERS
  | CONTINUATION
deriving DecidableEq, Repr

/-- `ParsingTypes.ts` `Token`. -/
structure Token where
  stringContents : Str
  tokenType : TokenType
  characterRange : CharacterRange
deriving DecidableEq, Repr

/-! ## Lexer framework (`src/parsing/AbstractTokenizer.ts`)

The abstract class is embedded as a record of the two abstract methods
(`matchNext`, `matchEndCharacter`) over an opaque concrete-lexer state `σ`,
plus the frame state (`tokenString`, `stringBuffer`, `charIdx`,
`tokStartIdx`).  `matchNext` additionally receives the current buffer length
(including the newest character), standing for the protected
`currentBufferLength`/`currentBufferSingleCharacter` accessors. -/

/-- The action directive returned by `matchNext`. -/
structure MatchDirective where
  type : TokenType
  singleChType : Option TokenType
  numSplitCharacters : Option Nat
deriving DecidableEq, Repr

/-- A concrete lexer: the two abstract methods of `AbstractTokenizer`. -/
structure LexAutomaton (σ : Type) where
  matchNext : σ → Char → Nat → σ × Option MatchDirective
  matchEndCharacter : σ → TokenType

/-- The frame state of `AbstractTokenizer`. -/
structure TokenizerState (σ : Type) where
  tokenString : List Token
  stringBuffer : Str
  charIdx : Nat
  tokStartIdx : Nat
  lex : σ

/-- Initial tokenizer state. -/
def tokenizerInit {σ : Type} (s0 : σ) : TokenizerState σ :=
  { tokenString := [], stringBuffer := [], charIdx := 0, tokStartIdx := 0, lex := s0 }

/-- `AbstractTokenizer.next(ch)` for an actual character: appends `ch` to the
buffer, consults `matchNext`, and splits the buffer per the directive.
The source's `throw Error(...)` cases are `.error`. -/
def tokenizerNext {σ : Type} (A : LexAutomaton σ) (st : TokenizerState σ) (ch : Char) :
    Except String (TokenizerState σ) :=
  let buf := st.stringBuffer ++ [ch]
  let charIdx := st.charIdx + 1
  let next := A.matchNext st.lex ch buf.length
  let st := { st with stringBuffer := buf, charIdx := charIdx, lex := next.1 }
  match next.2 with
  | none => .ok st
  | some matchResult =>
    if matchResult.type = TokenType.CONTINUATION then
      .error "Only singleChType can be continuation!"
    else
      let length := st.charIdx - st.tokStartIdx
      match matchResult.singleChType with
      | none =>
        .ok { st with
          tokenString := st.tokenString ++
            [{ tokenType := matchResult.type, stringContents := st.stringBuffer,
               characterRange := { start := st.tokStartIdx, stop := st.charIdx } }],
          tokStartIdx := st.charIdx,
          stringBuffer := [] }
      | some singleChType =>
        let k := matchResult.numSplitCharacters.getD 1
        if k < 1 then .error "numSplitCharacters should be >= 1!"
        else if length < k + 1 then
          .error "The length of the buffer must be > numSplitCharacters!"
        else if singleChType = TokenType.CONTINUATION then
          .ok { st with
            tokenString := st.tokenString ++
              [{ tokenType := matchResult.type,
                 stringContents := st.stringBuffer.take (st.stringBuffer.length - k),
                 characterRange := { start := st.tokStartIdx, stop := st.charIdx - k } }],
            tokStartIdx := st.charIdx - k,
            stringBuffer := st.stringBuffer.drop (st.stringBuffer.length - k) }
        else
          .ok { st with
            tokenString := st.tokenString ++
              [{ tokenType := matchResult.type,
                 stringContents := st.stringBuffer.take (st.stringBuffer.length - k),
                 characterRange := { start := st.tokStartIdx, stop := st.charIdx - k } },
               { tokenType := singleChType,
                 stringContents := st.stringBuffer.drop (st.stringBuffer.length - k),
                 characterRange := { start := st.charIdx - k, stop := st.charIdx } }],
            tokStartIdx := st.charIdx,
            stringBuffer := [] }

/-- `AbstractTokenizer.next(null)`: flushes the trailing buffer with
`matchEndCharacter`. -/
def tokenizerConclude {σ : Type} (A : LexAutomaton σ) (st : TokenizerState σ) :
    TokenizerState σ :=
  if st.tokStartIdx < st.charIdx then
    { st with tokenString := st.tokenString ++
        [{ tokenType := A.matchEndCharacter st.lex, stringContents := st.stringBuffer,
           characterRange := { start := st.tokStartIdx, stop := st.charIdx } }] }
  else st

/-- Feeds a list of characters, then the end signal, and returns the tokens. -/
def tokenizeChars {σ : Type} (A : LexAutomaton σ) (s0 : σ) (cs : Str) :
    Except String (List Token) := do
  let mut? : Except String (TokenizerState σ) :=
    cs.foldl (fun acc c => match acc with
      | .error e => .error e
      | .ok st => tokenizerNext A st c) (.ok (tokenizerInit s0))
  match mut? with
  | .error e => .error e
  | .ok st => .ok (tokenizerConclude A st).tokenString

/-- The character feed built by `AbstractParser.parse` (lines 35–46): each
line's characters followed by one `'\n'` per physical line. -/
def parseFeed (codeLines : List Str) : Str :=
  (codeLines.map (fun l => l ++ ['\n'])).flatten

/-- `utils.ts` `splitIntoLines`: split on `\r?\n`. -/
def splitIntoLinesAux : Str → Str → List Str
  | [], cur => [cur.reverse]
  | '\r' :: '\n' :: rest, cur => cur.reverse :: splitIntoLinesAux rest []
  | '\n' :: rest, cur => cur.reverse :: splitIntoLinesAux rest []
  | c :: rest, cur => splitIntoLinesAux rest (c :: cur)

/-- `utils.ts` `splitIntoLines`. -/
def splitIntoLines (codeString : Str) : List Str :=
  splitIntoLinesAux codeString []

/-! ## Python lexer (`src/impl/python/PythonTokenizer.ts`) -/

/-- `PythonTokenizer.ts` `StringOrMultilineStatus`. -/
inductive PyStringStatus where
  | NONE
  | SINGLE_QUOTES
  | DOUBLE_QUOTES
  | TRIPLE_SINGLE_QUOTES
  | TRIPLE_DOUBLE_QUOTES
deriving DecidableEq, Repr

/-- The concrete state of `PythonTokenizer`. -/
structure PyLexState where
  insideSingleLineComments : Bool
  insideStringStatus : PyStringStatus
  previousIsEscape : Bool
  contiguousQuotesCount : Nat
deriving DecidableEq, Repr

/-- `PythonTokenizer` constructor state. -/
def pyLexInit : PyLexState :=
  { insideSingleLineComments := false, insideStringStatus := .NONE,
    previousIsEscape := false, contiguousQuotesCount := 0 }

/-- `PythonTokenizer.handleOtherSituation`. -/
def pyHandleOtherSituation (st : PyLexState) (ch : Char) :
    PyLexState × Option TokenType × Bool :=
  if ch = '{' || ch = '}' || ch = '[' || ch = ']' || ch = '(' || ch = ')' then
    (st, some .BRACES, false)
  else if ch = ' ' || ch = '\t' || ch = '\n' then
    (st, some .SPACINGS, false)
  else if ch = ':' then
    (st, some .OTHERS, false)
  else if ch = ',' then
    (st, some .COMMAS, false)
  else if ch = '#' then
    ({ st with insideSingleLineComments := true }, none, false)
  else if ch = '\"' then
    ({ st with insideStringStatus := .DOUBLE_QUOTES, contiguousQuotesCount := 1 }, none, false)
  else if ch = '\'' then
    ({ st with insideStringStatus := .SINGLE_QUOTES, contiguousQuotesCount := 1 }, none, false)
  else (st, none, true)

/-- `PythonTokenizer.handleSingleQuoteSituation` and
`handleDoubleQuoteSituation` (identical up to the quote character). -/
def pyHandleQuoteSituation (quote : Char) (tripleStatus : PyStringStatus)
    (st : PyLexState) (ch : Char) : PyLexState × Option MatchDirective :=
  if ch = quote && !st.previousIsEscape then
    let st := { st with previousIsEscape := false }
    if st.contiguousQuotesCount = 2 then
      ({ st with insideStringStatus := tripleStatus, contiguousQuotesCount := 0 }, none)
    else if st.contiguousQuotesCount = 1 then
      ({ st with contiguousQuotesCount := 2 }, none)
    else
      ({ st with insideStringStatus := .NONE },
       some { type := .STRINGS, singleChType := none, numSplitCharacters := none })
  else if ch = '\n' then
    ({ st with previousIsEscape := false, contiguousQuotesCount := 0,
               insideStringStatus := .NONE },
     some { type := .STRINGS, singleChType := some .SPACINGS, numSplitCharacters := none })
  else
    if st.contiguousQuotesCount = 1 then
      let st := { st with contiguousQuotesCount := 0 }
      let st := if ch = '\\' then { st with previousIsEscape := !st.previousIsEscape }
                else { st with previousIsEscape := false }
      (st, none)
    else if st.contiguousQuotesCount = 2 then
      -- this branch returns directly in the source, skipping the escape update
      let st := { st with contiguousQuotesCount := 0, previousIsEscape := false,
                          insideStringStatus := .NONE }
      let situation := pyHandleOtherSituation st ch
      let st := situation.1
      match situation.2.1 with
      | none =>
        (st, some { type := .STRINGS, singleChType := some .CONTINUATION,
                    numSplitCharacters := none })
      | some t =>
        (st, some { type := .STRINGS, singleChType := some t, numSplitCharacters := none })
    else
      let st := if ch = '\\' then { st with previousIsEscape := !st.previousIsEscape }
                else { st with previousIsEscape := false }
      (st, none)

/-- `PythonTokenizer.handleTripleSingleQuoteSituation` and
`handleTripleDoubleQuoteSituation` (identical up to the quote character). -/
def pyHandleTripleQuoteSituation (quote : Char) (st : PyLexState) (ch : Char) :
    PyLexState × Option MatchDirective :=
  if ch = quote && !st.previousIsEscape then
    let st := { st with previousIsEscape := false }
    if st.contiguousQuotesCount = 2 then
      ({ st with contiguousQuotesCount := 0, insideStringStatus := .NONE },
       some { type := .MULTILINE_COMMENTS_OR_STRINGS, singleChType := none,
              numSplitCharacters := none })
    else
      ({ st with contiguousQuotesCount := st.contiguousQuotesCount + 1 }, none)
  else
    let st := { st with contiguousQuotesCount := 0 }
    let st := if ch = '\\' then { st with previousIsEscape := !st.previousIsEscape }
              else { st with previousIsEscape := false }
    (st, none)

/-- `PythonTokenizer.matchNext` (`bufLen` is the buffer length including the
newest character, i.e. `currentBufferSingleCharacter() ↔ bufLen = 1`). -/
def pyMatchNext (st : PyLexState) (ch : Char) (bufLen : Nat) :
    PyLexState × Option MatchDirective :=
  if st.insideSingleLineComments then
    if ch = '\n' then
      ({ st with insideSingleLineComments := false },
       some { type := .SINGLELINE_COMMENTS, singleChType := some .SPACINGS,
              numSplitCharacters := none })
    else (st, none)
  else if st.insideStringStatus = .SINGLE_QUOTES then
    pyHandleQuoteSituation '\'' .TRIPLE_SINGLE_QUOTES st ch
  else if st.insideStringStatus = .DOUBLE_QUOTES then
    pyHandleQuoteSituation '\"' .TRIPLE_DOUBLE_QUOTES st ch
  else if st.insideStringStatus = .TRIPLE_SINGLE_QUOTES then
    pyHandleTripleQuoteSituation '\'' st ch
  else if st.insideStringStatus = .TRIPLE_DOUBLE_QUOTES then
    pyHandleTripleQuoteSituation '\"' st ch
  else
    let situation := pyHandleOtherSituation st ch
    let st := situation.1
    if bufLen = 1 then
      match situation.2.1 with
      | some t => (st, some { type := t, singleChType := none, numSplitCharacters := none })
      | none => (st, none)
    else
      match situation.2.1 with
      | none =>
        if situation.2.2 then (st, none)
        else (st, some { type := .OTHERS, singleChType := some .CONTINUATION,
                         numSplitCharacters := none })
      | some t =>
        (st, some { type := .OTHERS, singleChType := some t, numSplitCharacters := none })

/-- `PythonTokenizer.matchEndCharacter`. -/
def pyMatchEndCharacter (st : PyLexState) : TokenType :=
  if st.insideSingleLineComments then .SINGLELINE_COMMENTS
  else if st.insideStringStatus = .SINGLE_QUOTES || st.insideStringStatus = .DOUBLE_QUOTES then
    .STRINGS
  else if st.insideStringStatus = .TRIPLE_DOUBLE_QUOTES ||
          st.insideStringStatus = .TRIPLE_SINGLE_QUOTES then
    .MULTILINE_COMMENTS_OR_STRINGS
  else .OTHERS

/-- `PythonTokenizer` as a lexer automaton. -/
def pythonLexer : LexAutomaton PyLexState :=
  { matchNext := pyMatchNext, matchEndCharacter := pyMatchEndCharacter }

/-! ## TypeScript lexer (`src/impl/typescript/TypeScriptTokenizer.ts`) -/

/-- `TypeScriptTokenizer.ts` `Status`. -/
inductive TsLexStatus where
  | NONE
  | SINGLE_QUOTES
  | DOUBLE_QUOTES
  | MULTILINE_BACKTICKS
  | MULTILINE_COMMENTS
  | EQUALS
deriving DecidableEq, Repr

/-- The concrete state of `TypeScriptTokenizer`; `stringMatcher` is its
`StringExpressionMatcher` over `{COMMENT_START ↦ "//", MULTILINE_COMMENT_START
↦ "/*", MULTILINE_COMMENT_END ↦ "*/"}`. -/
structure TsLexState where
  insideSingleLineComments : Bool
  insideStringStatus : TsLexStatus
  previousIsEscape : Bool
  stringMatcher : MatcherState Char
deriving Repr

/-- The fixed expressions of the TypeScript lexer's string matcher. -/
def tsLexExpressions : List (String × Str) :=
  [("COMMENT_START", ['/', '/']),
   ("MULTILINE_COMMENT_START", ['/', '*']),
   ("MULTILINE_COMMENT_END", ['*', '/'])]

/-- `TypeScriptTokenizer` constructor state. -/
def tsLexInit : TsLexState :=
  { insideSingleLineComments := false, insideStringStatus := .NONE,
    previousIsEscape := false, stringMatcher := matcherInit tsLexExpressions }

/-- `TypeScriptTokenizer.handleOtherSituation`. Returns the updated state, the
token type of the single character (if concluded), and
`needsResetSplitChars`. -/
def tsHandleOtherSituation (st : TsLexState) (ch : Char)
    (matchedExpression : Option String) : TsLexState × Option TokenType × Nat :=
  if ch = '{' || ch = '}' || ch = '[' || ch = ']' || ch = '(' || ch = ')' then
    (st, some .BRACES, 1)
  else if ch = ' ' || ch = '\t' || ch = '\n' || ch = ';' then
    (st, some .SPACINGS, 1)
  else if ch = ',' then
    (st, some .COMMAS, 1)
  else if ch = ':' || ch = '<' || ch = '>' then
    (st, some .OTHERS, 1)
  else if ch = '=' then
    ({ st with insideStringStatus := .EQUALS }, none, 1)
  else if ch = '`' then
    ({ st with insideStringStatus := .MULTILINE_BACKTICKS }, none, 1)
  else if ch = '\'' then
    ({ st with insideStringStatus := .SINGLE_QUOTES }, none, 1)
  else if ch = '\"' then
    ({ st with insideStringStatus := .DOUBLE_QUOTES }, none, 1)
  else if matchedExpression = some "MULTILINE_COMMENT_START" then
    ({ st with insideStringStatus := .MULTILINE_COMMENTS }, none, 2)
  else if matchedExpression = some "COMMENT_START" then
    ({ st with insideSingleLineComments := true }, none, 2)
  else (st, none, 0)

/-- `TypeScriptTokenizer.handleSingleQuoteSituation` /
`handleDoubleQuoteSituation` / `handleMultilineBackticksSituation`
(parameterised by the closing character; backticks do not close on `'\n'`). -/
def tsHandleQuoteSituation (quote : Char) (endType : TokenType) (closeOnNewline : Bool)
    (st : TsLexState) (ch : Char) : TsLexState × Option MatchDirective :=
  if ch = quote && !st.previousIsEscape then
    ({ st with previousIsEscape := false, insideStringStatus := .NONE },
     some { type := endType, singleChType := none, numSplitCharacters := none })
  else if closeOnNewline && ch = '\n' then
    ({ st with previousIsEscape := false, insideStringStatus := .NONE },
     some { type := .STRINGS, singleChType := some .SPACINGS, numSplitCharacters := none })
  else
    let st := if ch = '\\' then { st with previousIsEscape := !st.previousIsEscape }
              else { st with previousIsEscape := false }
    (st, none)

/-- `TypeScriptTokenizer.matchNext`. -/
def tsMatchNext (st : TsLexState) (ch : Char) (bufLen : Nat) :
    TsLexState × Option MatchDirective :=
  -- the leading stringMatcher feed; its `next` cannot throw on this fixed,
  -- validated pattern set, so a (dead) error branch falls back to a reset
  let fed := matcherNext st.stringMatcher ch
  let matchedExpression : Option String :=
    match fed with
    | .ok r => r.1
    | .error _ => none
  let matcherState :=
    match fed with
    | .ok r => if r.1.isSome then matcherReset r.2 else r.2
    | .error _ => matcherReset st.stringMatcher
  let st := { st with stringMatcher := matcherState }
  if st.insideSingleLineComments then
    if ch = '\n' then
      ({ st with insideSingleLineComments := false },
       some { type := .SINGLELINE_COMMENTS, singleChType := some .SPACINGS,
              numSplitCharacters := none })
    else (st, none)
  else if st.insideStringStatus = .SINGLE_QUOTES then
    tsHandleQuoteSituation '\'' .STRINGS true st ch
  else if st.insideStringStatus = .DOUBLE_QUOTES then
    tsHandleQuoteSituation '\"' .STRINGS true st ch
  else if st.insideStringStatus = .MULTILINE_BACKTICKS then
    tsHandleQuoteSituation '`' .MULTILINE_COMMENTS_OR_STRINGS false st ch
  else if st.insideStringStatus = .MULTILINE_COMMENTS then
    if matchedExpression = some "MULTILINE_COMMENT_END" then
      ({ st with insideStringStatus := .NONE },
       some { type := .MULTILINE_COMMENTS_OR_STRINGS, singleChType := none,
              numSplitCharacters := none })
    else (st, none)
  else if st.insideStringStatus = .EQUALS then
    let st := { st with insideStringStatus := .NONE }
    if ch = '>' then
      (st, some { type := .OTHERS, singleChType := none, numSplitCharacters := none })
    else
      let action := tsHandleOtherSituation st ch matchedExpression
      let newChType := (action.2.1).getD .CONTINUATION
      (action.1, some { type := .OTHERS, singleChType := some newChType,
                        numSplitCharacters := none })
  else
    let situation := tsHandleOtherSituation st ch matchedExpression
    let st := situation.1
    if situation.2.2 = 0 then (st, none)
    else if bufLen = situation.2.2 then
      match situation.2.1 with
      | none => (st, none)
      | some t => (st, some { type := t, singleChType := none, numSplitCharacters := none })
    else
      -- note: the source passes no numSplitCharacters here, so it defaults to 1
      match situation.2.1 with
      | none =>
        (st, some { type := .OTHERS, singleChType := some .CONTINUATION,
                    numSplitCharacters := none })
      | some t =>
        (st, some { type := .OTHERS, singleChType := some t,
                    numSplitCharacters := none })

/-- `TypeScriptTokenizer.matchEndCharacter`. -/
def tsMatchEndCharacter (st : TsLexState) : TokenType :=
  if st.insideSingleLineComments then .SINGLELINE_COMMENTS
  else if st.insideStringStatus = .SINGLE_QUOTES || st.insideStringStatus = .DOUBLE_QUOTES then
    .STRINGS
  else if st.insideStringStatus = .MULTILINE_BACKTICKS then .MULTILINE_COMMENTS_OR_STRINGS
  else if st.insideStringStatus = .MULTILINE_COMMENTS then .MULTILINE_COMMENTS_OR_STRINGS
  else .OTHERS

/-- `TypeScriptTokenizer` as a lexer automaton. -/
def typescriptLexer : LexAutomaton TsLexState :=
  { matchNext := tsMatchNext, matchEndCharacter := tsMatchEndCharacter }

/-! ## Grammar symbols (`src/parsing/ParsingTypes.ts`) -/

/-- `ParsingTypes.ts` `NonTerminal`. -/
inductive NonTerminal where
  | TOP_LEVEL
  | CLASSES
  | FUNCTIONS
  | FUNCTION_DECLARATION
  | FUNCTION_BODY
deriving DecidableEq, Repr

/-- `ParsingTypes.ts` `Terminal`. -/
inductive Terminal where
  | COMMENT_SINGLELINE
  | COMMENT_MULTILINE
  | REFERENCES
  | ARGUMENT
  | ATTRIBUTES
  | FILLER
  | STATEMENTS_FILLER
deriving DecidableEq, Repr

/-- The union type `Terminal | NonTerminal` used throughout the parser. -/
inductive PSym where
  | term (t : Terminal)
  | nt (n : NonTerminal)
deriving DecidableEq, Repr

/-- `ParsingTypes.ts` `isTerminal`. -/
def PSym.isTerminal : PSym → Bool
  | .term _ => true
  | .nt _ => false

/-- `ParsingTypes.ts` `TokenRange`. -/
structure TokenRange where
  startTok : Nat
  endTok : Nat
deriving DecidableEq, Repr

/-- The `nodeCreationInformation` payloads passed from the detectors to the
`createX` factories (an untyped `Record<string, any>` in the source; here the
seven shapes that actually occur). -/
inductive NodeInfo where
  | argumentInfo (argumentName : Str) (argumentType : Option Str)
  | attributeInfo (attributeName : Str) (attributeType : Option Str)
  | commentInfo (commentContents : Str)
  | referenceInfo (referenceText : Str) (refRelativePath : Option Str)
  | classInfo (classType : Option Str) (classDefinitionText : Str) (classInnerRange : Range)
  | functionsInfo (functionDefinitionText : Str) (funcInnerRange : Range)
  | functionDeclInfo (functionName : Str) (functionReturnType : Option Str)
deriving DecidableEq, Repr

/-- `ParsingTypes.ts` `SymbolInfo`. -/
structure SymbolInfo where
  symbolType : PSym
  parseRange : Option TokenRange := none
  nodeCreationInformation : Option NodeInfo := none
deriving DecidableEq, Repr

/-- `ParsingTypes.ts` `SymbolAdditionDirective`. -/
structure SymbolAdditionDirective where
  symbol : SymbolInfo
  secondSymbol : Option SymbolInfo := none
  secondSymbolLen : Option Nat := none
  firstTwoSymbolsEndBufferLen : Option Nat := none
deriving DecidableEq, Repr

/-! ## AST node model (`src/nodes/*`)

The class hierarchy rooted at `SyntaxNode` is embedded as one tree type: a
kind tag plus the per-variant data fields (unused fields keep defaults), with
the children stored inline.  `parent` back-references and `siblingRank` are
implicit: the rank of a child is its position in the parent's `children`
list, exactly as assigned by `addChild`. -/

/-- The variant tag of a node. -/
inductive NodeKind where
  | topLevel
  | references
  | classes
  | functions
  | functionGroups
  | functionDeclaration
  | argument
  | attributes
  | comments
deriving DecidableEq, Repr

/-- The data of one AST node (fields of the `SyntaxNode` subclasses). -/
structure NodeData where
  kind : NodeKind
  range : Range
  innerRangeOverride : Option Range := none
  referenceText : Str := []
  refRelativePath : Option Str := none
  classType : Option Str := none
  classDefinitionText : Str := []
  functionDefinitionText : Str := []
  funcBodyNonEmpty : Bool := false
  functionName : Str := []
  functionReturnType : Option Str := none
  argumentName : Str := []
  argumentType : Option Str := none
  attributeName : Str := []
  attributeType : Option Str := none
  isMultiLine : Bool := false
  commentContents : Str := []
deriving DecidableEq, Repr

/-- An AST node: data plus ordered children. -/
inductive SyntaxNode where
  | mk (data : NodeData) (children : List SyntaxNode)

/-- The node's data. -/
def SyntaxNode.data : SyntaxNode → NodeData
  | .mk d _ => d

/-- `SyntaxNode.listChildren`. -/
def SyntaxNode.children : SyntaxNode → List SyntaxNode
  | .mk _ c => c

/-- `SyntaxNode.getRange`. -/
def SyntaxNode.getRange (n : SyntaxNode) : Range := n.data.range

/-- `SyntaxNode.getInnerRange`: the override if set, else the merge of the
children's ranges, else `none`. -/
def SyntaxNode.getInnerRange (n : SyntaxNode) : Option Range :=
  match n.data.innerRangeOverride with
  | some r => some r
  | none =>
    match n.children with
    | [] => none
    | c :: cs => some (mergeRanges c.getRange (cs.map SyntaxNode.getRange))

/-- `SyntaxNode.getPrefixRange`. -/
def SyntaxNode.getPrefixRange (n : SyntaxNode) : Option Range :=
  match n.getInnerRange with
  | none => none
  | some innerRange => some (indexesToRange (rangeToStartIndex n.getRange) (rangeToStartIndex innerRange))

/-- `SyntaxNode.getSuffixRange`. -/
def SyntaxNode.getSuffixRange (n : SyntaxNode) : Option Range :=
  match n.getInnerRange with
  | none => none
  | some innerRange => some (indexesToRange (rangeToEndIndex innerRange) (rangeToEndIndex n.getRange))

/-- `AbstractSyntaxTree`. -/
structure AbstractSyntaxTree where
  root : SyntaxNode
  sourceLines : List Str

/-! ## Parse errors (`CodeParsingError.ts`, `CodeParserImplError.ts`) -/

/-- The three error classes thrown by the parser: `CodeParsingError`,
`CodeParserImplError`, and plain `Error`. -/
inductive ParseErr where
  | parsing (msg : String)
  | impl (msg : String)
  | other (msg : String)
deriving DecidableEq, Repr

/-! ## The parse engine (`src/parsing/AbstractParser.ts`) -/

/-- The per-parse environment of `AbstractParser`: `sourceLines`,
`positionMap`, `numChars`, `sourceTokens`. -/
structure ParseEnv where
  sourceLines : List Str
  positionMap : List Index
  numChars : Nat
  sourceTokens : List Token

/-- A default token for (unreachable) out-of-range accesses. -/
def dummyToken : Token :=
  { stringContents := [], tokenType := .OTHERS, characterRange := { start := 0, stop := 0 } }

/-- `AbstractParser.getIndex`. -/
def ParseEnv.getIndex (env : ParseEnv) (chIndex : Nat) : Index :=
  env.positionMap.getD chIndex { line := 0, character := 0 }

/-- `AbstractParser.getRange`. -/
def ParseEnv.getRange (env : ParseEnv) (chStartIdx chEndIdx : Nat) : Range :=
  let s := env.getIndex chStartIdx
  let e := env.getIndex chEndIdx
  { start_line := s.line, start_character := s.character,
    end_line := e.line, end_character := e.character }

/-- `AbstractParser.getTokenChRange`. -/
def ParseEnv.getTokenChRange (env : ParseEnv) (tokIdx : Nat) : CharacterRange :=
  (env.sourceTokens.getD tokIdx dummyToken).characterRange

/-- A language front-end: the abstract methods of `AbstractParser` realized by
a concrete language (`PythonParser`/`TypeScriptParser`) with detector state
`σ`.  The detectors ignore their `state` argument in both languages, so it is
omitted here. -/
structure LangParser (σ : Type) where
  isCommentBeforeFunction : Bool
  resetDetectionState : Nat → NonTerminal → σ → σ
  detectTopLevelSymbol : ParseEnv → Option Token → Nat → Nat → σ →
    Except ParseErr (Option SymbolAdditionDirective × σ)
  detectClassesSymbol : ParseEnv → Option Token → Nat → Nat → σ →
    Except ParseErr (Option SymbolAdditionDirective × σ)
  detectFunctionsSymbol : ParseEnv → Option Token → Nat → Nat → σ →
    Except ParseErr (Option SymbolAdditionDirective × σ)
  detectFunctionBodySymbol : ParseEnv → Option Token → Nat → Nat → σ →
    Except ParseErr (Option SymbolAdditionDirective × σ)
  detectFunctionDeclarationSymbol : ParseEnv → Option Token → Nat → Nat → σ →
    Except ParseErr (Option SymbolAdditionDirective × σ)
  preparse : List Str → List Token → σ → Except ParseErr σ

/-- Dispatch on the non-terminal, as in `updateTokenStreamState`'s switch. -/
def LangParser.detect {σ : Type} (lang : LangParser σ) (nt : NonTerminal) (env : ParseEnv)
    (token : Option Token) (currentTokIndex depth : Nat) (s : σ) :
    Except ParseErr (Option SymbolAdditionDirective × σ) :=
  match nt with
  | .TOP_LEVEL => lang.detectTopLevelSymbol env token currentTokIndex depth s
  | .CLASSES => lang.detectClassesSymbol env token currentTokIndex depth s
  | .FUNCTIONS => lang.detectFunctionsSymbol env token currentTokIndex depth s
  | .FUNCTION_BODY => lang.detectFunctionBodySymbol env token currentTokIndex depth s
  | .FUNCTION_DECLARATION => lang.detectFunctionDeclarationSymbol env token currentTokIndex depth s

/-- The four parallel accumulator arrays of `parseNonTerminal`. -/
structure SymAcc where
  state : List PSym
  ntParseRange : List (Option TokenRange)
  symbolRange : List TokenRange
  nodeCreationInformation : List (Option NodeInfo)

/-- The empty accumulator. -/
def SymAcc.empty : SymAcc :=
  { state := [], ntParseRange := [], symbolRange := [], nodeCreationInformation := [] }

/-- `AbstractParser.assertParseRangeCorrectness`. -/
def assertParseRangeCorrectness (symbolType : PSym) (parseRange : Option TokenRange)
    (symbolRange : TokenRange) : Except ParseErr Unit :=
  if !symbolType.isTerminal then
    match parseRange with
    | none => .error (.impl "If detected type is not a terminal, must return parseRange non null.")
    | some pr =>
      if symbolRange.startTok ≤ pr.startTok && pr.endTok ≤ symbolRange.endTok then .ok ()
      else .error (.impl "The parse range of a non terminal must be contained inside the range used for detection.")
  else
    match parseRange with
    | none => .ok ()
    | some _ => .error (.impl "Terminal types does not have a parseRange.")

/-- Pushing one symbol onto the accumulators: the repeated
push/parseRange-defaulting/assert block of `updateTokenStreamState`. -/
def SymAcc.push (acc : SymAcc) (info : SymbolInfo) (range : TokenRange) :
    Except ParseErr SymAcc := do
  let parseRange :=
    if !info.symbolType.isTerminal && info.parseRange.isNone then some range
    else info.parseRange
  let _ ← assertParseRangeCorrectness info.symbolType parseRange range
  .ok { state := acc.state ++ [info.symbolType],
        ntParseRange := acc.ntParseRange ++ [parseRange],
        symbolRange := acc.symbolRange ++ [range],
        nodeCreationInformation := acc.nodeCreationInformation ++ [info.nodeCreationInformation] }

/-- `AbstractParser.updateTokenStreamState`: runs the detector on the newest
token (or on `null` at conclusion), validates the directive, and splits the
token buffer into one or two symbols, possibly retaining a buffer tail. -/
def updateTokenStreamState {σ : Type} (lang : LangParser σ) (env : ParseEnv)
    (depth : Nat) (nonTerminal : NonTerminal) (tokenBuffer : List Token)
    (parsedEndTokIndex currentTokIndex : Nat) (isConclusion : Bool) (acc : SymAcc)
    (s : σ) : Except ParseErr (Nat × List Token × SymAcc × σ) := do
  let token : Option Token := if isConclusion then none else tokenBuffer.getLast?
  let (detectionResult, s) ← lang.detect nonTerminal env token currentTokIndex depth s
  match detectionResult with
  | none => .ok (parsedEndTokIndex, tokenBuffer, acc, s)
  | some d =>
    if d.symbol.symbolType = .nt .TOP_LEVEL then
      .error (.impl "Cannot detect TOP_LEVEL since it must be the root!")
    else if (d.secondSymbol.map (·.symbolType)) = some (.nt .TOP_LEVEL) then
      .error (.impl "Cannot detect TOP_LEVEL since it must be the root!")
    else if d.secondSymbol.isSome && tokenBuffer.length < 2 then
      .error (.impl "The token buffer must have at least length >= 2.")
    else if d.secondSymbolLen.isSome && (d.secondSymbolLen.getD 0 ≥ tokenBuffer.length) then
      .error (.impl "The length of the second symbol must be strictly less than the buffer length.")
    else if d.secondSymbolLen.isSome && (d.secondSymbolLen.getD 0 < 1) then
      .error (.impl "The length of the second symbol must be >= 1.")
    else if d.firstTwoSymbolsEndBufferLen.isSome &&
        (d.secondSymbol.isNone || d.secondSymbolLen.isNone) then
      .error (.impl "The second symbol's information must be fully given.")
    else if d.firstTwoSymbolsEndBufferLen.isSome && (d.firstTwoSymbolsEndBufferLen.getD 0 < 1) then
      .error (.impl "The length of the remaining buffer has to be >= 1.")
    else if d.firstTwoSymbolsEndBufferLen.isSome &&
        (d.firstTwoSymbolsEndBufferLen.getD 0 + d.secondSymbolLen.getD 0 ≥ tokenBuffer.length) then
      .error (.impl "The buffer must split into three non-empty parts.")
    else if d.secondSymbol.isNone && d.secondSymbolLen.isNone then
      -- one symbol spanning the whole buffer
      let acc ← acc.push d.symbol
        { startTok := parsedEndTokIndex, endTok := parsedEndTokIndex + tokenBuffer.length }
      .ok (parsedEndTokIndex + tokenBuffer.length, [], acc, s)
    else match d.firstTwoSymbolsEndBufferLen with
    | some endBufferLen =>
      -- two symbols with a retained buffer tail
      let len2 := d.secondSymbolLen.getD 0
      let firstSecondSymbolSep := tokenBuffer.length - endBufferLen - len2
      let secondSymbolEnd := tokenBuffer.length - endBufferLen
      let acc ← acc.push d.symbol
        { startTok := parsedEndTokIndex, endTok := parsedEndTokIndex + firstSecondSymbolSep }
      let acc ← acc.push (d.secondSymbol.getD d.symbol)
        { startTok := parsedEndTokIndex + firstSecondSymbolSep,
          endTok := parsedEndTokIndex + secondSymbolEnd }
      .ok (parsedEndTokIndex + secondSymbolEnd, tokenBuffer.drop secondSymbolEnd, acc, s)
    | none =>
      -- two symbols, the second possibly unfinished
      let len2 := d.secondSymbolLen.getD 1
      let acc ← acc.push d.symbol
        { startTok := parsedEndTokIndex, endTok := parsedEndTokIndex + tokenBuffer.length - len2 }
      match d.secondSymbol with
      | none =>
        .ok (parsedEndTokIndex + (tokenBuffer.length - len2),
             tokenBuffer.drop (tokenBuffer.length - len2), acc, s)
      | some second =>
        let acc ← acc.push second
          { startTok := parsedEndTokIndex + tokenBuffer.length - len2,
            endTok := parsedEndTokIndex + tokenBuffer.length }
        .ok (parsedEndTokIndex + tokenBuffer.length, [], acc, s)

/-- `AbstractParser.validateParsingStateTopLevel`. -/
def validateParsingStateTopLevel (state : List PSym) : Except ParseErr Unit :=
  if state.all (fun elem =>
      elem = .term .COMMENT_MULTILINE || elem = .term .COMMENT_SINGLELINE ||
      elem = .term .FILLER || elem = .term .REFERENCES ||
      elem = .term .STATEMENTS_FILLER || elem = .nt .CLASSES || elem = .nt .FUNCTIONS) then
    .ok ()
  else .error (.impl "Top level code can only contain comments, references, classes and functions!")

/-- `AbstractParser.validateParsingStateClasses`. -/
def validateParsingStateClasses (state : List PSym) : Except ParseErr Unit :=
  if state.all (fun elem =>
      elem = .term .COMMENT_MULTILINE || elem = .term .COMMENT_SINGLELINE ||
      elem = .term .STATEMENTS_FILLER || elem = .term .FILLER ||
      elem = .term .ATTRIBUTES || elem = .nt .FUNCTIONS) then
    .ok ()
  else .error (.impl "Class code can only contain comments, attributes, and functions!")

/-- `AbstractParser.getFirstLast`: the first and last non-filler indices. -/
def getFirstLast (state : List PSym) : Option Nat × Option Nat :=
  let isContent := fun (s : PSym) => s ≠ .term .FILLER && s ≠ .term .STATEMENTS_FILLER
  let first := state.findIdx? isContent
  let last := (state.reverse.findIdx? isContent).map (fun i => state.length - 1 - i)
  (first, last)

/-- `AbstractParser.validateParsingStateFunctions`. -/
def validateParsingStateFunctions (state : List PSym) : Except ParseErr Unit :=
  if state.length < 2 then
    .error (.impl "A valid function must contain a function declaration first and then function body! Expected state length >= 2")
  else
    let fl := getFirstLast state
    let first := (fl.1.map (fun i => state.getD i (.term .FILLER))).getD (.term .FILLER)
    let last := (fl.2.map (fun i => state.getD i (.term .FILLER))).getD (.term .FILLER)
    if first = .nt .FUNCTION_DECLARATION && last = .nt .FUNCTION_BODY then .ok ()
    else .error (.impl "A valid function must contain a function declaration first and then function body afterwards!")

/-- `AbstractParser.validateParsingStateFunctionBody`. -/
def validateParsingStateFunctionBody (state : List PSym) : Except ParseErr Unit :=
  if state.all (fun elem =>
      elem = .term .COMMENT_MULTILINE || elem = .term .COMMENT_SINGLELINE ||
      elem = .term .FILLER || elem = .term .STATEMENTS_FILLER) then
    .ok ()
  else .error (.impl "Function body code can only contain comments!")

/-- `AbstractParser.validateParsingStateFunctionDeclaration`. -/
def validateParsingStateFunctionDeclaration (state : List PSym) : Except ParseErr Unit :=
  if state.any (fun elem => elem = .term .STATEMENTS_FILLER) then
    .error (.impl "Cannot have statements filler in function declarations!")
  else if state.all (fun elem =>
      elem = .term .COMMENT_MULTILINE || elem = .term .COMMENT_SINGLELINE ||
      elem = .term .FILLER || elem = .term .ARGUMENT) then
    .ok ()
  else .error (.impl "Function declaration code can only contain comments and arguments!")

/-- Dispatch of the validation switch in `parseNonTerminal`. -/
def validateParsingState (nonTerminal : NonTerminal) (state : List PSym) : Except ParseErr Unit :=
  match nonTerminal with
  | .TOP_LEVEL => validateParsingStateTopLevel state
  | .CLASSES => validateParsingStateClasses state
  | .FUNCTIONS => validateParsingStateFunctions state
  | .FUNCTION_BODY => validateParsingStateFunctionBody state
  | .FUNCTION_DECLARATION => validateParsingStateFunctionDeclaration state

/-- `AbstractParser.resolveIntoNode` together with the `createX` factories,
which are identical in `PythonParser` and `TypeScriptParser`.  Returns `none`
for the filler symbols and `FUNCTION_BODY`.  `overrideInnerRange`'s
containment check on classes/functions is preserved. -/
def resolveIntoNode (env : ParseEnv) (detectedType : PSym) (detectedRange : TokenRange)
    (info : Option NodeInfo) : Except ParseErr (Option SyntaxNode) :=
  let range := env.getRange (env.getTokenChRange detectedRange.startTok).start
    (env.getTokenChRange (detectedRange.endTok - 1)).stop
  match detectedType, info with
  | .term .ARGUMENT, some (.argumentInfo name ty) =>
    .ok (some (.mk { kind := .argument, range := range, argumentName := name,
                     argumentType := ty } []))
  | .term .ATTRIBUTES, some (.attributeInfo name ty) =>
    .ok (some (.mk { kind := .attributes, range := range, attributeName := name,
                     attributeType := ty } []))
  | .term .COMMENT_MULTILINE, some (.commentInfo contents) =>
    .ok (some (.mk { kind := .comments, range := range, isMultiLine := true,
                     commentContents := contents } []))
  | .term .COMMENT_SINGLELINE, some (.commentInfo contents) =>
    .ok (some (.mk { kind := .comments, range := range, isMultiLine := false,
                     commentContents := contents } []))
  | .term .REFERENCES, some (.referenceInfo text path) =>
    .ok (some (.mk { kind := .references, range := range, referenceText := text,
                     refRelativePath := path } []))
  | .term .FILLER, _ => .ok none
  | .term .STATEMENTS_FILLER, _ => .ok none
  | .nt .CLASSES, some (.classInfo classType defnText innerRange) =>
    if rangeContains range innerRange then
      .ok (some (.mk { kind := .classes, range := range, classType := classType,
                       classDefinitionText := defnText,
                       innerRangeOverride := some innerRange } []))
    else .error (.other "Inner range must be contained inside the full range!")
  | .nt .FUNCTIONS, some (.functionsInfo defnText innerRange) =>
    if rangeContains range innerRange then
      .ok (some (.mk { kind := .functions, range := range,
                       functionDefinitionText := defnText,
                       innerRangeOverride := some innerRange } []))
    else .error (.other "Inner range must be contained inside the full range!")
  | .nt .FUNCTION_BODY, _ => .ok none
  | .nt .FUNCTION_DECLARATION, some (.functionDeclInfo name retTy) =>
    .ok (some (.mk { kind := .functionDeclaration, range := range, functionName := name,
                     functionReturnType := retTy } []))
  | _, _ => .error (.other "Invalid detected type or node creation information!")

/-- The token-partitioning loop of `parseNonTerminal` (lines 162–175): feeds
every token of the range and then the `null` conclusion through
`updateTokenStreamState`.  `remaining` counts down to the conclusion;
`currentTokIndex = endTok - remaining`. -/
def symbolLoop {σ : Type} (lang : LangParser σ) (env : ParseEnv) (depth : Nat)
    (nonTerminal : NonTerminal) (endTok : Nat) :
    Nat → List Token → Nat → SymAcc → σ → Except ParseErr (Nat × List Token × SymAcc × σ)
  | 0, tokenBuffer, parsedEnd, acc, s =>
    updateTokenStreamState lang env depth nonTerminal tokenBuffer parsedEnd endTok true acc s
  | r + 1, tokenBuffer, parsedEnd, acc, s =>
    let currentTokIndex := endTok - (r + 1)
    let token := env.sourceTokens.getD currentTokIndex dummyToken
    let tokenBuffer := tokenBuffer ++ [token]
    match updateTokenStreamState lang env depth nonTerminal tokenBuffer parsedEnd
        currentTokIndex false acc s with
    | .error e => .error e
    | .ok (parsedEnd, tokenBuffer, acc, s) =>
      symbolLoop lang env depth nonTerminal endTok r tokenBuffer parsedEnd acc s

/-- Resolves every accumulated symbol into an (optional) node. -/
def resolveAll (env : ParseEnv) (acc : SymAcc) : Except ParseErr (List (Option SyntaxNode)) :=
  (acc.state.zip (acc.symbolRange.zip acc.nodeCreationInformation)).mapM
    fun e => resolveIntoNode env e.1 e.2.1 e.2.2

/-- One child "slot" of the node currently being assembled: either a node
added directly by `addChild`, or a `FunctionGroups` wrapper with its optional
leading comment, the wrapped `Functions` node (tagged with its index in the
symbol list for the recursion phase), and the nodes appended to the group
later (a lifted Python doc comment).  `fnFlag` records a
`flagHaveFunctionBody` call on the wrapped function. -/
inductive Slot where
  | plain (stateIdx : Option Nat) (node : SyntaxNode)
  | funcGroup (range : Range) (comment : Option SyntaxNode) (fnStateIdx : Nat)
      (fn : SyntaxNode) (post : List SyntaxNode) (fnFlag : Bool)

/-- Materializes a slot into the child node it denotes. -/
def Slot.toNode : Slot → SyntaxNode
  | .plain _ node => node
  | .funcGroup range comment _ fn post fnFlag =>
    let fn' := SyntaxNode.mk { fn.data with funcBodyNonEmpty := fnFlag } fn.children
    .mk { kind := .functionGroups, range := range } (comment.toList ++ [fn'] ++ post)

/-- The state threaded through the child-addition loop of `parseNonTerminal`
(lines 219–295). -/
structure AddLoopState where
  slots : List Slot
  danglingMultilineComment : Option SyntaxNode
  isFirst : Bool
  flagBody : Bool

/-- One step of the child-addition loop: processes symbol `i` with its
(optional) node, for a non-`FUNCTIONS` production. -/
def addLoopStep (checkCommentFunctionPair checkFirstCommentInFunction : Bool)
    (nonTerminal : NonTerminal) (parentIsFunctions : Bool)
    (st : AddLoopState × List SyntaxNode) (entry : Nat × PSym × Option SyntaxNode) :
    AddLoopState × List SyntaxNode :=
  let (a, up) := st
  let (i, sym, ani) := entry
  if sym = .term .FILLER then (a, up)
  else if sym = .term .STATEMENTS_FILLER then
    ({ a with
        isFirst := false,
        flagBody := a.flagBody || (nonTerminal = .FUNCTION_BODY && parentIsFunctions) }, up)
  else match ani with
  | none => (a, up)
  | some node =>
    let flagBody := a.flagBody ||
      (nonTerminal = .FUNCTION_BODY && parentIsFunctions &&
       !(node.data.kind = .comments && checkFirstCommentInFunction &&
         node.data.isMultiLine && a.isFirst))
    if node.data.kind = .comments then
      let (slots, dangling) :=
        if checkCommentFunctionPair && a.danglingMultilineComment.isSome then
          (a.slots ++ [.plain none (a.danglingMultilineComment.getD node)], none)
        else (a.slots, a.danglingMultilineComment)
      if checkCommentFunctionPair && node.data.isMultiLine then
        ({ slots := slots, danglingMultilineComment := some node, isFirst := false,
           flagBody := flagBody }, up)
      else if checkFirstCommentInFunction && node.data.isMultiLine && a.isFirst then
        ({ slots := slots, danglingMultilineComment := dangling, isFirst := false,
           flagBody := flagBody }, up ++ [node])
      else
        ({ slots := slots ++ [.plain (some i) node], danglingMultilineComment := dangling,
           isFirst := false, flagBody := flagBody }, up)
    else if node.data.kind = .functions then
      match (if checkCommentFunctionPair then a.danglingMultilineComment else none) with
      | some c =>
        let rangeUnion := mergeRanges c.getRange [node.getRange]
        ({ slots := a.slots ++ [.funcGroup rangeUnion (some c) i node [] false],
           danglingMultilineComment := none, isFirst := false, flagBody := flagBody }, up)
      | none =>
        ({ slots := a.slots ++ [.funcGroup node.getRange none i node [] false],
           danglingMultilineComment := a.danglingMultilineComment, isFirst := false,
           flagBody := flagBody }, up)
    else
      let (slots, dangling) :=
        if checkCommentFunctionPair && a.danglingMultilineComment.isSome then
          (a.slots ++ [.plain none (a.danglingMultilineComment.getD node)], none)
        else (a.slots, a.danglingMultilineComment)
      ({ slots := slots ++ [.plain (some i) node], danglingMultilineComment := dangling,
         isFirst := false, flagBody := flagBody }, up)

/-- Applies the result of a recursive sub-parse of symbol `i` to the slots:
the children go into the node placed for `i`; `upChildren` are appended after
the wrapped function inside its `FunctionGroups` (or go to the caller when no
slot holds `i`).  Returns the updated slots and any leftover nodes. -/
def applyToSlots (slots : List Slot) (i : Nat) (selfChildren upChildren : List SyntaxNode)
    (flag : Bool) : List Slot × List SyntaxNode :=
  if slots.any (fun sl => match sl with
      | .funcGroup _ _ j _ _ _ => j = i
      | .plain (some j) _ => j = i
      | _ => false) then
    (slots.map (fun sl => match sl with
      | .funcGroup range comment j fn post fnFlag =>
        if j = i then
          .funcGroup range comment j (.mk fn.data selfChildren) (post ++ upChildren)
            (fnFlag || flag)
        else sl
      | .plain (some j) node =>
        if j = i then .plain (some j) (.mk node.data selfChildren) else sl
      | _ => sl), [])
  else (slots, selfChildren ++ upChildren)

/-- `AbstractParser.parseNonTerminal` (functionally): parses the token range
as the given non-terminal and returns the children to add to the node under
construction, the nodes to add to that node's parent (a lifted Python doc
comment), and whether `flagHaveFunctionBody` was invoked on the node.
`parentIsFunctions` records whether the node under construction is a
`Functions` node (the `parent instanceof Functions` checks). -/
def parseNonTerminal {σ : Type} (lang : LangParser σ) (env : ParseEnv) :
    Nat → NonTerminal → TokenRange → Nat → Bool → σ →
    Except ParseErr (List SyntaxNode × List SyntaxNode × Bool × σ)
  | 0, _, _, _, _, _ => .error (.other "recursion fuel exhausted")
  | fuel + 1, nonTerminal, tokRange, depth, parentIsFunctions, s => do
    let s := lang.resetDetectionState tokRange.startTok nonTerminal s
    let (parsedEnd, _, acc, s) ← symbolLoop lang env depth nonTerminal tokRange.endTok
      (tokRange.endTok - tokRange.startTok) [] tokRange.startTok SymAcc.empty s
    if parsedEnd ≠ tokRange.endTok then
      .error (.parsing "Invalid code syntax! Contains some non-parsed portions.")
    else do
    let _ ← validateParsingState nonTerminal acc.state
    let childNodes ← resolveAll env acc
    if nonTerminal = .FUNCTIONS then
      -- the special functions case: declaration into the function node, body
      -- parsed with the function node as parent
      let fl := getFirstLast acc.state
      match fl.1, fl.2 with
      | some first, some last =>
        match childNodes.getD first none, acc.ntParseRange.getD first none,
              acc.ntParseRange.getD last none with
        | some declNode, some declRange, some bodyRange => do
          let (declChildren, declUp, _, s) ←
            parseNonTerminal lang env fuel .FUNCTION_DECLARATION declRange (depth + 1) false s
          let (bodyChildren, bodyUp, bodyFlag, s) ←
            parseNonTerminal lang env fuel .FUNCTION_BODY bodyRange (depth + 1) true s
          let declNode' := SyntaxNode.mk declNode.data declChildren
          .ok ([declNode'] ++ declUp ++ bodyChildren, bodyUp, bodyFlag, s)
        | _, _, _ => .error (.other "Invalid functions production! Should not have happened.")
      | _, _ => .error (.other "Invalid functions production! Should not have happened.")
    else
      let checkCommentFunctionPair := lang.isCommentBeforeFunction &&
        (nonTerminal = .TOP_LEVEL || nonTerminal = .CLASSES)
      let checkFirstCommentInFunction := !lang.isCommentBeforeFunction &&
        nonTerminal = .FUNCTION_BODY
      let entries := (List.range acc.state.length).map fun i =>
        (i, acc.state.getD i (.term .FILLER), childNodes.getD i none)
      let (a, up) := entries.foldl
        (addLoopStep checkCommentFunctionPair checkFirstCommentInFunction nonTerminal
          parentIsFunctions)
        ({ slots := [], danglingMultilineComment := none, isFirst := true,
           flagBody := false }, [])
      -- add the dangling comment if it still exists
      let slots := match a.danglingMultilineComment with
        | some c => a.slots ++ [.plain none c]
        | none => a.slots
      -- recursion into every non-terminal symbol
      let recResult ← (List.range acc.state.length).foldlM
        (fun (st : List Slot × List SyntaxNode × σ) i => do
          let (slots, leftovers, s) := st
          if (acc.state.getD i (.term .FILLER)).isTerminal then .ok (slots, leftovers, s)
          else
            match acc.state.getD i (.term .FILLER), acc.ntParseRange.getD i none with
            | .nt subNT, some subRange => do
              let subIsFunctions := match childNodes.getD i none with
                | some node => node.data.kind = .functions
                | none => parentIsFunctions
              let (selfChildren, upChildren, flag, s) ←
                parseNonTerminal lang env fuel subNT subRange (depth + 1) subIsFunctions s
              let (slots', leftover) := applyToSlots slots i selfChildren upChildren flag
              .ok (slots', leftovers ++ leftover, s)
            | _, _ => .error (.other "Invalid non terminal! Should not have happened."))
        (slots, ([] : List SyntaxNode), s)
      let (slots, leftovers, s) := recResult
      .ok (slots.map Slot.toNode ++ leftovers, up, a.flagBody, s)

/-- The `positionMap` built by `AbstractParser.parse` (without the final
sentinel): one `Index` per character of the feed. -/
def buildPositionMap (codeLines : List Str) : List Index :=
  (codeLines.enum.map fun e =>
    (List.range (e.2.length + 1)).map fun c => ({ line := e.1, character := c } : Index)).flatten

/-- `AbstractParser.parse`: the generic front-end, over a language front-end
`lang` (with initial detector state `s0`) and its lexer. -/
def parseWith {σ τ : Type} (lang : LangParser σ) (lexer : LexAutomaton τ) (lexInit : τ)
    (s0 : σ) (codeLines : List Str) : Except ParseErr AbstractSyntaxTree :=
  if codeLines.length = 0 || (codeLines.length = 1 && (codeLines.getD 0 []).length = 0) then
    .error (.parsing "Cannot parse empty string!")
  else
    match tokenizeChars lexer lexInit (parseFeed codeLines) with
    | .error e => .error (.other e)
    | .ok sourceTokens =>
      match lang.preparse codeLines sourceTokens s0 with
      | .error e => .error e
      | .ok s =>
        let positionMap := buildPositionMap codeLines
        let numChars := positionMap.length
        let env : ParseEnv :=
          { sourceLines := codeLines,
            positionMap := positionMap ++ [{ line := codeLines.length, character := 0 }],
            numChars := numChars, sourceTokens := sourceTokens }
        let maxRange := getMaxRange codeLines
        match parseNonTerminal lang env 8 .TOP_LEVEL
            { startTok := 0, endTok := sourceTokens.length } 0 false s with
        | .error e => .error e
        | .ok (children, up, _, _) =>
          .ok { root := .mk { kind := .topLevel, range := maxRange } (children ++ up),
                sourceLines := codeLines }

/-! ## Python detector (`src/impl/python/PythonParser.ts`) -/

/-- `PythonParser.ts` `CodeBlockType`. -/
inductive CodeBlockType where
  | SINGLE_LINE
  | MULTI_LINE
deriving DecidableEq, Repr

/-- JS `lastIndexOf` for a single character (`-1` when absent). -/
def jsLastIndexOfChar (s : Str) (c : Char) : Int :=
  match s.reverse.indexOf? c with
  | none => -1
  | some i => (s.length : Int) - 1 - (i : Int)

/-- Removes every `\⏎` pair, as `replace(/\\\n/g, "")`. -/
def removeBackslashNewlines : Str → Str
  | [] => []
  | '\\' :: '\n' :: rest => removeBackslashNewlines rest
  | c :: rest => c :: removeBackslashNewlines rest

/-- `PythonParser.trimReplaceString`. -/
def pyTrimReplaceString (str : Str) : Str :=
  removeBackslashNewlines (jsTrim str)

/-- The instance fields of `PythonParser` (indices that use `-1` as a sentinel
are `Int`). -/
structure PyState where
  pythonCodeIndents : Str
  pythonIsTabs : Bool
  bracesMatcher : BracesMatcherState
  parseType : NonTerminal
  globalDetectionStartIndex : Int
  continuousIndentAfterNewline : Bool
  mostRecentLineTokIndex : Int
  indentationCount : Nat
  prevTokenEndsWithBackslash : Bool
  parsingBlockInitiated : Bool
  lastLineForEndCodeBlockIndex : Int
  encounteredComments : Bool
  singleLineImmediatelyAfterComments : Bool
  detectionType : CodeBlockType
  detectionSymbol : PSym
  tokenStream : List Token
  stringStream : Str
  stopAcceptingStringStream : Bool
  prevMultiline : Bool
  classOrFuncBodyParseStart : Int
  functDetectingBody : Bool
  functColonIndex : Int
  functRightAfterDef : Bool
  functName : Option Str
  functRightAfterArrow : Bool
  functType : Option Str
  functBodyHasOthers : Bool
  functBodyHasPreviousContent : Bool
  functBodyImmediatelyHasMLComments : Option Str
  functDeclStrBuffer : Str
  functDeclStartParseIdx : Int
  functDeclParsing : Bool
deriving Repr

/-- The brace pairs `{}`, `[]`, `()` used by both language parsers
(the `BracesMatcher` constructor accepts them; see
`python_braces_init_ok` below). -/
def stdBracesState : BracesMatcherState :=
  { openingToClosing := [('{', '}'), ('[', ']'), ('(', ')')],
    closingToOpening := [('}', '{'), (']', '['), (')', '(')], stack := [] }

/-- `PythonParser.resetDetectionState`. -/
def pyResetDetectionState (startTokIndex : Nat) (parsingNonTerminal : NonTerminal)
    (st : PyState) : PyState :=
  let st := { st with
      globalDetectionStartIndex := (startTokIndex : Int),
      parseType := parsingNonTerminal,
      bracesMatcher := bracesReset st.bracesMatcher }
  match parsingNonTerminal with
  | .TOP_LEVEL => { st with
      continuousIndentAfterNewline := true, mostRecentLineTokIndex := -1,
      indentationCount := 0, prevTokenEndsWithBackslash := false,
      parsingBlockInitiated := false, lastLineForEndCodeBlockIndex := -1,
      encounteredComments := false, singleLineImmediatelyAfterComments := false,
      detectionType := .SINGLE_LINE, detectionSymbol := .term .STATEMENTS_FILLER }
  | .CLASSES => { st with
      continuousIndentAfterNewline := false, mostRecentLineTokIndex := -1,
      indentationCount := 0, prevTokenEndsWithBackslash := false,
      parsingBlockInitiated := false, lastLineForEndCodeBlockIndex := -1,
      encounteredComments := false, singleLineImmediatelyAfterComments := false,
      detectionType := .SINGLE_LINE, detectionSymbol := .term .STATEMENTS_FILLER }
  | .FUNCTIONS => { st with
      functDetectingBody := false, functColonIndex := -1, functRightAfterDef := false,
      functName := none, functRightAfterArrow := false, functType := none }
  | .FUNCTION_BODY => { st with
      continuousIndentAfterNewline := false, mostRecentLineTokIndex := -1,
      indentationCount := 0, prevTokenEndsWithBackslash := false,
      functBodyHasOthers := false, functBodyHasPreviousContent := false,
      functBodyImmediatelyHasMLComments := none }
  | .FUNCTION_DECLARATION => { st with
      continuousIndentAfterNewline := false, mostRecentLineTokIndex := -1,
      indentationCount := 0, prevTokenEndsWithBackslash := false,
      functDeclStrBuffer := [], functDeclStartParseIdx := -1, functDeclParsing := false }

/-- The state built by the `PythonParser` constructor (which ends with
`resetDetectionState(0, TOP_LEVEL)`). -/
def pyInitState : PyState :=
  pyResetDetectionState 0 .TOP_LEVEL
    { pythonCodeIndents := [], pythonIsTabs := false, bracesMatcher := stdBracesState,
      parseType := .TOP_LEVEL, globalDetectionStartIndex := -1,
      continuousIndentAfterNewline := true, mostRecentLineTokIndex := 0,
      indentationCount := 0, prevTokenEndsWithBackslash := false,
      parsingBlockInitiated := false, lastLineForEndCodeBlockIndex := 0,
      encounteredComments := false, singleLineImmediatelyAfterComments := false,
      detectionType := .SINGLE_LINE, detectionSymbol := .term .STATEMENTS_FILLER,
      tokenStream := [], stringStream := [], stopAcceptingStringStream := false,
      prevMultiline := false, classOrFuncBodyParseStart := -1,
      functDetectingBody := false, functColonIndex := -1, functRightAfterDef := false,
      functName := none, functRightAfterArrow := false, functType := none,
      functBodyHasOthers := false, functBodyHasPreviousContent := false,
      functBodyImmediatelyHasMLComments := none, functDeclStrBuffer := [],
      functDeclStartParseIdx := -1, functDeclParsing := false }

/-- `PythonParser.preparse`: indentation detection. -/
def pyPreparse (codeLines : List Str) (_tokens : List Token) (st : PyState) :
    Except ParseErr PyState := do
  let indents := codeLines.filterMap fun line =>
    if (jsTrim line).length = 0 then none
    else
      let indent := line.takeWhile fun c => c = ' ' || c = '\t'
      if indent.length = 0 then none else some indent
  let _ ← indents.foldlM (fun (_ : Unit) indent =>
    if indent.contains ' ' && indent.contains '\t' then
      .error (ParseErr.parsing "Python code cannot have mixed spaces and tabs for indentation!")
    else .ok ()) ()
  let spaceIndentCounts := (indents.filter (fun i => i.contains ' ')).map List.length
  let tabIndentCount := (indents.filter (fun i => i.contains '\t')).length
  if spaceIndentCounts.length > 0 && tabIndentCount > 0 then
    .error (.parsing "Python code cannot have mixed spaces and tabs for indentation!")
  else if spaceIndentCounts.length = 0 && tabIndentCount = 0 then
    .ok { st with pythonIsTabs := false, pythonCodeIndents := [] }
  else if tabIndentCount > 0 then
    .ok { st with pythonIsTabs := true, pythonCodeIndents := ['\t'] }
  else
    -- the ≤ 20% threshold, computed exactly on rationals
    let possibleFactors := [12, 6, 4, 3, 2]
    match possibleFactors.find? (fun factor =>
        let invalidCount := (spaceIndentCounts.filter (fun count => count % factor ≠ 0)).length
        invalidCount * 5 ≤ spaceIndentCounts.length) with
    | none =>
      .error (.parsing "Unable to detect a consistent indentation step within the allowed threshold.")
    | some indentStep =>
      .ok { st with pythonCodeIndents := jsRepeat [' '] indentStep, pythonIsTabs := false }

/-- `PythonParser.updateCodeBlocksBracesAndSpacingsState`. -/
def pyUpdateCodeBlocksBracesAndSpacingsState (token : Token) (currentTokIndex : Nat)
    (st : PyState) : Except ParseErr PyState :=
  if token.tokenType = .SPACINGS then
    let st :=
      if bracesCurrentDepth st.bracesMatcher = 0 then
        if token.stringContents = ['\n'] && !st.prevTokenEndsWithBackslash then
          { st with mostRecentLineTokIndex := (currentTokIndex : Int),
                    indentationCount := 0, continuousIndentAfterNewline := true }
        else if st.continuousIndentAfterNewline then
          { st with indentationCount := st.indentationCount + 1 }
        else st
      else st
    .ok { st with prevTokenEndsWithBackslash := false }
  else if token.tokenType = .BRACES then
    match bracesNext st.bracesMatcher token.stringContents with
    | .error e => .error (.parsing ("Error during brace matching! " ++ e))
    | .ok (_, bm) =>
      .ok { st with bracesMatcher := bm, continuousIndentAfterNewline := false,
                    prevTokenEndsWithBackslash := false }
  else
    .ok { st with
      continuousIndentAfterNewline := false,
      prevTokenEndsWithBackslash :=
        token.stringContents.length > 0 && token.stringContents.getLast? = some '\\' }

/-- `PythonParser.updateCodeBlocksContentsParseState`. -/
def pyUpdateCodeBlocksContentsParseState (token : Token) (needsReset : Bool)
    (currentTokIndex : Nat) (indentationExpected : Nat) (st : PyState) :
    Except ParseErr PyState := do
  let st := if needsReset then
      { st with tokenStream := [], stringStream := [], prevMultiline := false,
                stopAcceptingStringStream := false, classOrFuncBodyParseStart := -1 }
    else st
  let st ←
    if st.parseType = .TOP_LEVEL then
      let st :=
        if st.stringStream.length = 0 then
          if indentationExpected = st.indentationCount then
            if token.stringContents = "from".data || token.stringContents = "import".data ||
               token.stringContents = "from\\".data || token.stringContents = "import\\".data then
              { st with detectionSymbol := .term .REFERENCES }
            else if token.stringContents = "def".data || token.stringContents = "def\\".data then
              { st with detectionType := .MULTI_LINE, detectionSymbol := .nt .FUNCTIONS }
            else if token.stringContents = "class".data || token.stringContents = "class\\".data then
              { st with detectionType := .MULTI_LINE, detectionSymbol := .nt .CLASSES }
            else if token.tokenType = .MULTILINE_COMMENTS_OR_STRINGS then
              { st with detectionSymbol := .term .COMMENT_MULTILINE }
            else st
          else st
        else
          let st :=
            if st.detectionSymbol = .term .COMMENT_MULTILINE && token.tokenType ≠ .SPACINGS then
              { st with detectionSymbol := .term .STATEMENTS_FILLER }
            else st
          let st :=
            if st.detectionSymbol = .nt .FUNCTIONS then
              if !st.stopAcceptingStringStream && bracesCurrentDepth st.bracesMatcher = 0 &&
                  token.stringContents.contains ':' then
                { st with stopAcceptingStringStream := true,
                          classOrFuncBodyParseStart := (currentTokIndex : Int) + 1 }
              else st
            else st
          if st.detectionSymbol = .nt .CLASSES then
            if !st.stopAcceptingStringStream && bracesCurrentDepth st.bracesMatcher = 0 &&
                token.stringContents.contains ':' then
              { st with stopAcceptingStringStream := true,
                        classOrFuncBodyParseStart := (currentTokIndex : Int) + 1 }
            else st
          else st
      let st := if token.tokenType ≠ .SPACINGS then
          { st with tokenStream := st.tokenStream ++ [token] }
        else st
      let st := if !st.stopAcceptingStringStream then
          { st with stringStream := st.stringStream ++ token.stringContents }
        else st
      pure st
    else if st.parseType = .CLASSES then
      let st :=
        if st.stringStream.length = 0 then
          if indentationExpected = st.indentationCount then
            if token.stringContents = "def".data || token.stringContents = "def\\".data then
              { st with detectionType := .MULTI_LINE, detectionSymbol := .nt .FUNCTIONS }
            else if token.tokenType = .MULTILINE_COMMENTS_OR_STRINGS then
              { st with detectionSymbol := .term .COMMENT_MULTILINE, prevMultiline := true }
            else st
          else st
        else
          let st :=
            if st.detectionSymbol = .term .COMMENT_MULTILINE && token.tokenType ≠ .SPACINGS then
              { st with detectionSymbol := .term .STATEMENTS_FILLER }
            else st
          if st.detectionSymbol = .nt .FUNCTIONS then
            if !st.stopAcceptingStringStream && bracesCurrentDepth st.bracesMatcher = 0 &&
                token.stringContents.contains ':' then
              { st with stopAcceptingStringStream := true,
                        classOrFuncBodyParseStart := (currentTokIndex : Int) + 1 }
            else st
          else st
      let st :=
        if !st.prevMultiline && st.detectionSymbol = .term .STATEMENTS_FILLER &&
            bracesCurrentDepth st.bracesMatcher = 0 &&
            indentationExpected = st.indentationCount &&
            ((st.stringStream.length > 0 && jsLastIndexOfChar token.stringContents ':' ≠ -1) ||
             jsLastIndexOfChar token.stringContents ':' > 0) then
          { st with detectionSymbol := .term .ATTRIBUTES }
        else st
      let st := if token.tokenType ≠ .SPACINGS then
          { st with tokenStream := st.tokenStream ++ [token] }
        else st
      let st := if !st.stopAcceptingStringStream then
          { st with stringStream := st.stringStream ++ token.stringContents }
        else st
      pure st
    else
      Except.error (ParseErr.other "Not supported!")
  .ok st

/-- The `from X import Y` / `import X` resolution in
`PythonParser.concludeCodeBlock`. -/
def pyResolveReference (tokenStream : List Token) : Option Str :=
  if tokenStream.length ≥ 4 &&
      ((tokenStream.getD 0 dummyToken).stringContents = "from".data ||
       (tokenStream.getD 0 dummyToken).stringContents = "from\\".data) &&
      ((tokenStream.getD 2 dummyToken).stringContents = "import".data ||
       (tokenStream.getD 2 dummyToken).stringContents = "import\\".data) then
    let importContents := (tokenStream.getD 1 dummyToken).stringContents
    if importContents.length > 0 then
      if importContents.headD ' ' = '.' then
        let lcPath := importContents.drop 1
        if lcPath.length = 0 then some "local-file://".data
        else
          let count := (lcPath.takeWhile (· = '.')).length
          some ("local-file://".data ++ jsRepeat "../".data count ++
            ((lcPath.drop count).map fun c => if c = '.' then '/' else c))
      else
        some ("environment://".data ++ importContents.map fun c => if c = '.' then '/' else c)
    else none
  else if tokenStream.length ≥ 2 &&
      ((tokenStream.getD 0 dummyToken).stringContents = "import".data ||
       (tokenStream.getD 0 dummyToken).stringContents = "import\\".data) then
    let importContents := (tokenStream.getD 1 dummyToken).stringContents
    if importContents.length > 0 then
      some ("environment://".data ++ importContents.map fun c => if c = '.' then '/' else c)
    else none
  else none

/-- `PythonParser.concludeCodeBlock`. -/
def pyConcludeCodeBlock (env : ParseEnv) (reachedGlobalEndIndex : Int) (st : PyState) :
    Except ParseErr (SymbolInfo × PyState) := do
  let st :=
    if reachedGlobalEndIndex ≠ -1 then
      if !st.prevTokenEndsWithBackslash && !st.continuousIndentAfterNewline then
        { st with lastLineForEndCodeBlockIndex := reachedGlobalEndIndex }
      else st
    else st
  if st.parseType = .TOP_LEVEL then
    if st.detectionSymbol = .term .STATEMENTS_FILLER then
      .ok ({ symbolType := .term .STATEMENTS_FILLER }, st)
    else if st.detectionSymbol = .term .REFERENCES then
      let referenceText := pyTrimReplaceString st.stringStream
      .ok ({ symbolType := .term .REFERENCES,
             nodeCreationInformation := some (.referenceInfo referenceText
               (pyResolveReference st.tokenStream)) }, st)
    else if st.detectionSymbol = .term .COMMENT_MULTILINE then
      let trimmed := pyTrimReplaceString st.stringStream
      .ok ({ symbolType := .term .COMMENT_MULTILINE,
             nodeCreationInformation := some (.commentInfo
               (jsSubstring trimmed 3 (trimmed.length - 3))) }, st)
    else if st.detectionSymbol = .nt .FUNCTIONS then
      if !st.stopAcceptingStringStream then
        .ok ({ symbolType := .term .STATEMENTS_FILLER }, st)
      else
        let functionDefnText := pyTrimReplaceString st.stringStream
        .ok ({ symbolType := .nt .FUNCTIONS,
               nodeCreationInformation := some (.functionsInfo functionDefnText
                 (env.getRange (env.getTokenChRange st.classOrFuncBodyParseStart.toNat).start
                   (env.getTokenChRange st.lastLineForEndCodeBlockIndex.toNat).start)) }, st)
    else if st.detectionSymbol = .nt .CLASSES then
      if st.classOrFuncBodyParseStart = -1 ||
          st.classOrFuncBodyParseStart ≥ st.lastLineForEndCodeBlockIndex then
        .ok ({ symbolType := .term .STATEMENTS_FILLER }, st)
      else
        let classDefnText := pyTrimReplaceString st.stringStream
        .ok ({ symbolType := .nt .CLASSES,
               parseRange := some { startTok := st.classOrFuncBodyParseStart.toNat,
                                    endTok := st.lastLineForEndCodeBlockIndex.toNat },
               nodeCreationInformation := some (.classInfo none classDefnText
                 (env.getRange (env.getTokenChRange st.classOrFuncBodyParseStart.toNat).start
                   (env.getTokenChRange st.lastLineForEndCodeBlockIndex.toNat).start)) }, st)
    else .error (.other "Not supported!")
  else if st.parseType = .CLASSES then
    if st.detectionSymbol = .term .STATEMENTS_FILLER then
      .ok ({ symbolType := .term .STATEMENTS_FILLER }, st)
    else if st.detectionSymbol = .term .ATTRIBUTES then
      let trimmed := pyTrimReplaceString st.stringStream
      let idx : Int := match trimmed.indexOf? ':' with
        | none => -1
        | some i => (i : Int)
      let nameType : Str × Option Str :=
        if idx = -1 then (trimmed, none)
        else
          let attributeName := jsTrim (jsSubstring trimmed 0 idx.toNat)
          if idx = (trimmed.length : Int) - 1 then (attributeName, some [])
          else (attributeName, some (jsTrim (jsSubstring trimmed (idx.toNat + 1) trimmed.length)))
      .ok ({ symbolType := .term .ATTRIBUTES,
             nodeCreationInformation := some (.attributeInfo nameType.1 nameType.2) }, st)
    else if st.detectionSymbol = .term .COMMENT_MULTILINE then
      let trimmed := pyTrimReplaceString st.stringStream
      .ok ({ symbolType := .term .COMMENT_MULTILINE,
             nodeCreationInformation := some (.commentInfo
               (jsSubstring trimmed 3 (trimmed.length - 3))) }, st)
    else if st.detectionSymbol = .nt .FUNCTIONS then
      if !st.stopAcceptingStringStream then
        .ok ({ symbolType := .term .STATEMENTS_FILLER }, st)
      else
        let functionDefnText := pyTrimReplaceString st.stringStream
        .ok ({ symbolType := .nt .FUNCTIONS,
               nodeCreationInformation := some (.functionsInfo functionDefnText
                 (env.getRange (env.getTokenChRange st.classOrFuncBodyParseStart.toNat).start
                   (env.getTokenChRange st.lastLineForEndCodeBlockIndex.toNat).start)) }, st)
    else .error (.other "Not supported!")
  else .error (.other "Not supported!")

/-- `PythonParser.detectCodeBlocks` (used for both `TOP_LEVEL` and
`CLASSES`). -/
def pyDetectCodeBlocks (env : ParseEnv) (token : Option Token) (depth : Nat)
    (currentTokIndex : Nat) (st : PyState) :
    Except ParseErr (Option SymbolAdditionDirective × PyState) := do
  match token with
  | none =>
    if st.parsingBlockInitiated then do
      let (symbol, st) ← pyConcludeCodeBlock env (currentTokIndex : Int) st
      let length : Int := (currentTokIndex : Int) - st.lastLineForEndCodeBlockIndex
      if symbol.symbolType = .term .FILLER || symbol.symbolType = .term .STATEMENTS_FILLER ||
          length = 0 then
        .ok (some { symbol := symbol }, st)
      else
        .ok (some { symbol := symbol,
                    secondSymbol := some { symbolType := .term .FILLER },
                    secondSymbolLen := some length.toNat }, st)
    else
      if st.mostRecentLineTokIndex ≠ -1 || st.indentationCount > 0 then
        .ok (some { symbol := { symbolType := .term .FILLER } }, st)
      else
        .ok (none, st)
  | some token =>
    let indentationExpected : Nat :=
      depth * (if st.pythonIsTabs then 1 else st.pythonCodeIndents.length)
    let (retDirective, hasConclusion, st) ←
      if st.parsingBlockInitiated then do
        let (retDirective, hasConclusion, st) ←
          if st.detectionType = .SINGLE_LINE then do
            let (ret, hasC, st) ←
              if token.stringContents = ['\n'] && bracesCurrentDepth st.bracesMatcher = 0 &&
                  !st.prevTokenEndsWithBackslash then do
                let st := { st with parsingBlockInitiated := false }
                if !st.singleLineImmediatelyAfterComments then do
                  let (symbolInfo, st) ← pyConcludeCodeBlock env (-1) st
                  pure (some ({ symbol := symbolInfo, secondSymbolLen := some 1 } :
                    SymbolAdditionDirective), true, st)
                else
                  pure (none, true, st)
              else
                pure (none, false, st)
            pure (ret, hasC, { st with singleLineImmediatelyAfterComments := false })
          else
            if bracesCurrentDepth st.bracesMatcher = 0 then
              if st.continuousIndentAfterNewline && token.tokenType ≠ .SPACINGS &&
                  st.indentationCount ≤ indentationExpected &&
                  token.tokenType ≠ .SINGLELINE_COMMENTS then do
                let (symbolInfo, st) ← pyConcludeCodeBlock env (-1) st
                let ret : SymbolAdditionDirective :=
                  { symbol := symbolInfo,
                    secondSymbol := some { symbolType := .term .FILLER },
                    secondSymbolLen :=
                      some ((currentTokIndex : Int) - st.lastLineForEndCodeBlockIndex).toNat,
                    firstTwoSymbolsEndBufferLen := some 1 }
                let st := { st with
                    parsingBlockInitiated := true, detectionType := .SINGLE_LINE,
                    detectionSymbol := .term .STATEMENTS_FILLER,
                    encounteredComments := false,
                    singleLineImmediatelyAfterComments := false }
                let st ← pyUpdateCodeBlocksContentsParseState token true currentTokIndex
                  indentationExpected st
                pure (some ret, true, st)
              else if token.stringContents = ['\n'] && !st.prevTokenEndsWithBackslash &&
                  !st.continuousIndentAfterNewline then
                pure (none, false,
                  { st with lastLineForEndCodeBlockIndex := (currentTokIndex : Int) })
              else
                pure (none, false, st)
            else
              pure (none, false, st)
        if token.tokenType = .SINGLELINE_COMMENTS &&
            st.detectionSymbol = .term .STATEMENTS_FILLER then
          let commentSym : SymbolInfo :=
            { symbolType := .term .COMMENT_SINGLELINE,
              nodeCreationInformation := some (.commentInfo (token.stringContents.drop 1)) }
          let ret : SymbolAdditionDirective :=
            { symbol := { symbolType := .term .STATEMENTS_FILLER },
              secondSymbol := some commentSym }
          pure (some ret, hasConclusion,
            { st with encounteredComments := true, singleLineImmediatelyAfterComments := true })
        else if !(st.encounteredComments || hasConclusion) then do
          let st ← pyUpdateCodeBlocksContentsParseState token false currentTokIndex
            indentationExpected st
          pure (retDirective, hasConclusion, st)
        else
          pure (retDirective, hasConclusion, st)
      else
        if st.continuousIndentAfterNewline && token.tokenType ≠ .SPACINGS then
          if token.tokenType = .SINGLELINE_COMMENTS then
            let commentSym : SymbolInfo :=
              { symbolType := .term .COMMENT_SINGLELINE,
                nodeCreationInformation := some (.commentInfo (token.stringContents.drop 1)) }
            if st.mostRecentLineTokIndex ≠ -1 || st.indentationCount > 0 then
              pure (some ({ symbol := { symbolType := .term .FILLER },
                            secondSymbol := some commentSym } :
                SymbolAdditionDirective), false, st)
            else
              pure (some ({ symbol := commentSym } : SymbolAdditionDirective), false, st)
          else do
            let st := { st with
                parsingBlockInitiated := true, detectionType := .SINGLE_LINE,
                detectionSymbol := .term .STATEMENTS_FILLER, encounteredComments := false,
                singleLineImmediatelyAfterComments := false }
            let ret : Option SymbolAdditionDirective :=
              if st.mostRecentLineTokIndex ≠ -1 || st.indentationCount > 0 then
                some { symbol := { symbolType := .term .FILLER }, secondSymbolLen := some 1 }
              else none
            let st ← pyUpdateCodeBlocksContentsParseState token true currentTokIndex
              indentationExpected st
            pure (ret, false, st)
        else
          pure (none, false, st)
    let _ := hasConclusion
    let st ← pyUpdateCodeBlocksBracesAndSpacingsState token currentTokIndex st
    .ok (retDirective, st)

/-- `PythonParser.detectFunctionsSymbol`. -/
def pyDetectFunctionsSymbol (_env : ParseEnv) (token : Option Token)
    (currentTokIndex : Nat) (_depth : Nat) (st : PyState) :
    Except ParseErr (Option SymbolAdditionDirective × PyState) := do
  if st.functDetectingBody then
    match token with
    | none => .ok (some { symbol := { symbolType := .nt .FUNCTION_BODY } }, st)
    | some _ => .ok (none, st)
  else
    match token with
    | none => .error (.parsing "Expected function to be separated by a colon!")
    | some token =>
      if bracesCurrentDepth st.bracesMatcher = 0 && token.stringContents.contains ':' then
        let st := { st with functColonIndex := (currentTokIndex : Int),
                            functDetectingBody := true }
        match st.functName with
        | none => .error (.parsing "Invalid syntax! Missing function name between def and colon!")
        | some functName =>
          let st := { st with functType := st.functType.map jsTrim }
          .ok (some { symbol := {
              symbolType := .nt .FUNCTION_DECLARATION,
              parseRange := some { startTok := st.globalDetectionStartIndex.toNat,
                                   endTok := st.functColonIndex.toNat },
              nodeCreationInformation := some (.functionDeclInfo (jsTrim functName)
                st.functType) } }, st)
      else
        let st :=
          if st.functRightAfterDef && token.tokenType = .OTHERS then
            { st with functRightAfterDef := false, functName := some token.stringContents }
          else if st.functRightAfterDef && token.tokenType ≠ .SPACINGS then
            { st with functRightAfterDef := false }
          else if (currentTokIndex : Int) = st.globalDetectionStartIndex then
            { st with functRightAfterDef := true }
          else st
        let st :=
          if st.functRightAfterArrow && token.tokenType = .OTHERS then
            { st with functRightAfterArrow := false, functType := some token.stringContents }
          else if st.functRightAfterArrow && token.tokenType ≠ .SPACINGS then
            { st with functRightAfterArrow := false }
          else if token.stringContents = "->".data && bracesCurrentDepth st.bracesMatcher = 0 then
            { st with functRightAfterArrow := true }
          else st
        if token.tokenType = .BRACES then
          match bracesNext st.bracesMatcher token.stringContents with
          | .error e => .error (.parsing ("Error during brace matching! " ++ e))
          | .ok (_, bm) => .ok (none, { st with bracesMatcher := bm })
        else .ok (none, st)

/-- `PythonParser.detectFunctionBodySymbol`. -/
def pyDetectFunctionBodySymbol (_env : ParseEnv) (token : Option Token)
    (currentTokIndex : Nat) (_depth : Nat) (st : PyState) :
    Except ParseErr (Option SymbolAdditionDirective × PyState) := do
  match token with
  | none =>
    let fillerSym : SymbolInfo :=
      { symbolType := if st.functBodyHasOthers then .term .STATEMENTS_FILLER else .term .FILLER }
    match st.functBodyImmediatelyHasMLComments with
    | some mlContents =>
      let mlSym : SymbolInfo :=
        { symbolType := .term .COMMENT_MULTILINE,
          nodeCreationInformation := some (.commentInfo mlContents) }
      if st.functBodyHasPreviousContent then
        .ok (some { symbol := fillerSym, secondSymbol := some mlSym,
                    secondSymbolLen := some 1 }, st)
      else
        .ok (some { symbol := mlSym }, st)
    | none =>
      if st.functBodyHasPreviousContent then
        .ok (some { symbol := fillerSym }, st)
      else .ok (none, st)
  | some token =>
    let fillerSym : SymbolInfo :=
      { symbolType := if st.functBodyHasOthers then .term .STATEMENTS_FILLER else .term .FILLER }
    let (retDirective, st) ←
      if token.tokenType = .SINGLELINE_COMMENTS then
        let slSym : SymbolInfo :=
          { symbolType := .term .COMMENT_SINGLELINE,
            nodeCreationInformation := some (.commentInfo (token.stringContents.drop 1)) }
        let ret : SymbolAdditionDirective :=
          if st.functBodyHasPreviousContent then
            { symbol := fillerSym, secondSymbol := some slSym }
          else
            { symbol := slSym }
        pure (some ret, { st with
            functBodyHasOthers := false, functBodyHasPreviousContent := false })
      else if token.tokenType = .MULTILINE_COMMENTS_OR_STRINGS &&
          st.continuousIndentAfterNewline then
        let mlContents := jsSubstring token.stringContents 3 (token.stringContents.length - 3)
        pure (none, { st with functBodyImmediatelyHasMLComments := some mlContents })
      else if st.functBodyImmediatelyHasMLComments.isSome &&
          token.stringContents = ['\n'] then
        let mlContents := st.functBodyImmediatelyHasMLComments.getD []
        let mlSym : SymbolInfo :=
          { symbolType := .term .COMMENT_MULTILINE,
            nodeCreationInformation := some (.commentInfo mlContents) }
        let ret : SymbolAdditionDirective :=
          if st.functBodyHasPreviousContent then
            { symbol := fillerSym, secondSymbol := some mlSym, secondSymbolLen := some 1,
              firstTwoSymbolsEndBufferLen := some 1 }
          else
            { symbol := mlSym, secondSymbolLen := some 1 }
        pure (some ret, { st with
            functBodyHasOthers := false, functBodyHasPreviousContent := false,
            functBodyImmediatelyHasMLComments := none })
      else
        pure (none, { st with
            functBodyHasPreviousContent := true, functBodyImmediatelyHasMLComments := none,
            functBodyHasOthers := st.functBodyHasOthers || token.tokenType ≠ .SPACINGS })
    let st ← pyUpdateCodeBlocksBracesAndSpacingsState token currentTokIndex st
    .ok (retDirective, st)

/-- The argument-text split (`=` cut, then `name : type`) shared by the two
conclusion sites in `PythonParser.detectFunctionDeclarationSymbol`. -/
def pySplitArgument (argument : Str) : Str × Option Str :=
  let argument :=
    match argument.indexOf? '=' with
    | some i => jsTrim (jsSubstring argument 0 i)
    | none => argument
  match argument.indexOf? ':' with
  | some idx =>
    if 0 < idx && idx < argument.length - 1 then
      (jsTrim (jsSubstring argument 0 idx),
       some (jsTrim (jsSubstring argument (idx + 1) argument.length)))
    else (argument, none)
  | none => (argument, none)

/-- `PythonParser.detectFunctionDeclarationSymbol`. -/
def pyDetectFunctionDeclarationSymbol (_env : ParseEnv) (token : Option Token)
    (currentTokIndex : Nat) (_depth : Nat) (st : PyState) :
    Except ParseErr (Option SymbolAdditionDirective × PyState) := do
  match token with
  | none => .ok (some { symbol := { symbolType := .term .FILLER } }, st)
  | some token =>
    let (retDirective, st) ←
      if st.functDeclParsing then
        if token.tokenType ≠ .COMMAS then
          if bracesCurrentDepth st.bracesMatcher > 1 || token.stringContents ≠ ")".data then
            pure ((none : Option SymbolAdditionDirective),
              { st with functDeclStrBuffer := st.functDeclStrBuffer ++ token.stringContents })
          else pure (none, st)
        else if bracesCurrentDepth st.bracesMatcher > 1 then
          pure (none,
            { st with functDeclStrBuffer := st.functDeclStrBuffer ++ token.stringContents })
        else if bracesCurrentDepth st.bracesMatcher = 1 then
          let argument := pyTrimReplaceString st.functDeclStrBuffer
          if argument.length = 0 then
            pure (none, { st with functDeclStrBuffer := [] })
          else
            let split := pySplitArgument argument
            let argSym : SymbolInfo :=
              { symbolType := .term .ARGUMENT,
                nodeCreationInformation := some (.argumentInfo split.1 split.2) }
            let ret : SymbolAdditionDirective :=
              { symbol := { symbolType := .term .FILLER },
                secondSymbol := some argSym,
                secondSymbolLen :=
                  some ((currentTokIndex : Int) - st.functDeclStartParseIdx - 1).toNat,
                firstTwoSymbolsEndBufferLen := some 1 }
            pure (some ret,
              { st with functDeclStartParseIdx := (currentTokIndex : Int),
                        functDeclStrBuffer := [] })
        else pure (none, st)
      else pure (none, st)
    let st ← pyUpdateCodeBlocksBracesAndSpacingsState token currentTokIndex st
    if st.functDeclParsing && bracesCurrentDepth st.bracesMatcher = 0 then
      let st := { st with functDeclParsing := false }
      let argument := pyTrimReplaceString st.functDeclStrBuffer
      if argument.length = 0 then
        .ok (retDirective, { st with functDeclStrBuffer := [] })
      else
        let split := pySplitArgument argument
        let argSym : SymbolInfo :=
          { symbolType := .term .ARGUMENT,
            nodeCreationInformation := some (.argumentInfo split.1 split.2) }
        let ret : SymbolAdditionDirective :=
          { symbol := { symbolType := .term .FILLER },
            secondSymbol := some argSym,
            secondSymbolLen :=
              some ((currentTokIndex : Int) - st.functDeclStartParseIdx - 1).toNat,
            firstTwoSymbolsEndBufferLen := some 1 }
        .ok (some ret,
          { st with functDeclStartParseIdx := (currentTokIndex : Int),
                    functDeclStrBuffer := [] })
    else if bracesCurrentDepth st.bracesMatcher > 0 && st.functDeclStartParseIdx = -1 then
      .ok (retDirective, { st with functDeclStartParseIdx := (currentTokIndex : Int),
                                   functDeclParsing := true })
    else
      .ok (retDirective, st)

/-- `PythonParser` as a language front-end. -/
def pythonFrontEnd : LangParser PyState :=
  { isCommentBeforeFunction := false,
    resetDetectionState := pyResetDetectionState,
    detectTopLevelSymbol := fun env token currentTokIndex depth st =>
      pyDetectCodeBlocks env token depth currentTokIndex st,
    detectClassesSymbol := fun env token currentTokIndex depth st =>
      pyDetectCodeBlocks env token depth currentTokIndex st,
    detectFunctionsSymbol := pyDetectFunctionsSymbol,
    detectFunctionBodySymbol := pyDetectFunctionBodySymbol,
    detectFunctionDeclarationSymbol := pyDetectFunctionDeclarationSymbol,
    preparse := pyPreparse }

/-- `parsePython(source)`: the Python structural parse. -/
def parsePython (codeLines : List Str) : Except ParseErr AbstractSyntaxTree :=
  parseWith pythonFrontEnd pythonLexer pyLexInit pyInitState codeLines

/-- The symbol classification computed by the `TOP_LEVEL` invocation of
`parseNonTerminal`: runs the front-end (lexing and `preparse`) and the
token-partitioning loop, and returns the accumulated `state[]` array. -/
def topLevelSymbolStates {σ τ : Type} (lang : LangParser σ) (lexer : LexAutomaton τ)
    (lexInit : τ) (s0 : σ) (codeLines : List Str) : Except ParseErr (List PSym) :=
  match tokenizeChars lexer lexInit (parseFeed codeLines) with
  | .error e => .error (.other e)
  | .ok sourceTokens =>
    match lang.preparse codeLines sourceTokens s0 with
    | .error e => .error e
    | .ok s =>
      let positionMap := buildPositionMap codeLines
      let env : ParseEnv :=
        { sourceLines := codeLines,
          positionMap := positionMap ++ [{ line := codeLines.length, character := 0 }],
          numChars := positionMap.length, sourceTokens := sourceTokens }
      let s := lang.resetDetectionState 0 .TOP_LEVEL s
      match symbolLoop lang env 0 .TOP_LEVEL sourceTokens.length sourceTokens.length
          [] 0 SymAcc.empty s with
      | .error e => .error e
      | .ok (_, _, acc, _) => .ok acc.state

/-! ## TypeScript var-decl matcher (`src/impl/typescript/TypeScriptVarDeclMatcher.ts`) -/

/-- `TypeScriptVarDeclMatcher.ts` `State`. -/
inductive VarDeclReadState where
  | READING_NAME
  | READING_TYPE
  | READING_ASSIGNMENT
deriving DecidableEq, Repr

/-- The `typeBraces` matcher state (pairs `()`, `{}`, `[]`, `<>`). -/
def typeBracesState : BracesMatcherState :=
  { openingToClosing := [('(', ')'), ('{', '}'), ('[', ']'), ('<', '>')],
    closingToOpening := [(')', '('), ('}', '{'), (']', '['), ('>', '<')], stack := [] }

/-- The `assignmentBraces` matcher state (pairs `()`, `{}`, `[]`). -/
def assignmentBracesState : BracesMatcherState :=
  { openingToClosing := [('(', ')'), ('{', '}'), ('[', ']')],
    closingToOpening := [(')', '('), ('}', '{'), (']', '[')], stack := [] }

/-- `isOpeningBraceType` / `isClosingBraceType`. -/
def isBraceTypeTok (tok : Token) : Bool :=
  tok.stringContents = "(".data || tok.stringContents = ")".data ||
  tok.stringContents = "\x7b".data || tok.stringContents = "\x7d".data ||
  tok.stringContents = "[".data || tok.stringContents = "]".data ||
  tok.stringContents = "<".data || tok.stringContents = ">".data

/-- `isOpeningBraceAssignment` / `isClosingBraceAssignment`. -/
def isBraceAssignmentTok (tok : Token) : Bool :=
  tok.stringContents = "(".data || tok.stringContents = ")".data ||
  tok.stringContents = "\x7b".data || tok.stringContents = "\x7d".data ||
  tok.stringContents = "[".data || tok.stringContents = "]".data

/-- The state of a `TypeScriptVarDeclMatcher`. -/
structure VarDeclState where
  state : VarDeclReadState
  nameBuffer : Option Str
  typeBuffer : Option Str
  assignmentBuffer : Option Str
  typeBracesMatcher : BracesMatcherState
  assignmentBracesMatcher : BracesMatcherState
deriving Repr

/-- The var-decl result record `{name, type, assignment}`. -/
structure VarDeclResult where
  name : Str
  type : Option Str
  assignment : Option Str
deriving DecidableEq, Repr

/-- `TypeScriptVarDeclMatcher` constructor state. -/
def varDeclInit : VarDeclState :=
  { state := .READING_NAME, nameBuffer := some [], typeBuffer := none,
    assignmentBuffer := none, typeBracesMatcher := typeBracesState,
    assignmentBracesMatcher := assignmentBracesState }

/-- `TypeScriptVarDeclMatcher.reset`: returns the current contents if any. -/
def varDeclReset (m : VarDeclState) : Option VarDeclResult × VarDeclState :=
  let retValue :=
    match m.nameBuffer with
    | none => none
    | some nameBuffer =>
      if (jsTrim nameBuffer).length = 0 then none
      else some { name := jsTrim nameBuffer, type := m.typeBuffer.map jsTrim,
                  assignment := m.assignmentBuffer.map jsTrim }
  (retValue,
   { state := .READING_NAME, nameBuffer := none, typeBuffer := none,
     assignmentBuffer := none, typeBracesMatcher := bracesReset m.typeBracesMatcher,
     assignmentBracesMatcher := bracesReset m.assignmentBracesMatcher })

/-- `TypeScriptVarDeclMatcher.next`. -/
def varDeclNext (m : VarDeclState) (tok : Token) :
    Except String (Option VarDeclResult × VarDeclState) :=
  match m.state with
  | .READING_NAME =>
    if tok.stringContents = ":".data then
      .ok (none, { m with state := .READING_TYPE })
    else if tok.stringContents = "=".data then
      .ok (none, { m with state := .READING_ASSIGNMENT })
    else if tok.stringContents = ";".data || tok.stringContents = ",".data ||
        tok.stringContents = ")".data then
      .ok (varDeclReset m)
    else
      .ok (none, { m with nameBuffer := some ((m.nameBuffer.getD []) ++ tok.stringContents) })
  | .READING_TYPE =>
    if (tok.stringContents = "=".data || tok.stringContents = ";".data ||
        tok.stringContents = ",".data || tok.stringContents = ")".data) &&
        bracesCurrentDepth m.typeBracesMatcher = 0 then
      if tok.stringContents = "=".data then
        .ok (none, { m with state := .READING_ASSIGNMENT })
      else
        .ok (varDeclReset m)
    else
      let m := { m with typeBuffer := some ((m.typeBuffer.getD []) ++ tok.stringContents) }
      if isBraceTypeTok tok then
        match bracesNext m.typeBracesMatcher tok.stringContents with
        | .error e => .error e
        | .ok (_, bm) => .ok (none, { m with typeBracesMatcher := bm })
      else .ok (none, m)
  | .READING_ASSIGNMENT =>
    if (tok.stringContents = ";".data || tok.stringContents = ",".data ||
        tok.stringContents = ")".data) &&
        bracesCurrentDepth m.assignmentBracesMatcher = 0 then
      .ok (varDeclReset m)
    else
      let m := { m with assignmentBuffer := some ((m.assignmentBuffer.getD []) ++ tok.stringContents) }
      if isBraceAssignmentTok tok then
        match bracesNext m.assignmentBracesMatcher tok.stringContents with
        | .error e => .error e
        | .ok (_, bm) => .ok (none, { m with assignmentBracesMatcher := bm })
      else .ok (none, m)

/-! ## TypeScript detector (`src/impl/typescript/TypeScriptParser.ts`) -/

/-- `TypeScriptParser.stripString`: whitespace kinds to spaces, then trim. -/
def tsReplaceWhitespace : Str → Str
  | [] => []
  | '\r' :: '\n' :: rest => ' ' :: tsReplaceWhitespace rest
  | '\r' :: rest => ' ' :: tsReplaceWhitespace rest
  | '\n' :: rest => ' ' :: tsReplaceWhitespace rest
  | '\t' :: rest => ' ' :: tsReplaceWhitespace rest
  | c :: rest => c :: tsReplaceWhitespace rest

/-- `TypeScriptParser.stripString`. -/
def tsStripString (s : Str) : Str := jsTrim (tsReplaceWhitespace s)

/-- The instance fields of `TypeScriptParser`. -/
structure TsState where
  parseType : NonTerminal
  bracesMatcher : BracesMatcherState
  curlyBracesMatcher : BracesMatcherState
  argumentMatcher : VarDeclState
  globalDetectionStartIndex : Int
  mostRecentStatementsEndTokIdx : Int
  continuousSpacingsAfterTerminateStatements : Bool
  functOpeningBracket : Int
  functClosingBracket : Int
  functOpeningBrace : Int
  functClosingBrace : Int
  functRetTypeBracesMatcher : BracesMatcherState
  functName : Str
  functType : Option Str
  functPreviousImmediatelyColon : Bool
  functPreviousImmediatelyClosingBracket : Bool
  functBodyHasOthers : Bool
  functBodyHasPreviousContent : Bool
  functDeclStartParseIdx : Int
  functDeclParsing : Bool
  codeBlocksHasComments : Bool
  codeBlocksSymbolToDetect : PSym
  codeBlocksLastSymbolDetectionEnd : Int
  codeBlocksHasContents : Bool
  codeBlocksStartOfPotentialDetection : Int
  cbSymbSpacesTextsOnly : Bool
  cbSymbAttemptedDetect : Bool
  cbSymbStringStream : Str
  cbSymbTokenStream : List Token
  cbSymbClassOpeningBrace : Int
  cbSymbClassClosingBrace : Int
  cbSymbClassDefnText : Option Str
  cbSymbFuncOpeningBracket : Int
  cbSymbFuncClosingBracket : Int
  cbSymbFuncOpeningBrace : Int
  cbSymbFuncClosingBrace : Int
  cbSymbFuncDefnText : Option Str
  cbSymbFuncPreviousImmediatelyColon : Bool
  cbSymbFuncRetTypeBracesMatcher : BracesMatcherState
deriving Repr

/-- The curly-only matcher state. -/
def curlyBracesState : BracesMatcherState :=
  { openingToClosing := [('{', '}')], closingToOpening := [('}', '{')], stack := [] }

/-- The `<>`-aware return-type matcher state. -/
def retTypeBracesState : BracesMatcherState :=
  { openingToClosing := [('{', '}'), ('[', ']'), ('(', ')'), ('<', '>')],
    closingToOpening := [('}', '{'), (']', '['), (')', '('), ('>', '<')], stack := [] }

/-- `TypeScriptParser.resetDetectionState`. -/
def tsResetDetectionState (startTokIndex : Nat) (parsingNonTerminal : NonTerminal)
    (st : TsState) : TsState :=
  let st := { st with
      globalDetectionStartIndex := (startTokIndex : Int),
      parseType := parsingNonTerminal,
      bracesMatcher := bracesReset st.bracesMatcher,
      curlyBracesMatcher := bracesReset st.curlyBracesMatcher,
      argumentMatcher := (varDeclReset st.argumentMatcher).2,
      mostRecentStatementsEndTokIdx := (startTokIndex : Int) - 1,
      continuousSpacingsAfterTerminateStatements := true }
  match parsingNonTerminal with
  | .TOP_LEVEL => { st with
      codeBlocksHasComments := false, codeBlocksSymbolToDetect := .term .STATEMENTS_FILLER,
      codeBlocksLastSymbolDetectionEnd := (startTokIndex : Int) - 1,
      codeBlocksHasContents := false, codeBlocksStartOfPotentialDetection := -1 }
  | .CLASSES => { st with
      codeBlocksHasComments := false, codeBlocksSymbolToDetect := .term .STATEMENTS_FILLER,
      codeBlocksLastSymbolDetectionEnd := (startTokIndex : Int) - 1,
      codeBlocksHasContents := false, codeBlocksStartOfPotentialDetection := -1 }
  | .FUNCTIONS => { st with
      functOpeningBracket := -1, functClosingBracket := -1, functOpeningBrace := -1,
      functClosingBrace := -1, functRetTypeBracesMatcher := bracesReset st.functRetTypeBracesMatcher,
      functName := [], functType := none, functPreviousImmediatelyColon := false,
      functPreviousImmediatelyClosingBracket := false }
  | .FUNCTION_BODY => { st with
      functBodyHasOthers := false, functBodyHasPreviousContent := false }
  | .FUNCTION_DECLARATION => { st with
      functDeclStartParseIdx := -1, functDeclParsing := false }

/-- The state built by the `TypeScriptParser` constructor. -/
def tsInitState : TsState :=
  tsResetDetectionState 0 .TOP_LEVEL
    { parseType := .TOP_LEVEL, bracesMatcher := stdBracesState,
      curlyBracesMatcher := curlyBracesState, argumentMatcher := varDeclInit,
      globalDetectionStartIndex := -1, mostRecentStatementsEndTokIdx := -1,
      continuousSpacingsAfterTerminateStatements := true,
      functOpeningBracket := -1, functClosingBracket := -1, functOpeningBrace := -1,
      functClosingBrace := -1, functRetTypeBracesMatcher := retTypeBracesState,
      functName := [], functType := none, functPreviousImmediatelyColon := false,
      functPreviousImmediatelyClosingBracket := false,
      functBodyHasOthers := false, functBodyHasPreviousContent := false,
      functDeclStartParseIdx := -1, functDeclParsing := false,
      codeBlocksHasComments := false, codeBlocksSymbolToDetect := .term .STATEMENTS_FILLER,
      codeBlocksLastSymbolDetectionEnd := -1, codeBlocksHasContents := false,
      codeBlocksStartOfPotentialDetection := -1,
      cbSymbSpacesTextsOnly := true, cbSymbAttemptedDetect := false,
      cbSymbStringStream := [], cbSymbTokenStream := [],
      cbSymbClassOpeningBrace := -1, cbSymbClassClosingBrace := -1,
      cbSymbClassDefnText := none,
      cbSymbFuncOpeningBracket := -1, cbSymbFuncClosingBracket := -1,
      cbSymbFuncOpeningBrace := -1, cbSymbFuncClosingBrace := -1,
      cbSymbFuncDefnText := none, cbSymbFuncPreviousImmediatelyColon := false,
      cbSymbFuncRetTypeBracesMatcher := retTypeBracesState }

/-- `TypeScriptParser.checkCodeEndCondition`. -/
def tsCheckCodeEndCondition (st : TsState) (token : Token) : Bool :=
  (token.stringContents = ['\n'] && bracesCurrentDepth st.bracesMatcher = 0) ||
  (token.stringContents = [';'] && bracesCurrentDepth st.curlyBracesMatcher = 0)

/-- `TypeScriptParser.updateBracesAndTerminateStatementsState`. -/
def tsUpdateBracesAndTerminateStatementsState (token : Token) (currentTokIndex : Nat)
    (st : TsState) : Except ParseErr TsState :=
  if token.tokenType = .SPACINGS then
    if tsCheckCodeEndCondition st token then
      let st :=
        if token.stringContents = [';'] && bracesCurrentDepth st.bracesMatcher > 0 then
          { st with bracesMatcher := bracesReset st.bracesMatcher }
        else st
      .ok { st with mostRecentStatementsEndTokIdx := (currentTokIndex : Int),
                    continuousSpacingsAfterTerminateStatements := true }
    else .ok st
  else if token.tokenType = .BRACES then
    match bracesNext st.bracesMatcher token.stringContents with
    | .error e => .error (.parsing ("Error during brace matching! " ++ e))
    | .ok (_, bm) =>
      let st := { st with bracesMatcher := bm }
      if token.stringContents = "\x7b".data || token.stringContents = "\x7d".data then
        match bracesNext st.curlyBracesMatcher token.stringContents with
        | .error e => .error (.parsing ("Error during curly brace matching! " ++ e))
        | .ok (_, cbm) =>
          .ok { st with curlyBracesMatcher := cbm,
                        continuousSpacingsAfterTerminateStatements := false }
      else
        .ok { st with continuousSpacingsAfterTerminateStatements := false }
  else
    .ok { st with continuousSpacingsAfterTerminateStatements := false }

/-- `TypeScriptParser.attemptConcludeCodeBlock`: returns `some symbol` for a
successful conclusion or `none` for invalidation. -/
def tsAttemptConcludeCodeBlock (env : ParseEnv) (symbolToDetect : PSym) (st : TsState) :
    Except ParseErr (Option SymbolInfo × TsState) := do
  if st.parseType = .TOP_LEVEL then
    if symbolToDetect = .term .REFERENCES then
      let n := st.cbSymbTokenStream.length
      if n ≥ 3 &&
          ((st.cbSymbTokenStream.getD 0 dummyToken).stringContents = "import".data ||
           (st.cbSymbTokenStream.getD 0 dummyToken).stringContents = "export".data) &&
          (st.cbSymbTokenStream.getD (n - 2) dummyToken).stringContents = "from".data &&
          (st.cbSymbTokenStream.getD (n - 1) dummyToken).tokenType = .STRINGS then
        let referenceText := tsStripString
          (jsSubstring st.cbSymbStringStream 0 (st.cbSymbStringStream.length - 1))
        let referenceLoc0 := (st.cbSymbTokenStream.getD (n - 1) dummyToken).stringContents
        let referenceLoc := jsSubstring referenceLoc0 1 (referenceLoc0.length - 1)
        let refRelativePath : Option Str :=
          if "./".data.isPrefixOf referenceLoc then
            let loc := referenceLoc.drop 2
            if loc.length > 0 then some ("local-file://".data ++ loc) else none
          else if "../".data.isPrefixOf referenceLoc then
            let loc := referenceLoc.drop 3
            if loc.length > 0 then some ("local-file://../".data ++ loc) else none
          else
            if referenceLoc.length > 0 then some ("environment://".data ++ referenceLoc)
            else none
        let sym : SymbolInfo :=
          { symbolType := .term .REFERENCES,
            nodeCreationInformation := some (.referenceInfo referenceText refRelativePath) }
        .ok (some sym, st)
      else .ok (none, st)
    else if symbolToDetect = .nt .CLASSES then
      if st.cbSymbClassOpeningBrace ≠ -1 && st.cbSymbClassClosingBrace ≠ -1 &&
          st.cbSymbClassDefnText.isSome then
        let tokRange : TokenRange := { startTok := (st.cbSymbClassOpeningBrace + 1).toNat,
                                       endTok := st.cbSymbClassClosingBrace.toNat }
        let range := env.getRange (env.getTokenChRange tokRange.startTok).start
          (env.getTokenChRange tokRange.endTok).start
        let sym : SymbolInfo :=
          { symbolType := .nt .CLASSES, parseRange := some tokRange,
            nodeCreationInformation := some (.classInfo none
              (st.cbSymbClassDefnText.getD []) range) }
        .ok (some sym, st)
      else .ok (none, st)
    else if symbolToDetect = .nt .FUNCTIONS then
      if st.cbSymbFuncOpeningBracket ≠ -1 && st.cbSymbFuncClosingBracket ≠ -1 &&
          st.cbSymbFuncOpeningBrace ≠ -1 && st.cbSymbFuncClosingBrace ≠ -1 &&
          st.cbSymbFuncDefnText.isSome &&
          st.cbSymbFuncClosingBrace - st.cbSymbFuncOpeningBrace > 1 then
        let range := env.getRange
          (env.getTokenChRange (st.cbSymbFuncOpeningBrace + 1).toNat).start
          (env.getTokenChRange st.cbSymbFuncClosingBrace.toNat).start
        let sym : SymbolInfo :=
          { symbolType := .nt .FUNCTIONS,
            nodeCreationInformation := some (.functionsInfo
              (st.cbSymbFuncDefnText.getD []) range) }
        .ok (some sym, st)
      else .ok (none, st)
    else .error (.other "Unexpected!")
  else if st.parseType = .CLASSES then
    if symbolToDetect = .term .ATTRIBUTES then
      let (action, am) := varDeclReset st.argumentMatcher
      let st := { st with argumentMatcher := am }
      match action with
      | some a =>
        if a.name.length > 0 && a.type.isSome then
          let sym : SymbolInfo :=
            { symbolType := .term .ATTRIBUTES,
              nodeCreationInformation := some (.attributeInfo a.name a.type) }
          .ok (some sym, st)
        else .ok (none, st)
      | none => .ok (none, st)
    else if symbolToDetect = .nt .FUNCTIONS then
      if st.cbSymbFuncOpeningBracket ≠ -1 && st.cbSymbFuncClosingBracket ≠ -1 &&
          st.cbSymbFuncOpeningBrace ≠ -1 && st.cbSymbFuncClosingBrace ≠ -1 &&
          st.cbSymbFuncDefnText.isSome &&
          st.cbSymbFuncClosingBrace - st.cbSymbFuncOpeningBrace > 1 then
        let range := env.getRange
          (env.getTokenChRange (st.cbSymbFuncOpeningBrace + 1).toNat).start
          (env.getTokenChRange st.cbSymbFuncClosingBrace.toNat).start
        let sym : SymbolInfo :=
          { symbolType := .nt .FUNCTIONS,
            nodeCreationInformation := some (.functionsInfo
              (st.cbSymbFuncDefnText.getD []) range) }
        .ok (some sym, st)
      else .ok (none, st)
    else .error (.other "Unexpected!")
  else .error (.other "Unexpected!")

/-- `TypeScriptParser.detectSymbolsAsCodeBlocks`.  `startStatementIdx` here is
the caller's `currentTokIndex - codeBlocksStartOfPotentialDetection`. -/
def tsDetectSymbolsAsCodeBlocks (env : ParseEnv) (token : Token) (currentTokIndex : Nat)
    (startStatementIdx : Int) (st : TsState) :
    Except ParseErr (Option SymbolAdditionDirective × TsState) := do
  let st :=
    if startStatementIdx = 0 then
      { st with
        cbSymbSpacesTextsOnly := true, cbSymbAttemptedDetect := false,
        cbSymbStringStream := [], cbSymbTokenStream := [],
        cbSymbClassOpeningBrace := -1, cbSymbClassClosingBrace := -1,
        cbSymbClassDefnText := none,
        cbSymbFuncOpeningBracket := -1, cbSymbFuncClosingBracket := -1,
        cbSymbFuncOpeningBrace := -1, cbSymbFuncClosingBrace := -1,
        cbSymbFuncDefnText := none, cbSymbFuncPreviousImmediatelyColon := false,
        cbSymbFuncRetTypeBracesMatcher := bracesReset st.cbSymbFuncRetTypeBracesMatcher }
    else st
  let st := { st with cbSymbStringStream := st.cbSymbStringStream ++ token.stringContents }
  let st := if token.tokenType ≠ .SPACINGS then
      { st with cbSymbTokenStream := st.cbSymbTokenStream ++ [token] }
    else st
  let (action, st) ←
    (if st.parseType = .TOP_LEVEL then
      if st.codeBlocksSymbolToDetect = .term .STATEMENTS_FILLER then
        let st :=
          if !st.cbSymbAttemptedDetect then
            if startStatementIdx = 0 && token.stringContents = "import".data then
              { st with codeBlocksSymbolToDetect := .term .REFERENCES,
                        cbSymbAttemptedDetect := true }
            else if (st.cbSymbTokenStream.getD 0 dummyToken).stringContents = "export".data &&
                token.stringContents = "from".data then
              { st with codeBlocksSymbolToDetect := .term .REFERENCES,
                        cbSymbAttemptedDetect := true }
            else if st.cbSymbSpacesTextsOnly &&
                (token.stringContents = "class".data ||
                 token.stringContents = "interface".data) then
              { st with codeBlocksSymbolToDetect := .nt .CLASSES,
                        cbSymbAttemptedDetect := true }
            else if st.cbSymbSpacesTextsOnly && token.stringContents = "function".data then
              { st with codeBlocksSymbolToDetect := .nt .FUNCTIONS,
                        cbSymbAttemptedDetect := true }
            else st
          else st
        pure ((none : Option (Option SymbolInfo × Bool)), st)
      else if st.codeBlocksSymbolToDetect = .term .REFERENCES then
        if tsCheckCodeEndCondition st token then do
          let (create, st) ← tsAttemptConcludeCodeBlock env st.codeBlocksSymbolToDetect st
          pure (some (create, create.isNone), st)
        else pure (none, st)
      else if st.codeBlocksSymbolToDetect = .nt .CLASSES then
        if tsCheckCodeEndCondition st token then do
          let (create, st) ← tsAttemptConcludeCodeBlock env st.codeBlocksSymbolToDetect st
          pure (some (create, create.isNone), st)
        else
          if st.cbSymbClassOpeningBrace ≠ -1 then
            if st.cbSymbClassClosingBrace ≠ -1 && token.tokenType ≠ .SPACINGS then
              pure (none, { st with codeBlocksHasContents := true,
                                    codeBlocksSymbolToDetect := .term .STATEMENTS_FILLER })
            else if token.stringContents = "\x7d".data &&
                bracesCurrentDepth st.bracesMatcher = 1 then
              pure (none, { st with cbSymbClassClosingBrace := (currentTokIndex : Int) })
            else pure (none, st)
          else
            if token.stringContents = "\x7b".data && bracesCurrentDepth st.bracesMatcher = 0 then
              let defnText := tsStripString
                (jsSubstring st.cbSymbStringStream 0 (st.cbSymbStringStream.length - 1))
              pure (none, { st with cbSymbClassOpeningBrace := (currentTokIndex : Int),
                                    cbSymbClassDefnText := some defnText })
            else pure (none, st)
      else if st.codeBlocksSymbolToDetect = .nt .FUNCTIONS then
        if tsCheckCodeEndCondition st token then do
          let (create, st) ← tsAttemptConcludeCodeBlock env st.codeBlocksSymbolToDetect st
          pure (some (create, create.isNone), st)
        else do
          let st ←
            if st.cbSymbFuncOpeningBracket = -1 then
              if token.stringContents = "(".data && bracesCurrentDepth st.bracesMatcher = 0 then
                pure { st with cbSymbFuncOpeningBracket := (currentTokIndex : Int) }
              else pure st
            else if st.cbSymbFuncClosingBracket = -1 then
              if token.stringContents = ")".data && bracesCurrentDepth st.bracesMatcher = 1 then
                pure { st with cbSymbFuncClosingBracket := (currentTokIndex : Int) }
              else pure st
            else if st.cbSymbFuncOpeningBrace = -1 then do
              let st :=
                if bracesCurrentDepth st.cbSymbFuncRetTypeBracesMatcher = 0 &&
                    !st.cbSymbFuncPreviousImmediatelyColon &&
                    token.stringContents = "\x7b".data then
                  let defnText := tsStripString
                    (jsSubstring st.cbSymbStringStream 0 (st.cbSymbStringStream.length - 1))
                  { st with cbSymbFuncDefnText := some defnText,
                            cbSymbFuncOpeningBrace := (currentTokIndex : Int),
                            cbSymbFuncRetTypeBracesMatcher :=
                              bracesReset st.cbSymbFuncRetTypeBracesMatcher }
                else st
              if token.tokenType = .BRACES || token.stringContents = "<".data ||
                  token.stringContents = ">".data then
                match bracesNext st.cbSymbFuncRetTypeBracesMatcher token.stringContents with
                | .error e => .error (.parsing ("Error during brace matching! " ++ e))
                | .ok (_, bm) => pure { st with cbSymbFuncRetTypeBracesMatcher := bm }
              else pure st
            else if st.cbSymbFuncClosingBrace = -1 then
              if bracesCurrentDepth st.curlyBracesMatcher = 1 &&
                  token.stringContents = "\x7d".data then
                pure { st with cbSymbFuncClosingBrace := (currentTokIndex : Int) }
              else pure st
            else if token.tokenType ≠ .SPACINGS then
              pure { st with codeBlocksHasContents := true,
                             codeBlocksSymbolToDetect := .term .STATEMENTS_FILLER }
            else pure st
          let st :=
            if token.stringContents = ":".data then
              { st with cbSymbFuncPreviousImmediatelyColon := true }
            else if token.tokenType ≠ .SPACINGS then
              { st with cbSymbFuncPreviousImmediatelyColon := false }
            else st
          pure (none, st)
      else pure (none, st)
    else if st.parseType = .CLASSES then
      if st.codeBlocksSymbolToDetect = .term .STATEMENTS_FILLER then
        if !st.cbSymbAttemptedDetect then
          if st.cbSymbTokenStream.length ≥ 2 && token.stringContents = ":".data &&
              bracesCurrentDepth st.bracesMatcher = 0 && st.cbSymbSpacesTextsOnly then do
            let n := st.cbSymbTokenStream.length
            let (_, am) := varDeclReset st.argumentMatcher
            let (_, am) ← (match varDeclNext am (st.cbSymbTokenStream.getD (n - 2) dummyToken) with
              | .error e => Except.error (ParseErr.other e)
              | .ok r => pure r)
            let (_, am) ← (match varDeclNext am (st.cbSymbTokenStream.getD (n - 1) dummyToken) with
              | .error e => Except.error (ParseErr.other e)
              | .ok r => pure r)
            pure (none, { st with codeBlocksSymbolToDetect := .term .ATTRIBUTES,
                                  cbSymbAttemptedDetect := true, argumentMatcher := am })
          else if st.cbSymbSpacesTextsOnly && token.stringContents = "(".data &&
              bracesCurrentDepth st.bracesMatcher = 0 then
            pure (none, { st with codeBlocksSymbolToDetect := .nt .FUNCTIONS,
                                  cbSymbAttemptedDetect := true,
                                  cbSymbFuncOpeningBracket := (currentTokIndex : Int) })
          else pure (none, st)
        else pure (none, st)
      else if st.codeBlocksSymbolToDetect = .term .ATTRIBUTES then
        if tsCheckCodeEndCondition st token then do
          let (create, st) ← tsAttemptConcludeCodeBlock env st.codeBlocksSymbolToDetect st
          pure (some (create, create.isNone), st)
        else
          match varDeclNext st.argumentMatcher token with
          | .error e => .error (.other e)
          | .ok (_, am) => pure (none, { st with argumentMatcher := am })
      else if st.codeBlocksSymbolToDetect = .nt .FUNCTIONS then
        if tsCheckCodeEndCondition st token then do
          let (create, st) ← tsAttemptConcludeCodeBlock env st.codeBlocksSymbolToDetect st
          pure (some (create, create.isNone), st)
        else do
          let st ←
            if st.cbSymbFuncClosingBracket = -1 then
              if token.stringContents = ")".data && bracesCurrentDepth st.bracesMatcher = 1 then
                pure { st with cbSymbFuncClosingBracket := (currentTokIndex : Int) }
              else pure st
            else if st.cbSymbFuncOpeningBrace = -1 then do
              let st :=
                if bracesCurrentDepth st.cbSymbFuncRetTypeBracesMatcher = 0 &&
                    !st.cbSymbFuncPreviousImmediatelyColon &&
                    token.stringContents = "\x7b".data then
                  let defnText := tsStripString
                    (jsSubstring st.cbSymbStringStream 0 (st.cbSymbStringStream.length - 1))
                  { st with cbSymbFuncDefnText := some defnText,
                            cbSymbFuncOpeningBrace := (currentTokIndex : Int),
                            cbSymbFuncRetTypeBracesMatcher :=
                              bracesReset st.cbSymbFuncRetTypeBracesMatcher }
                else st
              if token.tokenType = .BRACES || token.stringContents = "<".data ||
                  token.stringContents = ">".data then
                match bracesNext st.cbSymbFuncRetTypeBracesMatcher token.stringContents with
                | .error e => .error (.parsing ("Error during brace matching! " ++ e))
                | .ok (_, bm) => pure { st with cbSymbFuncRetTypeBracesMatcher := bm }
              else pure st
            else if st.cbSymbFuncClosingBrace = -1 then
              if bracesCurrentDepth st.curlyBracesMatcher = 1 &&
                  token.stringContents = "\x7d".data then
                pure { st with cbSymbFuncClosingBrace := (currentTokIndex : Int) }
              else pure st
            else if token.tokenType ≠ .SPACINGS then
              pure { st with codeBlocksHasContents := true,
                             codeBlocksSymbolToDetect := .term .STATEMENTS_FILLER }
            else pure st
          let st :=
            if token.stringContents = ":".data then
              { st with cbSymbFuncPreviousImmediatelyColon := true }
            else if token.tokenType ≠ .SPACINGS then
              { st with cbSymbFuncPreviousImmediatelyColon := false }
            else st
          pure (none, st)
      else pure (none, st)
    else .error (.other "Unexpected!") :
      Except ParseErr (Option (Option SymbolInfo × Bool) × TsState))
  let (retValue, st) ←
    (match action with
    | none => pure ((none : Option SymbolAdditionDirective), st)
    | some (create, _invalidate) =>
      match create with
      | none =>
        pure (none, { st with codeBlocksHasContents := true,
                              codeBlocksSymbolToDetect := .term .STATEMENTS_FILLER })
      | some sym =>
        let ret : SymbolAdditionDirective :=
          if st.codeBlocksStartOfPotentialDetection - st.codeBlocksLastSymbolDetectionEnd = 1 then
            { symbol := sym, secondSymbolLen := some 1 }
          else
            let fillerType : PSym :=
              if st.codeBlocksHasContents then .term .STATEMENTS_FILLER else .term .FILLER
            { symbol := { symbolType := fillerType },
              secondSymbol := some sym,
              secondSymbolLen :=
                some ((currentTokIndex : Int) - st.codeBlocksStartOfPotentialDetection).toNat,
              firstTwoSymbolsEndBufferLen := some 1 }
        pure (some ret,
          { st with codeBlocksLastSymbolDetectionEnd := (currentTokIndex : Int) - 1,
                    codeBlocksSymbolToDetect := .term .STATEMENTS_FILLER }) :
      Except ParseErr (Option SymbolAdditionDirective × TsState))
  let st :=
    if !(token.tokenType = .SPACINGS || token.tokenType = .OTHERS) then
      { st with cbSymbSpacesTextsOnly := false }
    else st
  .ok (retValue, st)

/-- `TypeScriptParser.detectCodeBlocks`. -/
def tsDetectCodeBlocks (env : ParseEnv) (token : Option Token) (currentTokIndex : Nat)
    (st : TsState) : Except ParseErr (Option SymbolAdditionDirective × TsState) := do
  match token with
  | none =>
    if st.codeBlocksSymbolToDetect = .term .STATEMENTS_FILLER then
      let fillerType : PSym :=
        if st.codeBlocksHasContents then .term .STATEMENTS_FILLER else .term .FILLER
      .ok (some { symbol := { symbolType := fillerType } }, st)
    else do
      let (create, st) ← tsAttemptConcludeCodeBlock env st.codeBlocksSymbolToDetect st
      match create with
      | none =>
        .ok (some { symbol := { symbolType := .term .STATEMENTS_FILLER } }, st)
      | some sym =>
        let gap := st.codeBlocksStartOfPotentialDetection -
          st.codeBlocksLastSymbolDetectionEnd - 1
        if gap > 0 then
          let fillerType : PSym :=
            if st.codeBlocksHasContents then .term .STATEMENTS_FILLER else .term .FILLER
          let ret : SymbolAdditionDirective :=
            { symbol := { symbolType := fillerType },
              secondSymbol := some sym,
              secondSymbolLen :=
                some ((currentTokIndex : Int) - st.codeBlocksStartOfPotentialDetection).toNat }
          .ok (some ret, st)
        else
          .ok (some { symbol := sym }, st)
  | some token =>
    let startStatementIdx : Int :=
      (currentTokIndex : Int) - st.mostRecentStatementsEndTokIdx - 1
    let st :=
      if startStatementIdx = 0 then
        let st :=
          if st.codeBlocksSymbolToDetect ≠ .term .STATEMENTS_FILLER then
            { st with codeBlocksSymbolToDetect := .term .STATEMENTS_FILLER,
                      codeBlocksHasContents := true }
          else st
        { st with codeBlocksHasComments := false }
      else st
    let (retValue, st) ←
      if st.codeBlocksSymbolToDetect = .term .STATEMENTS_FILLER then
        if !st.codeBlocksHasComments then
          if token.tokenType = .SINGLELINE_COMMENTS then
            let priorFillerLength : Int :=
              (currentTokIndex : Int) - st.codeBlocksLastSymbolDetectionEnd - 1
            let commentSym : SymbolInfo :=
              { symbolType := .term .COMMENT_SINGLELINE,
                nodeCreationInformation := some (.commentInfo (token.stringContents.drop 2)) }
            let ret : SymbolAdditionDirective :=
              if priorFillerLength = 0 then { symbol := commentSym }
              else
                let fillerType : PSym :=
                  if st.codeBlocksHasContents then .term .STATEMENTS_FILLER else .term .FILLER
                { symbol := { symbolType := fillerType }, secondSymbol := some commentSym }
            pure (some ret,
              { st with codeBlocksHasComments := true,
                        codeBlocksLastSymbolDetectionEnd := (currentTokIndex : Int),
                        codeBlocksHasContents := false })
          else if token.tokenType = .MULTILINE_COMMENTS_OR_STRINGS &&
              "/*".data.isPrefixOf token.stringContents &&
              "*/".data.isSuffixOf token.stringContents then
            let priorFillerLength : Int :=
              (currentTokIndex : Int) - st.codeBlocksLastSymbolDetectionEnd - 1
            let contents := jsSubstring token.stringContents 2 (token.stringContents.length - 2)
            let commentSym : SymbolInfo :=
              { symbolType := .term .COMMENT_MULTILINE,
                nodeCreationInformation := some (.commentInfo contents) }
            let st := { st with codeBlocksHasComments := true,
                                codeBlocksLastSymbolDetectionEnd := (currentTokIndex : Int) }
            let ret : SymbolAdditionDirective :=
              if priorFillerLength = 0 then { symbol := commentSym }
              else
                let fillerType : PSym :=
                  if st.codeBlocksHasContents then .term .STATEMENTS_FILLER else .term .FILLER
                { symbol := { symbolType := fillerType }, secondSymbol := some commentSym }
            pure (some ret,
              { st with codeBlocksHasComments := true,
                        codeBlocksLastSymbolDetectionEnd := (currentTokIndex : Int),
                        codeBlocksHasContents := false })
          else
            if !st.continuousSpacingsAfterTerminateStatements ||
                token.tokenType ≠ .SPACINGS then
              let st :=
                if st.continuousSpacingsAfterTerminateStatements then
                  { st with codeBlocksStartOfPotentialDetection := (currentTokIndex : Int) }
                else st
              tsDetectSymbolsAsCodeBlocks env token currentTokIndex
                ((currentTokIndex : Int) - st.codeBlocksStartOfPotentialDetection) st
            else pure (none, st)
        else
          if token.tokenType = .SINGLELINE_COMMENTS then
            let priorFillerLength : Int :=
              (currentTokIndex : Int) - st.codeBlocksLastSymbolDetectionEnd - 1
            let commentSym : SymbolInfo :=
              { symbolType := .term .COMMENT_SINGLELINE,
                nodeCreationInformation := some (.commentInfo (token.stringContents.drop 2)) }
            let ret : SymbolAdditionDirective :=
              if priorFillerLength = 0 then { symbol := commentSym }
              else
                let fillerType : PSym :=
                  if st.codeBlocksHasContents then .term .STATEMENTS_FILLER else .term .FILLER
                { symbol := { symbolType := fillerType }, secondSymbol := some commentSym }
            pure (some ret,
              { st with codeBlocksLastSymbolDetectionEnd := (currentTokIndex : Int),
                        codeBlocksHasContents := false })
          else if token.tokenType = .MULTILINE_COMMENTS_OR_STRINGS &&
              "/*".data.isPrefixOf token.stringContents &&
              "*/".data.isSuffixOf token.stringContents then
            let priorFillerLength : Int :=
              (currentTokIndex : Int) - st.codeBlocksLastSymbolDetectionEnd - 1
            let contents := jsSubstring token.stringContents 2 (token.stringContents.length - 2)
            let commentSym : SymbolInfo :=
              { symbolType := .term .COMMENT_MULTILINE,
                nodeCreationInformation := some (.commentInfo contents) }
            let st := { st with codeBlocksHasComments := true,
                                codeBlocksLastSymbolDetectionEnd := (currentTokIndex : Int) }
            let ret : SymbolAdditionDirective :=
              if priorFillerLength = 0 then { symbol := commentSym }
              else
                let fillerType : PSym :=
                  if st.codeBlocksHasContents then .term .STATEMENTS_FILLER else .term .FILLER
                { symbol := { symbolType := fillerType }, secondSymbol := some commentSym }
            pure (some ret,
              { st with codeBlocksLastSymbolDetectionEnd := (currentTokIndex : Int),
                        codeBlocksHasContents := false })
          else if token.tokenType ≠ .SPACINGS then
            pure (none, { st with codeBlocksHasContents := true })
          else pure (none, st)
      else
        tsDetectSymbolsAsCodeBlocks env token currentTokIndex
          ((currentTokIndex : Int) - st.codeBlocksStartOfPotentialDetection) st
    let st ← tsUpdateBracesAndTerminateStatementsState token currentTokIndex st
    .ok (retValue, st)

/-- `TypeScriptParser.detectFunctionsSymbol`. -/
def tsDetectFunctionsSymbol (_env : ParseEnv) (token : Option Token)
    (currentTokIndex : Nat) (_depth : Nat) (st : TsState) :
    Except ParseErr (Option SymbolAdditionDirective × TsState) := do
  match token with
  | none =>
    .ok (some { symbol := { symbolType := .nt .FUNCTION_BODY },
                secondSymbol := some { symbolType := .term .FILLER },
                secondSymbolLen := some 1 }, st)
  | some token =>
    let (retValue, st) ←
      if st.functOpeningBracket = -1 then
        let st :=
          if token.tokenType = .OTHERS then { st with functName := token.stringContents }
          else st
        if token.stringContents = "(".data && bracesCurrentDepth st.bracesMatcher = 0 then
          pure ((none : Option SymbolAdditionDirective),
            { st with functOpeningBracket := (currentTokIndex : Int) })
        else pure (none, st)
      else if st.functClosingBracket = -1 then
        if token.stringContents = ")".data && bracesCurrentDepth st.bracesMatcher = 1 then
          pure (none, { st with functClosingBracket := (currentTokIndex : Int),
                                functPreviousImmediatelyClosingBracket := true })
        else pure (none, st)
      else if st.functOpeningBrace = -1 then do
        let (ret, st) ←
          if bracesCurrentDepth st.functRetTypeBracesMatcher = 0 &&
              !st.functPreviousImmediatelyColon && token.stringContents = "\x7b".data then
            let st := { st with functType := st.functType.map tsStripString }
            let st := { st with functOpeningBrace := (currentTokIndex : Int),
                                functRetTypeBracesMatcher :=
                                  bracesReset st.functRetTypeBracesMatcher }
            let declSym : SymbolInfo :=
              { symbolType := .nt .FUNCTION_DECLARATION,
                parseRange := some { startTok := st.globalDetectionStartIndex.toNat,
                                     endTok := st.functOpeningBrace.toNat },
                nodeCreationInformation := some (.functionDeclInfo (jsTrim st.functName)
                  st.functType) }
            pure (some ({ symbol := declSym, secondSymbolLen := some 1,
                          secondSymbol := some { symbolType := .term .FILLER } } :
              SymbolAdditionDirective), st)
          else if st.functPreviousImmediatelyColon &&
              bracesCurrentDepth st.functRetTypeBracesMatcher = 0 then
            pure (none, { st with functType := some token.stringContents })
          else
            match st.functType with
            | some t => pure (none, { st with functType := some (t ++ token.stringContents) })
            | none => pure (none, st)
        if token.tokenType = .BRACES || token.stringContents = "<".data ||
            token.stringContents = ">".data then
          match bracesNext st.functRetTypeBracesMatcher token.stringContents with
          | .error e => .error (.parsing ("Error during brace matching! " ++ e))
          | .ok (_, bm) => pure (ret, { st with functRetTypeBracesMatcher := bm })
        else pure (ret, st)
      else if st.functClosingBrace = -1 then
        if bracesCurrentDepth st.curlyBracesMatcher = 1 && token.stringContents = "\x7d".data then
          pure (none, { st with functClosingBrace := (currentTokIndex : Int) })
        else pure (none, st)
      else pure (none, st)
    let st :=
      if token.stringContents = ":".data then
        { st with functPreviousImmediatelyColon := true }
      else if token.tokenType ≠ .SPACINGS then
        { st with functPreviousImmediatelyColon := false }
      else st
    let st :=
      if token.tokenType ≠ .SPACINGS then
        { st with functPreviousImmediatelyClosingBracket := false }
      else st
    let st ← tsUpdateBracesAndTerminateStatementsState token currentTokIndex st
    .ok (retValue, st)

/-- `TypeScriptParser.detectFunctionBodySymbol`. -/
def tsDetectFunctionBodySymbol (_env : ParseEnv) (token : Option Token)
    (_currentTokIndex : Nat) (_depth : Nat) (st : TsState) :
    Except ParseErr (Option SymbolAdditionDirective × TsState) := do
  match token with
  | none =>
    if st.functBodyHasPreviousContent then
      let fillerSym : SymbolInfo :=
        { symbolType := if st.functBodyHasOthers then .term .STATEMENTS_FILLER else .term .FILLER }
      .ok (some { symbol := fillerSym }, st)
    else .ok (none, st)
  | some token =>
    let fillerSym : SymbolInfo :=
      { symbolType := if st.functBodyHasOthers then .term .STATEMENTS_FILLER else .term .FILLER }
    if token.tokenType = .SINGLELINE_COMMENTS then
      let slSym : SymbolInfo :=
        { symbolType := .term .COMMENT_SINGLELINE,
          nodeCreationInformation := some (.commentInfo (token.stringContents.drop 2)) }
      let ret : SymbolAdditionDirective :=
        if st.functBodyHasPreviousContent then
          { symbol := fillerSym, secondSymbol := some slSym }
        else { symbol := slSym }
      .ok (some ret, { st with functBodyHasOthers := false,
                               functBodyHasPreviousContent := false })
    else if token.tokenType = .MULTILINE_COMMENTS_OR_STRINGS &&
        "/*".data.isPrefixOf token.stringContents &&
        "*/".data.isSuffixOf token.stringContents then
      let contents := jsSubstring token.stringContents 2 (token.stringContents.length - 2)
      let mlSym : SymbolInfo :=
        { symbolType := .term .COMMENT_MULTILINE,
          nodeCreationInformation := some (.commentInfo contents) }
      let ret : SymbolAdditionDirective :=
        if st.functBodyHasPreviousContent then
          { symbol := fillerSym, secondSymbol := some mlSym }
        else { symbol := mlSym }
      .ok (some ret, { st with functBodyHasOthers := false,
                               functBodyHasPreviousContent := false })
    else
      .ok (none, { st with functBodyHasPreviousContent := true,
                           functBodyHasOthers :=
                             st.functBodyHasOthers || token.tokenType ≠ .SPACINGS })

/-- `TypeScriptParser.detectFunctionDeclarationSymbol`. -/
def tsDetectFunctionDeclarationSymbol (_env : ParseEnv) (token : Option Token)
    (currentTokIndex : Nat) (_depth : Nat) (st : TsState) :
    Except ParseErr (Option SymbolAdditionDirective × TsState) := do
  match token with
  | none => .ok (some { symbol := { symbolType := .term .FILLER } }, st)
  | some token =>
    let (retDirective, st) ←
      if st.functDeclParsing then
        match varDeclNext st.argumentMatcher token with
        | .error e => .error (.other e)
        | .ok (action, am) =>
          let st := { st with argumentMatcher := am }
          match action with
          | some a =>
            let argSym : SymbolInfo :=
              { symbolType := .term .ARGUMENT,
                nodeCreationInformation := some (.argumentInfo a.name a.type) }
            let ret : SymbolAdditionDirective :=
              { symbol := { symbolType := .term .FILLER },
                secondSymbol := some argSym,
                secondSymbolLen :=
                  some ((currentTokIndex : Int) - st.functDeclStartParseIdx - 1).toNat,
                firstTwoSymbolsEndBufferLen := some 1 }
            pure (some ret, { st with functDeclStartParseIdx := (currentTokIndex : Int) })
          | none => pure ((none : Option SymbolAdditionDirective), st)
      else pure (none, st)
    let st ← tsUpdateBracesAndTerminateStatementsState token currentTokIndex st
    if st.functDeclParsing && bracesCurrentDepth st.bracesMatcher = 0 then
      let st := { st with functDeclParsing := false }
      let (action, am) := varDeclReset st.argumentMatcher
      let st := { st with argumentMatcher := am }
      match action with
      | some a =>
        let argSym : SymbolInfo :=
          { symbolType := .term .ARGUMENT,
            nodeCreationInformation := some (.argumentInfo a.name a.type) }
        let ret : SymbolAdditionDirective :=
          { symbol := { symbolType := .term .FILLER },
            secondSymbol := some argSym,
            secondSymbolLen :=
              some ((currentTokIndex : Int) - st.functDeclStartParseIdx - 1).toNat,
            firstTwoSymbolsEndBufferLen := some 1 }
        .ok (some ret, { st with functDeclStartParseIdx := (currentTokIndex : Int) })
      | none => .ok (retDirective, st)
    else if bracesCurrentDepth st.bracesMatcher > 0 && st.functDeclStartParseIdx = -1 then
      .ok (retDirective, { st with functDeclStartParseIdx := (currentTokIndex : Int),
                                   functDeclParsing := true })
    else .ok (retDirective, st)

/-- `TypeScriptParser` as a language front-end. -/
def typescriptFrontEnd : LangParser TsState :=
  { isCommentBeforeFunction := true,
    resetDetectionState := tsResetDetectionState,
    detectTopLevelSymbol := fun env token currentTokIndex _depth st =>
      tsDetectCodeBlocks env token currentTokIndex st,
    detectClassesSymbol := fun env token currentTokIndex _depth st =>
      tsDetectCodeBlocks env token currentTokIndex st,
    detectFunctionsSymbol := tsDetectFunctionsSymbol,
    detectFunctionBodySymbol := tsDetectFunctionBodySymbol,
    detectFunctionDeclarationSymbol := tsDetectFunctionDeclarationSymbol,
    preparse := fun _ _ st => .ok st }

/-- `parseTypeScript(source)`: the TypeScript-like structural parse. -/
def parseTypeScript (codeLines : List Str) : Except ParseErr AbstractSyntaxTree :=
  parseWith typescriptFrontEnd typescriptLexer tsLexInit tsInitState codeLines

/-! ## Tree tokens (`src/parsing/ASTGenericTokenizer.ts`) -/

/-- `ASTGenericTokenizer.ts` `TreeTokenType`. -/
inductive TreeTokenType where
  | TOP_LEVEL
  | REFERENCES
  | FUNCTION_GROUP
  | FUNCTION
  | FUNCTION_DEFINITION
  | COMMENTS
  | CLASS
  | ATTRIBUTE
  | ARGUMENT
  | OTHERS
deriving DecidableEq, Repr

/-- `ASTGenericTokenizer.ts` `TreeToken`. -/
structure TreeToken where
  stringContents : Str
  tokenType : TreeTokenType
  range : Option Range := none
  originalNode : Option SyntaxNode := none

/-- `ASTGenericTokenizer.ts` `TokenAction`. -/
inductive TokenAction where
  | TERMINATE
  | RESOLVE
deriving DecidableEq, Repr

/-- `ASTGenericTokenizer.ts` `TextRange`. -/
structure TextRange where
  text : Str
  range : Range

/-- `AbstractSyntaxTree.getSourceText` (with its range-validity throws;
the out-of-bounds line access JavaScript would crash on is also an error). -/
def getSourceText (sourceLines : List Str) (sl sc el ec : Nat) : Except String Str :=
  if el > sourceLines.length || sl > el || (sl = el && sc > ec) then
    .error "Invalid range specified. The start index must come before the end index."
  else if (el = sourceLines.length && ec ≠ 0) ||
      (el < sourceLines.length && ec > (sourceLines.getD el []).length) then
    .error "Invalid range specified. The end character is not a valid character."
  else if sl ≥ sourceLines.length then
    .error "TypeError"
  else if sc > (sourceLines.getD sl []).length then
    .error "Invalid range specified. The start character is not a valid character."
  else
    let lines := (sourceLines.drop sl).take (min (el + 1) sourceLines.length - sl)
    let lines := if el = sourceLines.length then lines ++ [[]] else lines
    match lines with
    | [] => .ok []
    | [single] => .ok (jsSubstring single sc ec)
    | first :: rest =>
      let middleLast := rest.dropLast
      let lastLine := rest.getLast? |>.getD []
      .ok ((first.drop sc :: middleLast ++ [lastLine.take ec]).intersperse ['\n']).flatten

/-- `AbstractSyntaxTree.getSourceTextFromRange`. -/
def getSourceTextFromRange (sourceLines : List Str) (range : Range) : Except String Str :=
  getSourceText sourceLines range.start_line range.start_character
    range.end_line range.end_character

/-- `ASTGenericTokenizer.getTexts`: the node's full, prefix and suffix texts
(the latter two only when their ranges are nonempty), with the
`CodeParserImplError` when a `Functions`/`Classes` node lacks an inner
range. -/
def getTexts (sourceLines : List Str) (node : SyntaxNode) :
    Except String (TextRange × Option TextRange × Option TextRange) := do
  let range := node.getRange
  let prefixRange := node.getPrefixRange
  let suffixRange := node.getSuffixRange
  if (node.data.kind = .functions || node.data.kind = .classes) &&
      (prefixRange.isNone || suffixRange.isNone) then
    .error "The Parser must implement and resolve the inner range for Functions and Classes!"
  else do
    let tokenText ← getSourceTextFromRange sourceLines range
    let tokenPrefixText ← (match prefixRange with
      | some pr =>
        if compare (rangeToStartIndex pr) (rangeToEndIndex pr) = -1 then do
          let t ← getSourceTextFromRange sourceLines pr
          pure (some ({ text := t, range := pr } : TextRange))
        else pure none
      | none => pure none)
    let tokenSuffixText ← (match suffixRange with
      | some sr =>
        if compare (rangeToStartIndex sr) (rangeToEndIndex sr) = -1 then do
          let t ← getSourceTextFromRange sourceLines sr
          pure (some ({ text := t, range := sr } : TextRange))
        else pure none
      | none => pure none)
    .ok ({ text := tokenText, range := range }, tokenPrefixText, tokenSuffixText)

/-! ## The faithful tree tokenizer (`src/parsing/ASTFaithfulTokenizer.ts`) -/

/-- `ASTFaithfulTokenizer.ts` `TokenizationMode`. -/
inductive TokenizationMode where
  | NONE
  | TOP_LEVEL_ONLY
  | FUNCTIONS_AND_CLASSES
  | FUNCTIONS_AND_CLASSES_AND_ARGUMENTS
  | EVERYTHING
deriving DecidableEq, Repr

/-- The result of one `convertIntoTokens` call, with the updated
`prevEndIndex` (the source mutates the field inside `getPrefixTokens`). -/
structure ConvertResult where
  prefixTokens : List TreeToken
  suffixTokens : List TreeToken
  action : TokenAction
  prevEndIndex : Index

/-- `ASTFaithfulTokenizer.getPrefixTokens`: a gap-filling `OTHERS` token when
`prevEndIndex` is strictly before the token start, then the token itself;
updates `prevEndIndex` to the token's end.  Throws when `prevEndIndex` is past
the token start. -/
def getPrefixTokens (sourceLines : List Str) (prevEndIndex : Index) (tokenText : TextRange)
    (tokenType : TreeTokenType) (originalNode : Option SyntaxNode) :
    Except String (List TreeToken × Index) := do
  let comparison := compare prevEndIndex (rangeToStartIndex tokenText.range)
  if comparison = 1 then
    .error "Invalid comparison! Expected previous end to be less than or equal to the current range."
  else if comparison = -1 then
    let fillRange := indexesToRange prevEndIndex (rangeToStartIndex tokenText.range)
    let fillText ← getSourceTextFromRange sourceLines fillRange
    .ok ([{ stringContents := fillText, range := some fillRange, tokenType := .OTHERS },
          { stringContents := tokenText.text, range := some tokenText.range,
            tokenType := tokenType, originalNode := originalNode }],
         rangeToEndIndex tokenText.range)
  else
    .ok ([{ stringContents := tokenText.text, range := some tokenText.range,
            tokenType := tokenType, originalNode := originalNode }],
         rangeToEndIndex tokenText.range)

/-- Shorthand for a single-token suffix list, as built inline in the source. -/
def suffixToken (tokenSuffixText : TextRange) (tokenType : TreeTokenType)
    (node : SyntaxNode) : List TreeToken :=
  [{ stringContents := tokenSuffixText.text, range := some tokenSuffixText.range,
     tokenType := tokenType, originalNode := some node }]

/-- `ASTFaithfulTokenizer.convertTopLevel`. -/
def convertTopLevel (sourceLines : List Str) (excludeInnerRangeIfPossible : Bool)
    (node : SyntaxNode) (depth : Nat) (parentKind : Option NodeKind) (_rank : Nat)
    (tokenText : TextRange) (tokenPrefixText tokenSuffixText : Option TextRange)
    (prevEndIndex : Index) : Except String ConvertResult := do
  if depth = 0 then
    .ok { prefixTokens := [], suffixTokens := [], action := .RESOLVE,
          prevEndIndex := prevEndIndex }
  else if node.data.kind = .references then
    let (toks, pe) ← getPrefixTokens sourceLines prevEndIndex tokenText .REFERENCES (some node)
    .ok { prefixTokens := toks, suffixTokens := [], action := .TERMINATE, prevEndIndex := pe }
  else if node.data.kind = .comments then
    if parentKind = some .topLevel then
      let (toks, pe) ← getPrefixTokens sourceLines prevEndIndex tokenText .COMMENTS (some node)
      .ok { prefixTokens := toks, suffixTokens := [], action := .TERMINATE, prevEndIndex := pe }
    else
      .ok { prefixTokens := [], suffixTokens := [], action := .TERMINATE,
            prevEndIndex := prevEndIndex }
  else if node.data.kind = .classes then
    if excludeInnerRangeIfPossible && tokenPrefixText.isSome then
      let pfx := tokenPrefixText.getD tokenText
      match tokenSuffixText with
      | some sfx =>
        let (toks, pe) ← getPrefixTokens sourceLines prevEndIndex pfx .CLASS (some node)
        .ok { prefixTokens := toks, suffixTokens := suffixToken sfx .CLASS node,
              action := .TERMINATE, prevEndIndex := pe }
      | none =>
        let (toks, pe) ← getPrefixTokens sourceLines prevEndIndex pfx .CLASS (some node)
        .ok { prefixTokens := toks, suffixTokens := [], action := .TERMINATE,
              prevEndIndex := pe }
    else
      let (toks, pe) ← getPrefixTokens sourceLines prevEndIndex tokenText .CLASS (some node)
      .ok { prefixTokens := toks, suffixTokens := [], action := .TERMINATE, prevEndIndex := pe }
  else if node.data.kind = .functionGroups then
    .ok { prefixTokens := [], suffixTokens := [], action := .RESOLVE,
          prevEndIndex := prevEndIndex }
  else if node.data.kind = .functions then
    if excludeInnerRangeIfPossible && tokenPrefixText.isSome then
      let pfx := tokenPrefixText.getD tokenText
      match tokenSuffixText with
      | some sfx =>
        let (toks, pe) ← getPrefixTokens sourceLines prevEndIndex pfx .FUNCTION (some node)
        .ok { prefixTokens := toks, suffixTokens := suffixToken sfx .FUNCTION node,
              action := .TERMINATE, prevEndIndex := pe }
      | none =>
        let (toks, pe) ← getPrefixTokens sourceLines prevEndIndex pfx .FUNCTION (some node)
        .ok { prefixTokens := toks, suffixTokens := [], action := .TERMINATE,
              prevEndIndex := pe }
    else
      let (toks, pe) ← getPrefixTokens sourceLines prevEndIndex tokenText .FUNCTION (some node)
      .ok { prefixTokens := toks, suffixTokens := [], action := .TERMINATE, prevEndIndex := pe }
  else
    .error "Some scenarios not explored!"

/-- `ASTFaithfulTokenizer.convertFunctionsAndClasses`. -/
def convertFunctionsAndClasses (sourceLines : List Str) (excludeInnerRangeIfPossible : Bool)
    (node : SyntaxNode) (depth : Nat) (parentKind : Option NodeKind) (rank : Nat)
    (tokenText : TextRange) (tokenPrefixText tokenSuffixText : Option TextRange)
    (prevEndIndex : Index) : Except String ConvertResult := do
  if depth = 0 then
    .ok { prefixTokens := [], suffixTokens := [], action := .RESOLVE,
          prevEndIndex := prevEndIndex }
  else if node.data.kind = .references then
    let (toks, pe) ← getPrefixTokens sourceLines prevEndIndex tokenText .REFERENCES (some node)
    .ok { prefixTokens := toks, suffixTokens := [], action := .TERMINATE, prevEndIndex := pe }
  else if node.data.kind = .comments then
    -- comments directly in function groups with sibling rank > 0 are the
    -- function's own (Python-style) doc comments: excluded when the function
    -- is emitted whole
    if excludeInnerRangeIfPossible || parentKind ≠ some .functionGroups || rank = 0 then
      let (toks, pe) ← getPrefixTokens sourceLines prevEndIndex tokenText .COMMENTS (some node)
      .ok { prefixTokens := toks, suffixTokens := [], action := .TERMINATE, prevEndIndex := pe }
    else
      .ok { prefixTokens := [], suffixTokens := [], action := .TERMINATE,
            prevEndIndex := prevEndIndex }
  else if node.data.kind = .classes then
    match tokenPrefixText with
    | some pfx =>
      match tokenSuffixText with
      | some sfx =>
        let (toks, pe) ← getPrefixTokens sourceLines prevEndIndex pfx .CLASS (some node)
        .ok { prefixTokens := toks, suffixTokens := suffixToken sfx .CLASS node,
              action := .RESOLVE, prevEndIndex := pe }
      | none =>
        let (toks, pe) ← getPrefixTokens sourceLines prevEndIndex pfx .CLASS (some node)
        .ok { prefixTokens := toks, suffixTokens := [], action := .RESOLVE, prevEndIndex := pe }
    | none =>
      let (toks, pe) ← getPrefixTokens sourceLines prevEndIndex tokenText .CLASS (some node)
      .ok { prefixTokens := toks, suffixTokens := [], action := .RESOLVE, prevEndIndex := pe }
  else if node.data.kind = .attributes then
    let (toks, pe) ← getPrefixTokens sourceLines prevEndIndex tokenText .ATTRIBUTE (some node)
    .ok { prefixTokens := toks, suffixTokens := [], action := .TERMINATE, prevEndIndex := pe }
  else if node.data.kind = .functionGroups then
    .ok { prefixTokens := [], suffixTokens := [], action := .RESOLVE,
          prevEndIndex := prevEndIndex }
  else if node.data.kind = .functions then
    if excludeInnerRangeIfPossible && tokenPrefixText.isSome then
      let pfx := tokenPrefixText.getD tokenText
      match tokenSuffixText with
      | some sfx =>
        let (toks, pe) ← getPrefixTokens sourceLines prevEndIndex pfx .FUNCTION (some node)
        .ok { prefixTokens := toks, suffixTokens := suffixToken sfx .FUNCTION node,
              action := .TERMINATE, prevEndIndex := pe }
      | none =>
        let (toks, pe) ← getPrefixTokens sourceLines prevEndIndex pfx .FUNCTION (some node)
        .ok { prefixTokens := toks, suffixTokens := [], action := .TERMINATE,
              prevEndIndex := pe }
    else
      let (toks, pe) ← getPrefixTokens sourceLines prevEndIndex tokenText .FUNCTION (some node)
      .ok { prefixTokens := toks, suffixTokens := [], action := .TERMINATE, prevEndIndex := pe }
  else
    .error "Some scenarios not explored!"

/-- `ASTFaithfulTokenizer.convertFunctionsAndClassesAndArguments`. -/
def convertFunctionsAndClassesAndArguments (sourceLines : List Str)
    (excludeInnerRangeIfPossible : Bool) (node : SyntaxNode) (depth : Nat)
    (parentKind : Option NodeKind) (_rank : Nat) (tokenText : TextRange)
    (tokenPrefixText tokenSuffixText : Option TextRange) (prevEndIndex : Index) :
    Except String ConvertResult := do
  let _ := excludeInnerRangeIfPossible
  if depth = 0 then
    .ok { prefixTokens := [], suffixTokens := [], action := .RESOLVE,
          prevEndIndex := prevEndIndex }
  else if node.data.kind = .references then
    let (toks, pe) ← getPrefixTokens sourceLines prevEndIndex tokenText .REFERENCES (some node)
    .ok { prefixTokens := toks, suffixTokens := [], action := .TERMINATE, prevEndIndex := pe }
  else if node.data.kind = .comments then
    if parentKind = some .functions then
      .ok { prefixTokens := [], suffixTokens := [], action := .TERMINATE,
            prevEndIndex := prevEndIndex }
    else
      let (toks, pe) ← getPrefixTokens sourceLines prevEndIndex tokenText .COMMENTS (some node)
      .ok { prefixTokens := toks, suffixTokens := [], action := .TERMINATE, prevEndIndex := pe }
  else if node.data.kind = .classes then
    match tokenPrefixText with
    | some pfx =>
      match tokenSuffixText with
      | some sfx =>
        let (toks, pe) ← getPrefixTokens sourceLines prevEndIndex pfx .CLASS (some node)
        .ok { prefixTokens := toks, suffixTokens := suffixToken sfx .CLASS node,
              action := .RESOLVE, prevEndIndex := pe }
      | none =>
        let (toks, pe) ← getPrefixTokens sourceLines prevEndIndex pfx .CLASS (some node)
        .ok { prefixTokens := toks, suffixTokens := [], action := .RESOLVE, prevEndIndex := pe }
    | none =>
      let (toks, pe) ← getPrefixTokens sourceLines prevEndIndex tokenText .CLASS (some node)
      .ok { prefixTokens := toks, suffixTokens := [], action := .RESOLVE, prevEndIndex := pe }
  else if node.data.kind = .attributes then
    let (toks, pe) ← getPrefixTokens sourceLines prevEndIndex tokenText .ATTRIBUTE (some node)
    .ok { prefixTokens := toks, suffixTokens := [], action := .TERMINATE, prevEndIndex := pe }
  else if node.data.kind = .functionGroups then
    .ok { prefixTokens := [], suffixTokens := [], action := .RESOLVE,
          prevEndIndex := prevEndIndex }
  else if node.data.kind = .functions then
    .ok { prefixTokens := [], suffixTokens := [], action := .RESOLVE,
          prevEndIndex := prevEndIndex }
  else if node.data.kind = .functionDeclaration then
    match tokenPrefixText with
    | some pfx =>
      match tokenSuffixText with
      | some sfx =>
        let (toks, pe) ← getPrefixTokens sourceLines prevEndIndex pfx
          .FUNCTION_DEFINITION (some node)
        .ok { prefixTokens := toks, suffixTokens := suffixToken sfx .FUNCTION_DEFINITION node,
              action := .RESOLVE, prevEndIndex := pe }
      | none =>
        let (toks, pe) ← getPrefixTokens sourceLines prevEndIndex pfx
          .FUNCTION_DEFINITION (some node)
        .ok { prefixTokens := toks, suffixTokens := [], action := .RESOLVE, prevEndIndex := pe }
    | none =>
      let (toks, pe) ← getPrefixTokens sourceLines prevEndIndex tokenText
        .FUNCTION_DEFINITION (some node)
      .ok { prefixTokens := toks, suffixTokens := [], action := .TERMINATE, prevEndIndex := pe }
  else if node.data.kind = .argument then
    let (toks, pe) ← getPrefixTokens sourceLines prevEndIndex tokenText .ARGUMENT (some node)
    .ok { prefixTokens := toks, suffixTokens := [], action := .TERMINATE, prevEndIndex := pe }
  else
    .error "Some scenarios not explored!"

/-- `ASTFaithfulTokenizer.convertEverything`. -/
def convertEverything (sourceLines : List Str) (excludeInnerRangeIfPossible : Bool)
    (node : SyntaxNode) (depth : Nat) (parentKind : Option NodeKind) (rank : Nat)
    (tokenText : TextRange) (tokenPrefixText tokenSuffixText : Option TextRange)
    (prevEndIndex : Index) : Except String ConvertResult := do
  let _ := excludeInnerRangeIfPossible
  if depth = 0 then
    .ok { prefixTokens := [], suffixTokens := [], action := .RESOLVE,
          prevEndIndex := prevEndIndex }
  else if node.data.kind = .references then
    let (toks, pe) ← getPrefixTokens sourceLines prevEndIndex tokenText .REFERENCES (some node)
    .ok { prefixTokens := toks, suffixTokens := [], action := .TERMINATE, prevEndIndex := pe }
  else if node.data.kind = .comments then
    if parentKind ≠ some .functionGroups || rank = 0 then
      let (toks, pe) ← getPrefixTokens sourceLines prevEndIndex tokenText .COMMENTS (some node)
      .ok { prefixTokens := toks, suffixTokens := [], action := .TERMINATE, prevEndIndex := pe }
    else
      .ok { prefixTokens := [], suffixTokens := [], action := .TERMINATE,
            prevEndIndex := prevEndIndex }
  else if node.data.kind = .classes then
    match tokenPrefixText with
    | some pfx =>
      match tokenSuffixText with
      | some sfx =>
        let (toks, pe) ← getPrefixTokens sourceLines prevEndIndex pfx .CLASS (some node)
        .ok { prefixTokens := toks, suffixTokens := suffixToken sfx .CLASS node,
              action := .RESOLVE, prevEndIndex := pe }
      | none =>
        let (toks, pe) ← getPrefixTokens sourceLines prevEndIndex pfx .CLASS (some node)
        .ok { prefixTokens := toks, suffixTokens := [], action := .RESOLVE, prevEndIndex := pe }
    | none =>
      let (toks, pe) ← getPrefixTokens sourceLines prevEndIndex tokenText .CLASS (some node)
      .ok { prefixTokens := toks, suffixTokens := [], action := .RESOLVE, prevEndIndex := pe }
  else if node.data.kind = .attributes then
    let (toks, pe) ← getPrefixTokens sourceLines prevEndIndex tokenText .ATTRIBUTE (some node)
    .ok { prefixTokens := toks, suffixTokens := [], action := .TERMINATE, prevEndIndex := pe }
  else if node.data.kind = .functionGroups then
    .ok { prefixTokens := [], suffixTokens := [], action := .RESOLVE,
          prevEndIndex := prevEndIndex }
  else if node.data.kind = .functions then
    .ok { prefixTokens := [], suffixTokens := [], action := .RESOLVE,
          prevEndIndex := prevEndIndex }
  else if node.data.kind = .functionDeclaration then
    match tokenPrefixText with
    | some pfx =>
      match tokenSuffixText with
      | some sfx =>
        let (toks, pe) ← getPrefixTokens sourceLines prevEndIndex pfx
          .FUNCTION_DEFINITION (some node)
        .ok { prefixTokens := toks, suffixTokens := suffixToken sfx .FUNCTION_DEFINITION node,
              action := .RESOLVE, prevEndIndex := pe }
      | none =>
        let (toks, pe) ← getPrefixTokens sourceLines prevEndIndex pfx
          .FUNCTION_DEFINITION (some node)
        .ok { prefixTokens := toks, suffixTokens := [], action := .RESOLVE, prevEndIndex := pe }
    | none =>
      let (toks, pe) ← getPrefixTokens sourceLines prevEndIndex tokenText
        .FUNCTION_DEFINITION (some node)
      .ok { prefixTokens := toks, suffixTokens := [], action := .TERMINATE, prevEndIndex := pe }
  else if node.data.kind = .argument then
    let (toks, pe) ← getPrefixTokens sourceLines prevEndIndex tokenText .ARGUMENT (some node)
    .ok { prefixTokens := toks, suffixTokens := [], action := .TERMINATE, prevEndIndex := pe }
  else
    .error "Some scenarios not explored!"

/-- `ASTFaithfulTokenizer.convertIntoTokens`: mode dispatch.  `NONE` emits the
whole text and moves `prevEndIndex` to the global end. -/
def faithfulConvertIntoTokens (sourceLines : List Str) (mode : TokenizationMode)
    (excludeInnerRangeIfPossible : Bool) (globalEndIndex : Index) (node : SyntaxNode)
    (depth : Nat) (parentKind : Option NodeKind) (rank : Nat) (tokenText : TextRange)
    (tokenPrefixText tokenSuffixText : Option TextRange) (prevEndIndex : Index) :
    Except String ConvertResult :=
  match mode with
  | .NONE =>
    let tok : TreeToken :=
      { stringContents := tokenText.text, tokenType := .TOP_LEVEL,
        range := some tokenText.range, originalNode := some node }
    .ok { prefixTokens := [tok], suffixTokens := [], action := .TERMINATE,
          prevEndIndex := globalEndIndex }
  | .TOP_LEVEL_ONLY =>
    convertTopLevel sourceLines excludeInnerRangeIfPossible node depth parentKind rank
      tokenText tokenPrefixText tokenSuffixText prevEndIndex
  | .FUNCTIONS_AND_CLASSES =>
    convertFunctionsAndClasses sourceLines excludeInnerRangeIfPossible node depth parentKind
      rank tokenText tokenPrefixText tokenSuffixText prevEndIndex
  | .FUNCTIONS_AND_CLASSES_AND_ARGUMENTS =>
    convertFunctionsAndClassesAndArguments sourceLines excludeInnerRangeIfPossible node depth
      parentKind rank tokenText tokenPrefixText tokenSuffixText prevEndIndex
  | .EVERYTHING =>
    convertEverything sourceLines excludeInnerRangeIfPossible node depth parentKind rank
      tokenText tokenPrefixText tokenSuffixText prevEndIndex

/-- `ASTGenericTokenizer.recursivelyTokenize` for the faithful tokenizer
(no subtree restriction and no node replacement), with the faithful
`handleFirstSuffixTokenIfNecessary` / `handleLastSuffixTokenWithRangeIfNecessary`
overrides inlined at the suffix-handling site.  Structure recursion is by
`fuel` over the tree depth. -/
def recursivelyTokenize (sourceLines : List Str) (mode : TokenizationMode)
    (excludeInnerRangeIfPossible : Bool) (globalEndIndex : Index) :
    Nat → SyntaxNode → Nat → Option NodeKind → Nat → Index →
    Except String (List TreeToken × Index)
  | 0, _, _, _, _, _ => .error "recursion fuel exhausted"
  | fuel + 1, node, depth, parentKind, rank, prevEndIndex => do
    let (tokenText, tokenPrefixText, tokenSuffixText) ← getTexts sourceLines node
    let res ← faithfulConvertIntoTokens sourceLines mode excludeInnerRangeIfPossible
      globalEndIndex node depth parentKind rank tokenText tokenPrefixText tokenSuffixText
      prevEndIndex
    let mut0 : List TreeToken × Index := (res.prefixTokens, res.prevEndIndex)
    let (toks, prevEnd) ←
      if res.action = .RESOLVE then
        (node.children.zip (List.range node.children.length)).foldlM
          (fun (st : List TreeToken × Index) child => do
            let (acc, pe) := st
            let (sub, pe') ← recursivelyTokenize sourceLines mode
              excludeInnerRangeIfPossible globalEndIndex fuel child.1 (depth + 1)
              (some node.data.kind) child.2 pe
            pure (acc ++ sub, pe'))
          mut0
      else pure mut0
    match res.suffixTokens with
    | [] => .ok (toks, prevEnd)
    | firstSuffix :: _ => do
      -- handleFirstSuffixTokenIfNecessary: gap between children and suffix
      let (gapToks, prevEnd) ←
        (match firstSuffix.range with
        | some range =>
          let comparison := compare prevEnd (rangeToStartIndex range)
          if comparison = 1 then
            Except.error "Invalid comparison! Expected previous end to be less than or equal to the current range."
          else if comparison = -1 then do
            let fillRange := indexesToRange prevEnd (rangeToStartIndex range)
            let fillText ← getSourceTextFromRange sourceLines fillRange
            pure ([({ stringContents := fillText, range := some fillRange,
                      tokenType := .OTHERS } : TreeToken)], prevEnd)
          else pure ([], prevEnd)
        | none => pure ([], prevEnd))
      let lastWithRange := (res.suffixTokens.filter (fun t => t.range.isSome)).getLast?
      let prevEnd := match lastWithRange with
        | some t => rangeToEndIndex (t.range.getD tokenText.range)
        | none => prevEnd
      .ok (toks ++ gapToks ++ res.suffixTokens, prevEnd)

/-- `ASTFaithfulTokenizer.tokenize` (via `ASTGenericTokenizer.tokenize`):
`pretokenize` initializes `prevEndIndex` to the global start, the tree is
walked, and `posttokenize` flushes the remaining suffix (or throws when
`prevEndIndex` passed the global end). -/
def flattenFaithfully (tree : AbstractSyntaxTree) (mode : TokenizationMode)
    (excludeInnerRangeIfPossible : Bool) : Except String (List TreeToken) := do
  let maxRange := getMaxRange tree.sourceLines
  let globalStart := rangeToStartIndex maxRange
  let globalEnd := rangeToEndIndex maxRange
  let (toks, prevEnd) ← recursivelyTokenize tree.sourceLines mode
    excludeInnerRangeIfPossible globalEnd 32 tree.root 0 none 0 globalStart
  let diff := compare prevEnd globalEnd
  if diff = -1 then do
    let fillRange := indexesToRange prevEnd globalEnd
    let fillText ← getSourceTextFromRange tree.sourceLines fillRange
    .ok (toks ++ [{ stringContents := fillText, tokenType := .OTHERS,
                    range := some fillRange }])
  else if diff = 1 then
    .error "Unexpected end index larger than global end!"
  else .ok toks

/-- `ASTGenericTokenizer.tokensToString`. -/
def tokensToString (tokens : List TreeToken) : Str :=
  (tokens.map TreeToken.stringContents).flatten

/-! ## Concrete inputs

The literal sources of the specification's scenarios (S1–S4), split into
physical lines as `AbstractParser.parse` splits them. -/

/-- Scenario S1: the Python class with an attribute and a doc-commented method. -/
def pyS1Lines : List Str :=
  ["class A:".data, "    x: int = 1".data, "    def m(self, n: int) -> bool:".data,
   "        \"\"\"doc\"\"\"".data, "        return n > 0".data]

/-- A minimal Python function with a leading doc comment in its body. -/
def pyDocLines : List Str :=
  ["def f():".data, "    \"\"\"doc\"\"\"".data, "    x = 1".data]

/-- Scenario S2: the TypeScript-like import plus one-line class. -/
def tsS2Lines : List Str :=
  ["import \x7bX\x7d from \"./mod\";".data,
   "class B \x7b y: string = \"hi\"; fn(a: number): void \x7b return; \x7d \x7d".data]

/-- Scenario S3 exactly as written: the function body `{}` is empty. -/
def tsCommentEmptyLines : List Str :=
  ["/** hello */".data, "function f() \x7b\x7d".data]

/-- Scenario S3 with a non-empty function body. -/
def tsCommentBodyLines : List Str :=
  ["/** hello */".data, "function f() \x7b return; \x7d".data]

/-- Scenario S4 exactly as written: `x = (1 +\n 2)` (one-space continuation). -/
def pyContLiteralLines : List Str :=
  ["x = (1 +".data, " 2)".data]

/-- Scenario S4 with a two-space continuation line. -/
def pyContIndentLines : List Str :=
  ["x = (1 +".data, "  2)".data]

/-- The source string a line list stands for: the lines joined by `'\n'`
(no terminator after the last line). -/
def joinLines (lines : List Str) : Str :=
  (List.intersperse ['\n'] lines).flatten

/-! ## Decidable AST checks

Executable predicates over parsed trees, used to state the claims about
sibling ordering, `FunctionGroups` shape and tree-token emission. -/

/-- The spec's sibling-ordering relation: `A.range.end ≤ B.range.start`. -/
def pairInOrder (a b : SyntaxNode) : Bool :=
  compare (rangeToEndIndex a.getRange) (rangeToStartIndex b.getRange) ≤ 0

/-- Every consecutive pair of the list is in order. -/
def siblingPairsOrdered : List SyntaxNode → Bool
  | a :: b :: rest => pairInOrder a b && siblingPairsOrdered (b :: rest)
  | _ => true

/-- The one sibling pair `parseNonTerminal` appends out of order: a doc
`Comments` node lifted behind its `Functions` sibling inside a
`FunctionGroups`, the comment's range lying inside the function's. -/
def docLiftPairExempt (parent a b : SyntaxNode) : Bool :=
  parent.data.kind = NodeKind.functionGroups &&
  a.data.kind = NodeKind.functions && b.data.kind = NodeKind.comments &&
  rangeContains a.getRange b.getRange

/-- Consecutive pairs are in order, up to the lifted-doc-comment exemption. -/
def siblingPairsOrderedExcept (parent : SyntaxNode) : List SyntaxNode → Bool
  | a :: b :: rest =>
    (pairInOrder a b || docLiftPairExempt parent a b) &&
    siblingPairsOrderedExcept parent (b :: rest)
  | _ => true

/-- The claimed per-node sibling ordering. -/
def orderedSiblings (n : SyntaxNode) : Bool :=
  siblingPairsOrdered n.children

/-- The per-node sibling ordering up to the lifted doc comment. -/
def orderedSiblingsUpToDocLift (n : SyntaxNode) : Bool :=
  siblingPairsOrderedExcept n n.children

/-- Fuelled conjunction of a node check over a whole tree. -/
def treeAll (p : SyntaxNode → Bool) : Nat → SyntaxNode → Bool
  | 0, _ => false
  | fuel + 1, n => p n && n.children.all (treeAll p fuel)

/-- Fuelled disjunction of a node check over a whole tree. -/
def treeAny (p : SyntaxNode → Bool) : Nat → SyntaxNode → Bool
  | 0, _ => false
  | fuel + 1, n => p n || n.children.any (treeAny p fuel)

/-- The claimed `FunctionGroups` shape: one `Functions` child, or a `Comments`
(rank 0) followed by a `Functions` (rank 1). -/
def fgShapeClaimed (n : SyntaxNode) : Bool :=
  if n.data.kind = NodeKind.functionGroups then
    match n.children with
    | [f] => f.data.kind = NodeKind.functions
    | [c, f] => c.data.kind = NodeKind.comments && f.data.kind = NodeKind.functions
    | _ => false
  else true

/-- The `FunctionGroups` shape the code produces: additionally a `Functions`
(rank 0) followed by a lifted doc `Comments` (rank 1) whose range lies inside
the function's range (Python doc-comment lifting). -/
def fgShapeObserved (n : SyntaxNode) : Bool :=
  if n.data.kind = NodeKind.functionGroups then
    match n.children with
    | [f] => f.data.kind = NodeKind.functions
    | [a, b] =>
      (a.data.kind = NodeKind.comments && b.data.kind = NodeKind.functions) ||
      (a.data.kind = NodeKind.functions && b.data.kind = NodeKind.comments &&
       rangeContains a.getRange b.getRange)
    | _ => false
  else true

/-- Runs a tree check on the root of a successful parse (`true` on a failed
parse, so a `false` result shows both success and the check's failure). -/
def checkParsedTree (p : Except ParseErr AbstractSyntaxTree)
    (chk : SyntaxNode → Bool) : Bool :=
  match p with
  | .ok t => chk t.root
  | .error _ => true

/-- A successful parse whose root has no children. -/
def parsedRootChildless (p : Except ParseErr AbstractSyntaxTree) : Bool :=
  match p with
  | .ok t => t.root.children.isEmpty
  | .error _ => false

/-- Whether the faithful flattening of a successful parse emits a `COMMENTS`
tree-token (`false` when the parse or the flattening fails). -/
def flatHasCommentTok (p : Except ParseErr AbstractSyntaxTree)
    (mode : TokenizationMode) (exc : Bool) : Bool :=
  match p with
  | .error _ => false
  | .ok t =>
    match flattenFaithfully t mode exc with
    | .error _ => false
    | .ok toks => toks.any (fun tk => tk.tokenType = TreeTokenType.COMMENTS)

/-- The concatenated text of the faithful flattening of a successful parse. -/
def flatConcat (p : Except ParseErr AbstractSyntaxTree)
    (mode : TokenizationMode) (exc : Bool) : Option Str :=
  match p with
  | .error _ => none
  | .ok t =>
    match flattenFaithfully t mode exc with
    | .error _ => none
    | .ok toks => some (tokensToString toks)

/-- The spec's `BracesMatcher` validity condition, modelled from its words:
all opening and closing characters, taken together, are pairwise distinct. -/
def specBracesAllDistinct (braces : List Braces) : Bool :=
  let cs := (braces.map (fun b => b.opening ++ b.closing)).flatten
  cs.dedup.length = cs.length

/-- A pattern set the spec's matcher validation must reject: an empty pattern,
two equal patterns, or a pattern that is a suffix of another. -/
def matcherPatternsBad {α : Type} (values : List (List α)) : Prop :=
  (∃ v ∈ values, v = []) ∨
  (∃ i j, i < values.length ∧ j < values.length ∧ i ≠ j ∧
    values.getD i [] = values.getD j []) ∨
  (∃ i j, i < values.length ∧ j < values.length ∧ i ≠ j ∧
    values.getD i [] <:+ values.getD j [])

/-- Suffix-freedom of two keyed patterns, in both directions. -/
def SuffixFreePair {α : Type} (p q : String × List α) : Prop :=
  ¬ p.2 <:+ q.2 ∧ ¬ q.2 <:+ p.2

/-- The per-key invariant of a running matcher that has been fed the symbols
`h` since its last reset: every stored progress `p` is strictly between `0`
and the pattern length, the first `p` pattern symbols are a suffix of the fed
history, and the progresses are strictly decreasing (hence distinct). -/
def InvKey {α : Type} (h : List α) (kp : String × List α) (progs : List Nat) : Prop :=
  (∀ p ∈ progs, 0 < p ∧ p < kp.2.length ∧ kp.2.take p <:+ h) ∧
  progs.Pairwise (· > ·)

/-- The lexer tokens chain from flat offset `a` to flat offset `b`: each
token's range starts where the previous one stopped, its width equals its
text's length, so the ranges are contiguous and non-overlapping. -/
def tokenChain : List Token → Nat → Nat → Prop
  | [], a, b => a = b
  | t :: ts, a, b =>
    t.characterRange.start = a ∧
    t.characterRange.stop = a + t.stringContents.length ∧
    tokenChain ts t.characterRange.stop b

/-- The frame invariant of `AbstractTokenizer` after consuming `consumed`:
emitted texts plus the pending buffer reproduce the consumed characters,
`charIdx` counts them, the buffer spans `[tokStartIdx, charIdx)`, and the
emitted tokens chain from offset `0` to `tokStartIdx`. -/
def TokInv {σ : Type} (st : TokenizerState σ) (consumed : Str) : Prop :=
  (st.tokenString.map Token.stringContents).flatten ++ st.stringBuffer = consumed ∧
  st.charIdx = consumed.length ∧
  st.tokStartIdx + st.stringBuffer.length = st.charIdx ∧
  tokenChain st.tokenString 0 st.tokStartIdx

/-- The Python lexing of `pyDocLines`, as a concrete token list. -/
def pyDocFeedToks : List Token :=
  (tokenizeChars pythonLexer pyLexInit (parseFeed pyDocLines)).toOption.getD []

/-! ## Matcher lemmas

The suffix bridge between the index-loop `isSuffix` of the source and
`List.IsSuffix`, the rejection argument behind the construction-time
validations, and the single-completion invariant behind `next`. -/

lemma exprIsSuffix_of_suffix {α : Type} [DecidableEq α] {l₁ l₂ : List α}
    (h : l₂ <:+ l₁) : exprIsSuffix l₁ l₂ = true := by
  obtain ⟨t, rfl⟩ := h
  unfold exprIsSuffix
  rw [if_neg (by simp)]
  rw [List.all_eq_true]
  intro i hi
  rw [List.mem_range] at hi
  simp only [decide_eq_true_eq]
  have hlen : (t ++ l₂).length = t.length + l₂.length := by simp
  rw [hlen]
  rw [List.getElem?_append_right (by omega)]
  congr 1
  omega

lemma hasSuffixAmbiguity_of {α : Type} [DecidableEq α] {values : List (List α)} {i j : Nat}
    (hi : i < values.length) (hj : j < values.length) (hij : i ≠ j)
    (hs : exprIsSuffix (values.getD i []) (values.getD j []) = true) :
    hasSuffixAmbiguity values = true := by
  unfold hasSuffixAmbiguity
  rw [List.any_eq_true]
  refine ⟨i, List.mem_range.mpr hi, ?_⟩
  rw [List.any_eq_true]
  refine ⟨j, List.mem_range.mpr hj, ?_⟩
  rw [Bool.and_eq_true]
  exact ⟨decide_eq_true hij, hs⟩

lemma bad_cases {α : Type} [DecidableEq α] {values : List (List α)}
    (hbad : matcherPatternsBad values) :
    values.any (fun v => v.length = 0) = true ∨ hasSuffixAmbiguity values = true := by
  rcases hbad with ⟨v, hv, rfl⟩ | ⟨i, j, hi, hj, hij, heq⟩ | ⟨i, j, hi, hj, hij, hsuf⟩
  · left; rw [List.any_eq_true]; exact ⟨[], hv, by simp⟩
  · right
    refine hasSuffixAmbiguity_of hi hj hij ?_
    rw [heq]
    exact exprIsSuffix_of_suffix List.suffix_rfl
  · right
    exact hasSuffixAmbiguity_of hj hi (Ne.symm hij) (exprIsSuffix_of_suffix hsuf)

lemma validate_reject (npats : List (String × List Nat))
    (h : matcherPatternsBad (npats.map (·.2))) :
    (validateExpressions npats).isOk = false := by
  have hc := bad_cases h
  unfold validateExpressions
  dsimp only
  split_ifs with h0 h1 h2 h3 <;> first | rfl | (exfalso; rcases hc with hc | hc <;> simp_all)

lemma str_validate_reject (spats : List (String × Str))
    (h : matcherPatternsBad (spats.map (·.2))) :
    (strValidateExpressions spats).isOk = false := by
  have hc := bad_cases h
  unfold strValidateExpressions
  dsimp only
  split_ifs with h0 h1 h2 <;> first | rfl | (exfalso; rcases hc with hc | hc <;> simp_all)

lemma suffix_append_one {α : Type} {l h : List α} (a : α) (hs : l <:+ h) :
    l ++ [a] <:+ h ++ [a] := by
  obtain ⟨t, rfl⟩ := hs
  exact ⟨t, by rw [List.append_assoc]⟩

lemma advanced_mem_spec {α : Type} [DecidableEq α] {P : List α} {progs : List Nat}
    {h : List α} {a : α}
    (hb : ∀ p ∈ progs, 0 < p ∧ p < P.length ∧ P.take p <:+ h) {p' : Nat}
    (hmem : p' ∈ (progs ++ [0]).filterMap
      (fun p => if P[p]? = some a then some (p + 1) else none)) :
    0 < p' ∧ p' ≤ P.length ∧ P.take p' <:+ h ++ [a] := by
  rw [List.mem_filterMap] at hmem
  obtain ⟨p, hpL, hfp⟩ := hmem
  by_cases hPp : P[p]? = some a
  · rw [if_pos hPp] at hfp
    obtain rfl : p + 1 = p' := Option.some.inj hfp
    have hplt : p < P.length := (List.getElem?_eq_some_iff.mp hPp).1
    have htake : P.take p <:+ h := by
      rcases List.mem_append.mp hpL with hpp | hp0
      · exact (hb p hpp).2.2
      · have hz : p = 0 := by simpa using hp0
        subst hz
        simp
    refine ⟨Nat.succ_pos p, by omega, ?_⟩
    rw [List.take_succ, hPp]
    exact suffix_append_one a htake
  · rw [if_neg hPp] at hfp
    exact absurd hfp (by simp)

lemma stepProgresses_invariant {α : Type} [DecidableEq α] (P : List α) (progs : List Nat)
    (h : List α) (a : α)
    (hb : ∀ p ∈ progs, 0 < p ∧ p < P.length ∧ P.take p <:+ h)
    (hp : progs.Pairwise (· > ·)) :
    (∀ p' ∈ (stepProgresses P progs a).1, 0 < p' ∧ p' < P.length ∧ P.take p' <:+ h ++ [a]) ∧
    (stepProgresses P progs a).1.Pairwise (· > ·) ∧
    (stepProgresses P progs a).2 ≤ 1 ∧
    (1 ≤ (stepProgresses P progs a).2 → P <:+ h ++ [a]) := by
  have hL : (progs ++ [0]).Pairwise (· > ·) := by
    rw [List.pairwise_append]
    refine ⟨hp, List.pairwise_singleton _ _, fun x hx y hy => ?_⟩
    have hy0 : y = 0 := by simpa using hy
    subst hy0
    exact (hb x hx).1
  have hadvPW : ((progs ++ [0]).filterMap
      (fun p => if P[p]? = some a then some (p + 1) else none)).Pairwise (· > ·) := by
    refine List.Pairwise.filterMap _ ?_ hL
    intro x y hxy b hbx b' hby
    by_cases hPx : P[x]? = some a
    · rw [if_pos hPx] at hbx
      by_cases hPy : P[y]? = some a
      · rw [if_pos hPy] at hby
        have h1 : b = x + 1 := by simpa using hbx.symm
        have h2 : b' = y + 1 := by simpa using hby.symm
        omega
      · rw [if_neg hPy] at hby
        exact absurd hby (by simp)
    · rw [if_neg hPx] at hbx
      exact absurd hbx (by simp)
  unfold stepProgresses
  dsimp only
  refine ⟨?_, ?_, ?_, ?_⟩
  · intro p' hp'
    obtain ⟨hmemFM, hneq⟩ := List.mem_filter.mp hp'
    have hspec := advanced_mem_spec hb hmemFM
    have hne : p' ≠ P.length := by simpa using hneq
    exact ⟨hspec.1, by omega, hspec.2.2⟩
  · exact hadvPW.filter _
  · have hPW := hadvPW.filter (fun p => p = P.length)
    have hall : ∀ x ∈ ((progs ++ [0]).filterMap
        (fun p => if P[p]? = some a then some (p + 1) else none)).filter
        (fun p => p = P.length), x = P.length :=
      fun x hx => by simpa using (List.mem_filter.mp hx).2
    revert hPW hall
    generalize ((progs ++ [0]).filterMap
        (fun p => if P[p]? = some a then some (p + 1) else none)).filter
        (fun p => p = P.length) = lf
    intro hPW hall
    cases lf with
    | nil => simp
    | cons x t =>
      cases t with
      | nil => simp
      | cons y rest =>
        exfalso
        have hx := hall x (by simp)
        have hy := hall y (by simp)
        have hxy : x > y := (List.pairwise_cons.mp hPW).1 y (by simp)
        omega
  · intro hge
    have hne : ((progs ++ [0]).filterMap
        (fun p => if P[p]? = some a then some (p + 1) else none)).filter
        (fun p => p = P.length) ≠ [] := by
      intro he
      rw [he] at hge
      simp at hge
    obtain ⟨x, hx⟩ := List.exists_mem_of_ne_nil _ hne
    have hxFM := (List.mem_filter.mp hx).1
    have hxEq : x = P.length := by simpa using (List.mem_filter.mp hx).2
    have hspec := advanced_mem_spec hb hxFM
    have hsuf := hspec.2.2
    rw [hxEq, List.take_length] at hsuf
    exact hsuf

lemma matcher_step {α : Type} [DecidableEq α] {pats : List (String × List α)}
    {progsList : List (List Nat)} {h : List α} (a : α)
    (hinv : List.Forall₂ (InvKey h) pats progsList) :
    pats.Pairwise SuffixFreePair →
    ((((pats.zip progsList).map fun kp => (kp.1.1, stepProgresses kp.1.2 kp.2 a)).map
        fun r => r.2.2).sum ≤ 1) ∧
    (1 ≤ (((pats.zip progsList).map fun kp => (kp.1.1, stepProgresses kp.1.2 kp.2 a)).map
        fun r => r.2.2).sum → ∃ kp ∈ pats, kp.2 <:+ h ++ [a]) ∧
    List.Forall₂ (InvKey (h ++ [a])) pats
      (((pats.zip progsList).map fun kp => (kp.1.1, stepProgresses kp.1.2 kp.2 a)).map
        fun r => r.2.1) := by
  induction hinv with
  | nil =>
    intro _
    exact ⟨by simp, by simp, List.Forall₂.nil⟩
  | @cons kp progs pats' rest hkp htail ih =>
    intro hSF
    obtain ⟨hhead, htl⟩ := List.pairwise_cons.mp hSF
    have ihc := ih htl
    have hstep := stepProgresses_invariant kp.2 progs h a hkp.1 hkp.2
    simp only [List.zip_cons_cons, List.map_cons, List.sum_cons]
    refine ⟨?_, ?_, ?_⟩
    · rcases Nat.eq_zero_or_pos (stepProgresses kp.2 progs a).2 with hz | hpos
      · rw [hz, Nat.zero_add]
        exact ihc.1
      · have hone := hstep.2.2.1
        have hsuf0 := hstep.2.2.2 hpos
        have hsum0 : (((pats'.zip rest).map fun kp =>
            (kp.1.1, stepProgresses kp.1.2 kp.2 a)).map fun r => r.2.2).sum = 0 := by
          by_contra hnz
          obtain ⟨q, hq, hqs⟩ := ihc.2.1 (Nat.pos_of_ne_zero hnz)
          rcases List.suffix_or_suffix_of_suffix hsuf0 hqs with hcase | hcase
          · exact (hhead q hq).1 hcase
          · exact (hhead q hq).2 hcase
        omega
    · intro hge
      rcases Nat.eq_zero_or_pos (stepProgresses kp.2 progs a).2 with hz | hpos
      · have hpos' : 1 ≤ (((pats'.zip rest).map fun kp =>
            (kp.1.1, stepProgresses kp.1.2 kp.2 a)).map fun r => r.2.2).sum := by omega
        obtain ⟨q, hq, hqs⟩ := ihc.2.1 hpos'
        exact ⟨q, List.mem_cons_of_mem _ hq, hqs⟩
      · exact ⟨kp, List.mem_cons_self _ _, hstep.2.2.2 hpos⟩
    · exact List.Forall₂.cons ⟨hstep.1, hstep.2.1⟩ ihc.2.2

lemma matcherNext_ok {α : Type} [DecidableEq α] {pats : List (String × List α)}
    {m : MatcherState α} {h : List α} (a : α)
    (hSF : pats.Pairwise SuffixFreePair) (hexp : m.expressions = pats)
    (hinv : List.Forall₂ (InvKey h) pats m.potentialMatches) :
    ∃ out, matcherNext m a = .ok out ∧ out.2.expressions = pats ∧
      List.Forall₂ (InvKey (h ++ [a])) pats out.2.potentialMatches := by
  have hstep := matcher_step a hinv hSF
  refine ⟨(((((pats.zip m.potentialMatches).map fun kp =>
      (kp.1.1, stepProgresses kp.1.2 kp.2 a)).find? fun r => r.2.2 = 1).map fun r => r.1),
      { m with potentialMatches := ((pats.zip m.potentialMatches).map fun kp =>
          (kp.1.1, stepProgresses kp.1.2 kp.2 a)).map fun r => r.2.1 }), ?_, hexp, hstep.2.2⟩
  unfold matcherNext
  rw [hexp]
  dsimp only
  rw [if_neg (by have := hstep.1; omega)]

lemma forall₂_invKey_empty {α : Type} (pats : List (String × List α)) (h : List α) :
    List.Forall₂ (InvKey h) pats (pats.map fun _ => []) := by
  induction pats with
  | nil => exact List.Forall₂.nil
  | cons kp rest ih => exact List.Forall₂.cons ⟨by simp, List.Pairwise.nil⟩ ih

lemma matcherRun_ok {α : Type} [DecidableEq α] {pats : List (String × List α)}
    (hSF : pats.Pairwise SuffixFreePair) :
    ∀ (ops : List (MatcherOp α)) (m : MatcherState α) (h : List α),
      m.expressions = pats →
      List.Forall₂ (InvKey h) pats m.potentialMatches →
      (matcherRun m ops).isOk = true := by
  intro ops
  induction ops with
  | nil => intro m h _ _; rfl
  | cons op rest ih =>
    intro m h hexp hinv
    cases op with
    | reset =>
      show (matcherRun (matcherReset m) rest).isOk = true
      refine ih (matcherReset m) h hexp ?_
      have hpm : (matcherReset m).potentialMatches = pats.map fun _ => [] := by
        show m.expressions.map (fun _ => []) = pats.map fun _ => []
        rw [hexp]
      rw [hpm]
      exact forall₂_invKey_empty pats h
    | next aSym =>
      obtain ⟨out, hmn, hexp', hinv'⟩ := matcherNext_ok aSym hSF hexp hinv
      obtain ⟨o, m'⟩ := out
      have hrun := ih m' (h ++ [aSym]) hexp' hinv'
      show (match matcherNext m aSym with
        | .error e => (.error e : Except String (List (Option String) × MatcherState α))
        | .ok (out, m') =>
          match matcherRun m' rest with
          | .error e => .error e
          | .ok (outs, mf) => .ok (out :: outs, mf)).isOk = true
      rw [hmn]
      dsimp only
      cases hrunE : matcherRun m' rest with
      | error e =>
        rw [hrunE] at hrun
        exact Bool.noConfusion hrun
      | ok v =>
        rfl

lemma validateExpressions_ok_no_ambiguity (npats : List (String × List Nat))
    (h : (validateExpressions npats).isOk = true) :
    hasSuffixAmbiguity (npats.map (·.2)) = false := by
  unfold validateExpressions at h
  dsimp only at h
  split_ifs at h with h0 h1 h2 h3 <;>
    first
      | exact Bool.noConfusion h
      | simpa using h2

lemma strValidateExpressions_ok_no_ambiguity (spats : List (String × Str))
    (h : (strValidateExpressions spats).isOk = true) :
    hasSuffixAmbiguity (spats.map (·.2)) = false := by
  unfold strValidateExpressions at h
  dsimp only at h
  split_ifs at h with h0 h1 h2 <;>
    first
      | exact Bool.noConfusion h
      | simpa using h2

lemma pairwiseSF_of_no_ambiguity {α : Type} [DecidableEq α]
    (pats : List (String × List α))
    (hamb : hasSuffixAmbiguity (pats.map (·.2)) = false) :
    pats.Pairwise SuffixFreePair := by
  rw [List.pairwise_iff_getElem]
  intro i j hi hj hij
  have hmi : i < (pats.map (fun x => x.2)).length := by simpa using hi
  have hmj : j < (pats.map (fun x => x.2)).length := by simpa using hj
  have hgi : (pats.map (fun x => x.2)).getD i [] = pats[i].2 := by
    simp [List.getD_eq_getElem?_getD, List.getElem?_eq_getElem hi]
  have hgj : (pats.map (fun x => x.2)).getD j [] = pats[j].2 := by
    simp [List.getD_eq_getElem?_getD, List.getElem?_eq_getElem hj]
  refine ⟨fun hs => ?_, fun hs => ?_⟩
  · have hambT : hasSuffixAmbiguity (pats.map (fun x => x.2)) = true :=
      hasSuffixAmbiguity_of hmj hmi (by omega)
        (by rw [hgj, hgi]; exact exprIsSuffix_of_suffix hs)
    rw [hamb] at hambT
    cases hambT
  · have hambT : hasSuffixAmbiguity (pats.map (fun x => x.2)) = true :=
      hasSuffixAmbiguity_of hmi hmj (by omega)
        (by rw [hgi, hgj]; exact exprIsSuffix_of_suffix hs)
    rw [hamb] at hambT
    cases hambT

/-! ## Tokenizer lemmas

The frame invariant of `AbstractTokenizer.next`: each step extends the
consumed text by one character while keeping the emitted texts, the pending
buffer and the ranges consistent. -/

lemma tokenChain_append {l : List Token} {t : Token} {a b : Nat}
    (hc : tokenChain l a b) (hs : t.characterRange.start = b)
    (he : t.characterRange.stop = b + t.stringContents.length) :
    tokenChain (l ++ [t]) a t.characterRange.stop := by
  induction l generalizing a with
  | nil =>
    have hab : a = b := hc
    subst hab
    exact ⟨by rw [hs], by rw [he], rfl⟩
  | cons u us ih =>
    obtain ⟨h1, h2, h3⟩ := hc
    exact ⟨h1, h2, ih h3⟩

lemma tokenChain_append₂ {l : List Token} {t u : Token} {a b : Nat}
    (hc : tokenChain l a b) (hs : t.characterRange.start = b)
    (he : t.characterRange.stop = b + t.stringContents.length)
    (hs2 : u.characterRange.start = t.characterRange.stop)
    (he2 : u.characterRange.stop = t.characterRange.stop + u.stringContents.length) :
    tokenChain (l ++ [t, u]) a u.characterRange.stop := by
  have h1 := tokenChain_append hc hs he
  have h2 := tokenChain_append h1 hs2 he2
  rw [List.append_assoc] at h2
  exact h2

lemma tokenizerNext_inv {σ : Type} (A : LexAutomaton σ) (st : TokenizerState σ) (c : Char)
    (consumed : Str) (hinv : TokInv st consumed) (st' : TokenizerState σ)
    (hstep : tokenizerNext A st c = .ok st') :
    TokInv st' (consumed ++ [c]) := by
  obtain ⟨hconcat, hidx, hstart, hchain⟩ := hinv
  unfold tokenizerNext at hstep
  dsimp only at hstep
  cases hdir : (A.matchNext st.lex c (st.stringBuffer ++ [c]).length).2 with
  | none =>
    rw [hdir] at hstep
    dsimp only at hstep
    obtain rfl := (Except.ok.inj hstep).symm
    refine ⟨?_, ?_, ?_, ?_⟩ <;> dsimp only
    · rw [← List.append_assoc, hconcat]
    · simp [hidx]
    · simp only [List.length_append, List.length_cons, List.length_nil]
      omega
    · exact hchain
  | some matchResult =>
    rw [hdir] at hstep
    dsimp only at hstep
    by_cases hcont : matchResult.type = TokenType.CONTINUATION
    · rw [if_pos hcont] at hstep
      exact Except.noConfusion hstep
    rw [if_neg hcont] at hstep
    cases hsct : matchResult.singleChType with
    | none =>
      rw [hsct] at hstep
      dsimp only at hstep
      obtain rfl := (Except.ok.inj hstep).symm
      refine ⟨?_, ?_, ?_, ?_⟩ <;> dsimp only
      · simp only [List.map_append, List.map_cons, List.map_nil, List.flatten_append,
          List.flatten_cons, List.flatten_nil, List.append_nil]
        rw [← List.append_assoc, hconcat]
      · simp [hidx]
      · simp
      · refine tokenChain_append hchain rfl ?_
        dsimp only
        simp only [List.length_append, List.length_cons, List.length_nil]
        omega
    | some singleChType =>
      rw [hsct] at hstep
      dsimp only at hstep
      by_cases hk : matchResult.numSplitCharacters.getD 1 < 1
      · rw [if_pos hk] at hstep
        exact Except.noConfusion hstep
      rw [if_neg hk] at hstep
      by_cases hlen : st.charIdx + 1 - st.tokStartIdx < matchResult.numSplitCharacters.getD 1 + 1
      · rw [if_pos hlen] at hstep
        exact Except.noConfusion hstep
      rw [if_neg hlen] at hstep
      by_cases hsc : singleChType = TokenType.CONTINUATION
      · rw [if_pos hsc] at hstep
        obtain rfl := (Except.ok.inj hstep).symm
        refine ⟨?_, ?_, ?_, ?_⟩ <;> dsimp only
        · simp only [List.map_append, List.map_cons, List.map_nil, List.flatten_append,
            List.flatten_cons, List.flatten_nil, List.append_nil]
          rw [List.append_assoc, List.take_append_drop, ← List.append_assoc, hconcat]
        · simp [hidx]
        · simp only [List.length_drop, List.length_append, List.length_cons, List.length_nil]
          omega
        · refine tokenChain_append hchain rfl ?_
          dsimp only
          simp only [List.length_take, List.length_append, List.length_cons, List.length_nil]
          omega
      · rw [if_neg hsc] at hstep
        obtain rfl := (Except.ok.inj hstep).symm
        have hbl : st.tokStartIdx + st.stringBuffer.length = st.charIdx := hstart
        refine ⟨?_, ?_, ?_, ?_⟩ <;> dsimp only
        · simp only [List.map_append, List.map_cons, List.map_nil, List.flatten_append,
            List.flatten_cons, List.flatten_nil, List.append_nil]
          rw [List.take_append_drop, ← List.append_assoc, hconcat]
        · simp [hidx]
        · simp
        · refine tokenChain_append₂ hchain rfl ?_ rfl ?_
          · dsimp only
            simp only [List.length_take, List.length_append, List.length_cons, List.length_nil]
            omega
          · dsimp only
            simp only [List.length_drop, List.length_append, List.length_cons, List.length_nil]
            omega


lemma tokenizer_foldl_error {σ : Type} (A : LexAutomaton σ) (e : String) (cs : Str) :
    cs.foldl (fun (acc : Except String (TokenizerState σ)) c => match acc with
      | .error e => .error e
      | .ok st => tokenizerNext A st c) (Except.error e) = .error e := by
  induction cs with
  | nil => rfl
  | cons c rest ih => exact ih

lemma tokenizer_foldl_inv {σ : Type} (A : LexAutomaton σ) :
    ∀ (cs : Str) (st : TokenizerState σ) (consumed : Str), TokInv st consumed →
    ∀ st', cs.foldl (fun (acc : Except String (TokenizerState σ)) c => match acc with
        | .error e => .error e
        | .ok st => tokenizerNext A st c) (.ok st) = .ok st' →
      TokInv st' (consumed ++ cs) := by
  intro cs
  induction cs with
  | nil =>
    intro st consumed hinv st' hf
    obtain rfl := (Except.ok.inj hf).symm
    simpa using hinv
  | cons c rest ih =>
    intro st consumed hinv st' hf
    rw [List.foldl_cons] at hf
    dsimp only at hf
    cases hnext : tokenizerNext A st c with
    | error e =>
      rw [hnext] at hf
      rw [tokenizer_foldl_error] at hf
      exact Except.noConfusion hf
    | ok st1 =>
      rw [hnext] at hf
      have hinv1 := tokenizerNext_inv A st c consumed hinv st1 hnext
      have := ih st1 (consumed ++ [c]) hinv1 st' hf
      rwa [List.append_assoc] at this

lemma tokenizerConclude_inv {σ : Type} (A : LexAutomaton σ) (st : TokenizerState σ)
    (consumed : Str) (hinv : TokInv st consumed) :
    ((tokenizerConclude A st).tokenString.map Token.stringContents).flatten = consumed ∧
    tokenChain (tokenizerConclude A st).tokenString 0 consumed.length := by
  obtain ⟨hconcat, hidx, hstart, hchain⟩ := hinv
  unfold tokenizerConclude
  by_cases hlt : st.tokStartIdx < st.charIdx
  · rw [if_pos hlt]
    dsimp only
    constructor
    · simp only [List.map_append, List.map_cons, List.map_nil, List.flatten_append,
        List.flatten_cons, List.flatten_nil, List.append_nil]
      exact hconcat
    · rw [← hidx]
      refine tokenChain_append hchain rfl ?_
      dsimp only
      omega
  · rw [if_neg hlt]
    have hble : st.stringBuffer.length = 0 := by omega
    have hbuf : st.stringBuffer = [] := List.length_eq_zero.mp hble
    rw [hbuf] at hconcat
    constructor
    · simpa using hconcat
    · have hts : st.tokStartIdx = consumed.length := by
        rw [hbuf] at hstart
        simp at hstart
        omega
      rw [← hts]
      exact hchain

lemma parseFeed_eq_joinLines (codeLines : List Str) :
    codeLines ≠ [] → parseFeed codeLines = joinLines codeLines ++ ['\n'] := by
  induction codeLines with
  | nil => intro h; exact absurd rfl h
  | cons l rest ih =>
    intro _
    cases rest with
    | nil => simp [parseFeed, joinLines, List.intersperse]
    | cons m rest2 =>
      have ih2 : parseFeed (m :: rest2) = joinLines (m :: rest2) ++ ['\n'] := ih (by simp)
      show (l ++ ['\n']) ++ parseFeed (m :: rest2) = joinLines (l :: m :: rest2) ++ ['\n']
      rw [ih2]
      show (l ++ ['\n']) ++ (joinLines (m :: rest2) ++ ['\n']) =
        (l ++ (['\n'] ++ joinLines (m :: rest2))) ++ ['\n']
      simp [List.append_assoc]

lemma tokenizeChars_inv {σ : Type} (A : LexAutomaton σ) (s0 : σ) (cs : Str)
    (toks : List Token) (h : tokenizeChars A s0 cs = .ok toks) :
    (toks.map Token.stringContents).flatten = cs ∧ tokenChain toks 0 cs.length := by
  unfold tokenizeChars at h
  dsimp only at h
  split at h
  · exact Except.noConfusion h
  · rename_i st heq
    obtain rfl := (Except.ok.inj h).symm
    have hinit : TokInv (tokenizerInit s0) [] := ⟨rfl, rfl, rfl, rfl⟩
    have hinv := tokenizer_foldl_inv A cs (tokenizerInit s0) [] hinit st heq
    rw [List.nil_append] at hinv
    exact tokenizerConclude_inv A st cs hinv

/-! ## The claims -/

/-- Claim C1, counterexample: parsing the Python function `pyDocLines` and
flattening it at mode `NONE` does *not* reproduce the source bit-for-bit: the
concatenated `stringContents` carry one extra trailing `'\n'` (the flattener
covers the maximal range `[(0,0), (numLines,0))`, whose text is the
newline-terminated source). -/
theorem claim1_counterexample :
    flatConcat (parsePython pyDocLines) TokenizationMode.NONE false ≠
      some (joinLines pyDocLines) ∧
    flatConcat (parsePython pyDocLines) TokenizationMode.NONE false =
      some (joinLines pyDocLines ++ ['\n']) :=
  ⟨by decide, rfl⟩

/-- Claim C2, counterexample: the parse of `pyDocLines` succeeds, yet the
sibling-ordering `A.range.end ≤ B.range.start` fails on a pair of consecutive
siblings — the `FunctionGroups` children are `Functions` (range
`(0,0)–(2,9)`) followed by the lifted doc `Comments` (range `(1,4)–(1,13)`). -/
theorem claim2_counterexample :
    checkParsedTree (parsePython pyDocLines) (treeAll orderedSiblings 32) = false :=
  rfl

/-- Claim C2 (corrected): consecutive siblings satisfy
`A.range.end ≤ B.range.start` except for the doc-comment pair a Python parse
lifts into a `FunctionGroups` — there the `Comments` child follows the
`Functions` child whose range contains it.  Verified on the scenario parses of
both language front-ends. -/
theorem claim2_sibling_order :
    checkParsedTree (parsePython pyDocLines) (treeAll orderedSiblingsUpToDocLift 32) = true ∧
    checkParsedTree (parsePython pyS1Lines) (treeAll orderedSiblingsUpToDocLift 32) = true ∧
    checkParsedTree (parseTypeScript tsS2Lines) (treeAll orderedSiblings 32) = true ∧
    checkParsedTree (parseTypeScript tsCommentBodyLines) (treeAll orderedSiblings 32) = true :=
  ⟨rfl, rfl, rfl, rfl⟩

/-- Claim C3, counterexample: the parse of `pyDocLines` succeeds, yet its
`FunctionGroups` node has the two children in the order `Functions` then
`Comments` — not one of the two claimed shapes. -/
theorem claim3_counterexample :
    checkParsedTree (parsePython pyDocLines) (treeAll fgShapeClaimed 32) = false :=
  rfl

/-- Claim C3 (corrected): every `FunctionGroups` node has exactly one
`Functions` child, or a `Comments` (rank 0) followed by a `Functions` (rank 1)
— the TypeScript-like comment wrapping — or a `Functions` (rank 0) followed by
a `Comments` (rank 1) lying inside the function's range — the Python
doc-comment lifting, which appends the comment *after* the function.  Verified
on the scenario parses of both language front-ends. -/
theorem claim3_function_groups_shape :
    checkParsedTree (parsePython pyDocLines) (treeAll fgShapeObserved 32) = true ∧
    checkParsedTree (parsePython pyS1Lines) (treeAll fgShapeObserved 32) = true ∧
    checkParsedTree (parseTypeScript tsS2Lines) (treeAll fgShapeObserved 32) = true ∧
    checkParsedTree (parseTypeScript tsCommentBodyLines) (treeAll fgShapeObserved 32) = true :=
  ⟨rfl, rfl, rfl, rfl⟩

/-- Claim C4, counterexample: on the literal input (`/** hello */` over
`function f() {}`) the parse succeeds but produces *no* `FunctionGroups` node
at all — the empty body `{}` fails `funcBodyNonEmpty` (the TypeScript parser
requires `closingBrace - openingBrace > 1`), so the would-be function is
downgraded and only a top-level `Comments` node remains. -/
theorem claim4_counterexample :
    checkParsedTree (parseTypeScript tsCommentEmptyLines)
      (treeAny (fun n => n.data.kind = NodeKind.functionGroups) 32) = false :=
  rfl

/-- Claim C4 (corrected): with a non-empty body (`function f() { return; }`)
the parse yields the claimed `FunctionGroups` with a multi-line `Comments`
(contents `"* hello "`, not `"hello"`) at rank 0 followed by a `Functions` at
rank 1; but at mode `FUNCTIONS_AND_CLASSES` with `excludeInner = false` the
rank-0 `Comments` *is* emitted as a separate `COMMENTS` tree-token (the
emission condition `excludeInner || !(parent instanceof FunctionGroups) ||
rank === 0` holds at rank 0).  The comment skipped as covered by the function
span is the Python lifted doc comment, whose rank is 1. -/
theorem claim4_doc_comment_emission :
    checkParsedTree (parseTypeScript tsCommentBodyLines)
      (treeAny (fun n => n.data.kind = NodeKind.functionGroups &&
        (match n.children with
         | [c, f] => c.data.kind = NodeKind.comments && c.data.isMultiLine &&
             (c.data.commentContents = "* hello ".data : Bool) &&
             f.data.kind = NodeKind.functions
         | _ => false)) 32) = true ∧
    flatHasCommentTok (parseTypeScript tsCommentBodyLines)
      TokenizationMode.FUNCTIONS_AND_CLASSES false = true ∧
    flatHasCommentTok (parsePython pyDocLines)
      TokenizationMode.FUNCTIONS_AND_CLASSES false = false :=
  ⟨rfl, rfl, rfl⟩

/-- Claim C5: for every lexer automaton and every source (fed line by line
with a `'\n'` per physical line), a successful tokenization's concatenated
`stringContents` reproduce the fed stream exactly, and the `characterRange`s
chain contiguously and non-overlappingly from flat offset `0` to the stream
length; the fed stream is the `'\n'`-joined source with one trailing `'\n'`
appended. -/
theorem claim5_lex_round_trip {σ : Type} (A : LexAutomaton σ) (s0 : σ)
    (codeLines : List Str) (toks : List Token)
    (h : tokenizeChars A s0 (parseFeed codeLines) = .ok toks) :
    (toks.map Token.stringContents).flatten = parseFeed codeLines ∧
    tokenChain toks 0 (parseFeed codeLines).length ∧
    (codeLines ≠ [] → parseFeed codeLines = joinLines codeLines ++ ['\n']) := by
  have hres := tokenizeChars_inv A s0 (parseFeed codeLines) toks h
  exact ⟨hres.1, hres.2, parseFeed_eq_joinLines codeLines⟩

/-- Claim C5 at a concrete input: the Python lexing of `pyDocLines`. -/
theorem claim5_lex_round_trip_witness :
    (pyDocFeedToks.map Token.stringContents).flatten = parseFeed pyDocLines ∧
    tokenChain pyDocFeedToks 0 (parseFeed pyDocLines).length ∧
    (pyDocLines ≠ [] → parseFeed pyDocLines = joinLines pyDocLines ++ ['\n']) :=
  claim5_lex_round_trip pythonLexer pyLexInit pyDocLines pyDocFeedToks rfl

/-- Claim C6: both construction-time validations reject every pattern set
containing an empty pattern, two equal patterns, or a pattern that is a suffix
of another pattern (`matcherPatternsBad`). -/
theorem claim6_validation_rejects (npats : List (String × List Nat))
    (spats : List (String × Str))
    (h1 : matcherPatternsBad (npats.map (·.2)))
    (h2 : matcherPatternsBad (spats.map (·.2))) :
    (validateExpressions npats).isOk = false ∧
    (strValidateExpressions spats).isOk = false :=
  ⟨validate_reject npats h1, str_validate_reject spats h2⟩

/-- Claim C6 at concrete inputs, including the spec's scenario S5 pattern set
`{a: "bar", b: "foobar"}` ("bar" is a suffix of "foobar"). -/
theorem claim6_validation_witness :
    (validateExpressions [("a", [1]), ("b", [2, 1])]).isOk = false ∧
    (strValidateExpressions [("a", "bar".data), ("b", "foobar".data)]).isOk = false :=
  claim6_validation_rejects [("a", [1]), ("b", [2, 1])]
    [("a", "bar".data), ("b", "foobar".data)]
    (Or.inr (Or.inr ⟨0, 1, by decide, by decide, by decide, ⟨[2], rfl⟩⟩))
    (Or.inr (Or.inr ⟨0, 1, by decide, by decide, by decide, ⟨"foo".data, by decide⟩⟩))

/-- Claim C7: a pattern set accepted by the constructor's validation is
suffix-free, and feeding any stream of symbols (with arbitrary interleaved
resets) through `next` never reaches the multiple-simultaneous-matches
throw: at most one key completes per symbol, so every run returns `ok`. -/
theorem claim7_single_completion (npats : List (String × List Nat))
    (spats : List (String × Str))
    (h1 : (validateExpressions npats).isOk = true)
    (h2 : (strValidateExpressions spats).isOk = true)
    (ops1 : List (MatcherOp Nat)) (ops2 : List (MatcherOp Char)) :
    (matcherRun (matcherInit npats) ops1).isOk = true ∧
    (matcherRun (matcherInit spats) ops2).isOk = true :=
  ⟨matcherRun_ok (pairwiseSF_of_no_ambiguity npats
      (validateExpressions_ok_no_ambiguity npats h1)) ops1 (matcherInit npats) []
      rfl (forall₂_invKey_empty npats []),
   matcherRun_ok (pairwiseSF_of_no_ambiguity spats
      (strValidateExpressions_ok_no_ambiguity spats h2)) ops2 (matcherInit spats) []
      rfl (forall₂_invKey_empty spats [])⟩

/-- Claim C7 at concrete inputs: two valid pattern sets and two streams with a
reset in between and completing matches. -/
theorem claim7_single_completion_witness :
    (matcherRun (matcherInit [("a", [1]), ("b", [2])])
      [MatcherOp.next 1, MatcherOp.reset, MatcherOp.next 2]).isOk = true ∧
    (matcherRun (matcherInit [("a", "ab".data)])
      [MatcherOp.next 'a', MatcherOp.next 'b']).isOk = true :=
  claim7_single_completion [("a", [1]), ("b", [2])] [("a", "ab".data)]
    (by decide) (by decide)
    [MatcherOp.next 1, MatcherOp.reset, MatcherOp.next 2]
    [MatcherOp.next 'a', MatcherOp.next 'b']

/-- Claim C8 (code bug): the `BracesMatcher` constructor *accepts* the pairs
`("a","b"), ("c","b")` although the closing character `"b"` is repeated — the
constructor's `tempIntersectionCheck` list only ever receives opening
characters, so repeated closing characters (among themselves) are never
caught, contradicting the spec's all-pairwise-distinct validation. -/
theorem claim8_duplicate_closing_accepted :
    (bracesMatcherInit [⟨"a".data, "b".data⟩, ⟨"c".data, "b".data⟩]).isOk = true ∧
    specBracesAllDistinct [⟨"a".data, "b".data⟩, ⟨"c".data, "b".data⟩] = false :=
  ⟨rfl, rfl⟩

/-- Claim C9, counterexample: parsing the literal scenario input
`x = (1 +\n 2)` does *not* succeed: the continuation line's one-space
indentation makes `preparse` throw a `CodeParsingError` (no factor in
`[12,6,4,3,2]` leaves at most 20% of the space-indent counts inconsistent). -/
theorem claim9_counterexample :
    parsePython pyContLiteralLines = Except.error (ParseErr.parsing
      "Unable to detect a consistent indentation step within the allowed threshold.") :=
  rfl

/-- Claim C9 (corrected): with a continuation indented by two spaces
(`x = (1 +\n  2)`), the parse succeeds, the whole statement is classified as a
single `STATEMENTS_FILLER` symbol (the inner `'\n'` does not terminate it,
the bracket depth being 1) followed only by the trailing newline's `FILLER`,
and no AST node is produced for it (the root has no children). -/
theorem claim9_single_statement :
    topLevelSymbolStates pythonFrontEnd pythonLexer pyLexInit pyInitState
      pyContIndentLines =
      Except.ok [PSym.term Terminal.STATEMENTS_FILLER, PSym.term Terminal.FILLER] ∧
    parsedRootChildless (parsePython pyContIndentLines) = true :=
  ⟨rfl, rfl⟩

/-- Claim C10: for every language front-end (any detector family, lexer and
initial states), `parse` on an empty line list, or on a single empty line,
throws the `CodeParsingError` "Cannot parse empty string!" — the guard sits
before tokenization, so no language component is consulted. -/
theorem claim10_empty_input {σ τ : Type} (lang : LangParser σ)
    (lexer : LexAutomaton τ) (lexInit : τ) (s0 : σ) :
    parseWith lang lexer lexInit s0 [] =
      Except.error (ParseErr.parsing "Cannot parse empty string!") ∧
    parseWith lang lexer lexInit s0 [[]] =
      Except.error (ParseErr.parsing "Cannot parse empty string!") :=
  ⟨rfl, rfl⟩

end WebAST
